import Mathlib

/-!
Cannon shooting game: projectile motion, collisions and scoring

A shallow embedding of the game logic of `game.cpp` (the input callbacks
`keyboard`, `keyboardChar`, `mouseButton`, `scroll_callback`, the helpers
`resetprojectile`, `checkcollisionbarrier`, `cannonanglecheck`, `resetbullet`
and the per-frame function `draw`).

Modelling conventions.

* The C++ globals become the fields of one record `Game K`, with the names of
  the source.  `float`/`double` values are idealised as exact numbers of an
  ordered field `K` (rounding, infinities and NaN are not modelled); every
  definition is computable and can be run at `K = ℚ`, and is read at `K = ℝ`
  when a statement needs the real `cos`, `sin`, `tan` and `sqrt`.
* The functions of the C math library are a parameter `m : Libm K`.
* `glfwGetTime()` is an external clock.  It is a parameter `clk : ℕ → K`; the
  field `reads` counts the calls made so far, and the `n`-th call returns
  `clk n`.
* The rendering calls are kept only as the list `rendered` of the shapes
  submitted by `draw3DObject` during the current frame.
* `int` variables are `Int`; the literal `3/4` of the source is the integer
  division of `3` by `4`.
* The loop of `main` is the record `Main K`: the globals, the local `k` and the
  list of what `printf` has written.  Its runs are sequences of events, a frame
  (`draw()` with the score report) or a callback; the sequences in which a
  frame comes first and callbacks come between frames are the runs of the
  program.
* The older variant `aa.cpp` is embedded on the record `Aa.Game K` of the
  globals of that file: its `keyboard` is `Aa.keyboard`, its `cannonanglecheck`
  is `Aa.cannonanglecheck` and its `draw`, without the rendering calls, is
  `Aa.draw`.
-/

namespace ShootingGame

/-- The functions and the constant of the C math library that the game uses. -/
structure Libm (K : Type) where
  cos : K → K
  sin : K → K
  tan : K → K
  sqrt : K → K
  M_PI : K

/-- The shapes that `draw` can submit to `draw3DObject`. -/
inductive Shape where
  | triangle | rectangle | cannon
  | square1 | square2 | square3 | square4 | square5
  | rectangle1 | rectangle2 | rectangle3
  | barrier1 | barrier2 | bullet
  | rectanglesideup | rectangleleft | rectangleright
  deriving DecidableEq, Repr

/-- The global variables of `game.cpp` that the game logic reads or writes,
together with the render log and the number of clock reads. -/
structure Game (K : Type) where
  last_update_time : K
  current_time : K
  t : K
  powertimeend : K
  powertimestart : K
  slab : K
  flagscore : Int
  newflagcannon : Int
  bulletflag : Int
  resetbulletflag : Int
  cannonrotflag : K
  ux : K
  uy : K
  vx : K
  vy : K
  sx : K
  sy : K
  ax : K
  ay : K
  cannon_rotation : K
  zoom : K
  flagsquare5 : Int
  flagrectangle1 : Int
  flagrectangle2 : Int
  flagsquare1 : Int
  flagsquare2 : Int
  flagsquare3 : Int
  flagsquare4 : Int
  flagrectangle3 : Int
  flagtriangle : Int
  square5_rotation : K
  bullet_rotation : K
  barrier1_rotation : K
  barrier2_rotation : K
  rendered : List Shape
  reads : Nat

/-- The keys that `keyboard` distinguishes; every other key is `other`. -/
inductive Key where
  | GLFW_KEY_UP | GLFW_KEY_DOWN | GLFW_KEY_SPACE | other
  deriving DecidableEq, Repr

/-- The actions GLFW reports for a key or a mouse button. -/
inductive Action where
  | GLFW_PRESS | GLFW_RELEASE | GLFW_REPEAT
  deriving DecidableEq, Repr

/-- The mouse buttons that `mouseButton` distinguishes. -/
inductive Button where
  | GLFW_MOUSE_BUTTON_LEFT | GLFW_MOUSE_BUTTON_RIGHT | other
  deriving DecidableEq, Repr

section Definitions

variable {K : Type} [LinearOrderedField K]

/-- The global `float powerfac=2`, which no function assigns. -/
def powerfac : K := 2

/-- One call of `glfwGetTime()`: the value read. -/
def glfwGetTime (clk : ℕ → K) (s : Game K) : K := clk s.reads

/-- One call of `glfwGetTime()`: the clock has been read once more. -/
def tick (s : Game K) : Game K := { s with reads := s.reads + 1 }

/-- The angle `deg*M_PI/180.0f` passed to `cos`, `sin` and `tan`. -/
def rad (m : Libm K) (deg : K) : K := deg * m.M_PI / 180

/-- The function `keyboard (window, key, scancode, action, mods)`. -/
def keyboard (m : Libm K) (clk : ℕ → K) (key : Key) (action : Action) (s : Game K) : Game K :=
  let s1 :=
    if action = Action.GLFW_PRESS then
      match key with
      | Key.GLFW_KEY_UP =>
        if s.bulletflag ≠ 1 then
          { s with cannonrotflag := 1, newflagcannon := s.newflagcannon + 1 }
        else s
      | Key.GLFW_KEY_DOWN =>
        if s.bulletflag ≠ 1 then
          { s with cannonrotflag := -1, newflagcannon := s.newflagcannon - 1 }
        else s
      | Key.GLFW_KEY_SPACE =>
        if s.bulletflag ≠ 1 then
          tick { s with powertimestart := glfwGetTime clk s }
        else s
      | Key.other => s
    else s
  if action = Action.GLFW_RELEASE then
    match key with
    | Key.GLFW_KEY_SPACE =>
      if s1.bulletflag ≠ 1 then
        let s2 := tick { s1 with bulletflag := 1, last_update_time := glfwGetTime clk s1 }
        let s3 := tick { s2 with powertimeend := glfwGetTime clk s2 }
        let s4 := { s3 with ux := ((s3.powertimeend - s3.powertimestart) * powerfac)
                              * m.cos (rad m s3.cannon_rotation) }
        { s4 with uy := ((s4.powertimeend - s4.powertimestart) * powerfac)
                          * m.sin (rad m s4.cannon_rotation) }
      else s1
    | Key.GLFW_KEY_UP => { s1 with cannonrotflag := 0 }
    | Key.GLFW_KEY_DOWN => { s1 with cannonrotflag := 0 }
    | Key.other => s1
  else s1

/-- The function `keyboardChar (window, key)`; `none` is the end of the
process, which `quit` brings about. -/
def keyboardChar (m : Libm K) (key : Char) (s : Game K) : Option (Game K) :=
  if key = 'Q' ∨ key = 'q' then none
  else if key = 'o' then
    some (if s.zoom ≤ 0.995 then { s with zoom := s.zoom + 0.005 } else s)
  else if key = 'p' then
    some (if s.zoom > 0.005 then { s with zoom := s.zoom - 0.005 } else s)
  else if key = 'r' then
    let s1 := { s with bulletflag := 0 }
    let s2 := { s1 with sx := -9 + 2 * m.cos (rad m s1.cannon_rotation) }
    some { s2 with sy := -4 + 2 * m.sin (rad m s2.cannon_rotation) }
  else some s

/-- The function `mouseButton (window, button, action, mods)`. -/
def mouseButton (m : Libm K) (clk : ℕ → K) (button : Button) (action : Action)
    (s : Game K) : Game K :=
  match button with
  | Button.GLFW_MOUSE_BUTTON_LEFT =>
    if action = Action.GLFW_PRESS then
      if s.bulletflag ≠ 1 then
        tick { s with powertimestart := glfwGetTime clk s }
      else s
    else if action = Action.GLFW_RELEASE then
      if s.bulletflag ≠ 1 then
        let s2 := tick { s with bulletflag := 1, last_update_time := glfwGetTime clk s }
        let s3 := tick { s2 with powertimeend := glfwGetTime clk s2 }
        let s4 := { s3 with ux := ((s3.powertimeend - s3.powertimestart) * powerfac)
                              * m.cos (rad m s3.cannon_rotation) }
        { s4 with uy := ((s4.powertimeend - s4.powertimestart) * powerfac)
                          * m.sin (rad m s4.cannon_rotation) }
      else s
    else s
  | Button.GLFW_MOUSE_BUTTON_RIGHT =>
    if action = Action.GLFW_PRESS then
      let s1 := { s with bulletflag := 0 }
      let s2 := { s1 with sx := -9 + 2 * m.cos (rad m s1.cannon_rotation) }
      { s2 with sy := -4 + 2 * m.sin (rad m s2.cannon_rotation) }
    else s
  | Button.other => s

/-- The function `scroll_callback (window, xoffset, yoffset)`. -/
def scroll_callback (yoffset : K) (s : Game K) : Game K :=
  if yoffset > 0 then
    if s.zoom ≤ 0.990 then { s with zoom := s.zoom + 0.01 } else s
  else { s with zoom := s.zoom - 0.01 }

/-- The function `resetprojectile()`. -/
def resetprojectile (clk : ℕ → K) (s : Game K) : Game K :=
  let s1 := { s with vx := s.ux + s.ax * s.t }
  let s2 := { s1 with vy := s1.uy + s1.ay * s1.t }
  tick { s2 with last_update_time := glfwGetTime clk s2 }

/-- The function `checkcollisionbarrier()`.  It executes `return 1` when the
test passes and otherwise reaches the end of its body without a `return`
statement: `none` stands for "no value returned". -/
def checkcollisionbarrier (m : Libm K) (s : Game K) : Option Int :=
  let dis1 := |s.sy - (m.tan (rad m s.barrier1_rotation)) * s.sx - 3
                - m.tan (rad m s.barrier1_rotation)|
              / m.sqrt (1 + m.tan (rad m s.barrier1_rotation) * m.tan (rad m s.barrier1_rotation))
  let dis2 := |s.sy - (m.tan (rad m s.barrier2_rotation)) * s.sx + 3
                - m.tan (rad m s.barrier2_rotation)|
              / m.sqrt (1 + m.tan (rad m s.barrier2_rotation) * m.tan (rad m s.barrier2_rotation))
  let dis3 := m.sqrt ((s.sx + 1) ^ 2 + (s.sy - 3) ^ 2)
  let dis4 := m.sqrt ((s.sx + 1) ^ 2 + (s.sy + 3) ^ 2)
  if (dis1 ≤ 0.3 ∧ dis3 ≤ 1.5) ∨ (dis2 ≤ 0.3 ∧ dis4 ≤ 1.5) then some 1 else none

/-- The function `cannonanglecheck()`. -/
def cannonanglecheck (m : Libm K) (s : Game K) : Game K :=
  if s.cannonrotflag = 1 ∧ s.cannon_rotation < 75 then
    let s1 := { s with cannon_rotation := s.cannon_rotation + s.cannonrotflag }
    let s2 := { s1 with sx := -9 + 2 * m.cos (rad m s1.cannon_rotation) }
    { s2 with sy := -4 + 2 * m.sin (rad m s2.cannon_rotation) }
  else if s.cannonrotflag = -1 ∧ s.cannon_rotation > -45 then
    let s1 := { s with cannon_rotation := s.cannon_rotation + s.cannonrotflag }
    let s2 := { s1 with sx := -9 + 2 * m.cos (rad m s1.cannon_rotation) }
    { s2 with sy := -4 + 2 * m.sin (rad m s2.cannon_rotation) }
  else s

/-- The function `resetbullet()`. -/
def resetbullet (m : Libm K) (s : Game K) : Game K :=
  { cannonanglecheck m s with bulletflag := 0 }

/-- The call `draw3DObject(shape)`: the shape is submitted for rendering. -/
def draw3DObject (shape : Shape) (s : Game K) : Game K :=
  { s with rendered := s.rendered ++ [shape] }

/-- The `if (sx<xedge) ... else if (sy>yedge) ...` statement that ends the hit
branch of every target but `square5`.  The factor `(3/4)` is a quotient of two
`int` literals. -/
def deflect (xedge yedge : K) (s : Game K) : Game K :=
  if s.sx < xedge then
    let s1 := { s with ux := -s.vx * (((3 : Int) / 4 : Int) : K) }
    { s1 with sx := s1.sx - 0.3 }
  else if s.sy > yedge then
    let s1 := { s with uy := -s.vy * (((3 : Int) / 4 : Int) : K) }
    { s1 with sy := s1.sy + 0.3 }
  else s

/-- The hit test and the rendering of `triangle` in `draw` (lines 920-937). -/
def hitTriangle (clk : ℕ → K) (s : Game K) : Game K :=
  let s1 :=
    if |s.sx - 6| ≤ 0.7 ∧ |s.sy + 5| ≤ 0.9 ∧ s.flagtriangle ≠ 1 then
      deflect 5.3 (-4.1)
        (resetprojectile clk { s with flagscore := s.flagscore + 25, flagtriangle := 1 })
    else s
  if s1.flagtriangle ≠ 1 then draw3DObject Shape.triangle s1 else s1

/-- The hit test and the rendering of `square1` in `draw` (lines 978-995). -/
def hitSquare1 (clk : ℕ → K) (s : Game K) : Game K :=
  let s1 :=
    if |s.sx - 4| ≤ 1.1 ∧ |s.sy + 5| ≤ 1.1 ∧ s.flagsquare1 ≠ 1 then
      deflect 3 (-4.1)
        (resetprojectile clk { s with flagscore := s.flagscore + 10, flagsquare1 := 1 })
    else s
  if s1.flagsquare1 ≠ 1 then draw3DObject Shape.square1 s1 else s1

/-- The hit test and the rendering of `square2` in `draw` (lines 1005-1022). -/
def hitSquare2 (clk : ℕ → K) (s : Game K) : Game K :=
  let s1 :=
    if |s.sx - 8| ≤ 1.1 ∧ |s.sy + 5| ≤ 1.1 ∧ s.flagsquare2 ≠ 1 then
      deflect 7 (-4)
        (resetprojectile clk { s with flagscore := s.flagscore + 10, flagsquare2 := 1 })
    else s
  if s1.flagsquare2 ≠ 1 then draw3DObject Shape.square2 s1 else s1

/-- The hit test and the rendering of `square3` in `draw` (lines 1034-1051). -/
def hitSquare3 (clk : ℕ → K) (s : Game K) : Game K :=
  let s1 :=
    if |s.sx - 6| ≤ 2.1 ∧ |s.sy + 2| ≤ 0.8 ∧ s.flagsquare3 ≠ 1 then
      deflect 4.1 (-1.4)
        (resetprojectile clk { s with flagscore := s.flagscore + 5, flagsquare3 := 1 })
    else s
  if s1.flagsquare3 ≠ 1 then draw3DObject Shape.square3 s1 else s1

/-- The hit test and the rendering of `square4` in `draw` (lines 1061-1078). -/
def hitSquare4 (clk : ℕ → K) (s : Game K) : Game K :=
  let s1 :=
    if |s.sx - 6| ≤ 1.1 ∧ |s.sy + 0.8| ≤ 0.6 ∧ s.flagsquare4 ≠ 1 then
      deflect 5.01 (-0.35)
        (resetprojectile clk { s with flagscore := s.flagscore + 5, flagsquare4 := 1 })
    else s
  if s1.flagsquare4 ≠ 1 then draw3DObject Shape.square4 s1 else s1

/-- The hit test and the rendering of `square5` in `draw` (lines 1090-1109);
both of its branches assign `ux` and `uy`. -/
def hitSquare5 (clk : ℕ → K) (s : Game K) : Game K :=
  let s1 :=
    if |s.sx - 6| ≤ 0.35 ∧ |s.sy - 0.25| ≤ 0.35 ∧ s.flagsquare5 ≠ 1 then
      let r := resetprojectile clk { s with flagscore := s.flagscore + 20, flagsquare5 := 1 }
      if r.sx < 5.75 then
        let r1 := { r with ux := -r.vx * (((3 : Int) / 4 : Int) : K) }
        let r2 := { r1 with uy := -r1.vy * (((3 : Int) / 4 : Int) : K) }
        { r2 with sx := r2.sx - 0.3 }
      else if r.sy > 0.50 then
        let r1 := { r with uy := -r.vy * (((3 : Int) / 4 : Int) : K) }
        let r2 := { r1 with ux := -r1.vx * (((3 : Int) / 4 : Int) : K) }
        { r2 with sy := r2.sy + 0.3 }
      else r
    else s
  if s1.flagsquare5 ≠ 1 then draw3DObject Shape.square5 s1 else s1

/-- The hit test and the rendering of `rectangle1` in `draw` (lines 1127-1144). -/
def hitRectangle1 (clk : ℕ → K) (s : Game K) : Game K :=
  let s1 :=
    if |s.sx - 2.5| ≤ 0.6 ∧ |s.sy + 4.5| ≤ 1.6 ∧ s.flagrectangle1 ≠ 1 then
      deflect 2 (-3.1)
        (resetprojectile clk { s with flagscore := s.flagscore + 3, flagrectangle1 := 1 })
    else s
  if s1.flagrectangle1 ≠ 1 then draw3DObject Shape.rectangle1 s1 else s1

/-- The hit test and the rendering of `rectangle2` in `draw` (lines 1154-1171). -/
def hitRectangle2 (clk : ℕ → K) (s : Game K) : Game K :=
  let s1 :=
    if |s.sx - 9.5| ≤ 0.6 ∧ |s.sy + 4.5| ≤ 1.6 ∧ s.flagrectangle2 ≠ 1 then
      deflect 9.01 (-3.01)
        (resetprojectile clk { s with flagscore := s.flagscore + 7, flagrectangle2 := 1 })
    else s
  if s1.flagrectangle2 ≠ 1 then draw3DObject Shape.rectangle2 s1 else s1

/-- The hit test and the rendering of `rectangle3` in `draw` (lines 1183-1200). -/
def hitRectangle3 (clk : ℕ → K) (s : Game K) : Game K :=
  let s1 :=
    if |s.sx - 6| ≤ 2.6 ∧ |s.sy + 3.5| ≤ 0.6 ∧ s.flagrectangle3 ≠ 1 then
      deflect 3.52 (-3.01)
        (resetprojectile clk { s with flagscore := s.flagscore + 7, flagrectangle3 := 1 })
    else s
  if s1.flagrectangle3 ≠ 1 then draw3DObject Shape.rectangle3 s1 else s1

/-- The start of `draw`: `glClear` and the triangle (lines 879-937). -/
def drawTriangle (clk : ℕ → K) (s : Game K) : Game K :=
  hitTriangle clk { s with rendered := [] }

/-- The ground, the cannon and the call of `cannonanglecheck` (lines 944-966). -/
def drawCannon (m : Libm K) (s : Game K) : Game K :=
  let s1 := { s with slab := s.slab + 0.1 }
  cannonanglecheck m (draw3DObject Shape.cannon (draw3DObject Shape.rectangle s1))

/-- The statement `square5_rotation = square5_rotation + increments` (line 1114). -/
def spinSquare5 (s : Game K) : Game K :=
  { s with square5_rotation := s.square5_rotation + 3 }

/-- The two barriers are drawn and turned (lines 1205-1242). -/
def drawBarriers (s : Game K) : Game K :=
  let s1 := draw3DObject Shape.barrier1 s
  let s2 := { s1 with barrier1_rotation := s1.barrier1_rotation - 2 }
  let s3 := draw3DObject Shape.barrier2 s2
  { s3 with barrier2_rotation := s3.barrier2_rotation + 2 }

/-- The velocity update, the drag cut-off and the clock read (lines 1248-1258). -/
def updateTime (m : Libm K) (clk : ℕ → K) (s : Game K) : Game K :=
  let s1 := { s with vx := s.ux + s.ax * s.t }
  let s2 := { s1 with vy := s1.uy + s1.ay * s1.t }
  let s3 := if s2.resetbulletflag = 1 then resetbullet m s2 else s2
  let s4 := if s3.vx < 0.01 then { s3 with ax := 0 } else s3
  let s5 := tick { s4 with current_time := glfwGetTime clk s4 }
  let s6 := { s5 with t := s5.current_time - s5.last_update_time }
  { s6 with t := s6.t / 5 }

/-- The integration step `if(bulletflag==1) ...` (lines 1259-1263). -/
def integrate (s : Game K) : Game K :=
  if s.bulletflag = 1 then
    let s1 := { s with sx := s.sx + s.ux * s.t + (0.5) * s.ax * s.t * s.t }
    { s1 with sy := s1.sy + s1.uy * s1.t + (0.5) * s1.ay * s1.t * s1.t }
  else s

/-- The barrier test and its response (lines 1264-1276).  When
`checkcollisionbarrier` returns no value, `mmm` holds the indeterminate
`junk`. -/
def barrierResponse (m : Libm K) (clk : ℕ → K) (junk : Int) (s : Game K) : Game K :=
  let mmm := (checkcollisionbarrier m s).getD junk
  if mmm = 1 then
    let s1 := { s with sx := s.sx - 0.3 }
    let s2 :=
      if (s1.sy ≥ -3 ∧ s1.sy ≤ -1.5) ∨ (s1.sy ≥ 3 ∧ s1.sy ≤ 4.5) then
        { s1 with uy := s1.uy + 0.5 }
      else if (s1.sy < -3 ∧ s1.sy ≥ -4.5) ∨ (s1.sy < 3 ∧ s1.sy ≥ 1.5) then
        { s1 with uy := s1.uy - 0.5 }
      else s1
    let s3 := resetprojectile clk s2
    { s3 with ux := -s3.vx }
  else s

/-- The floor rule `if(sy<=-5.9) ...` (lines 1279-1287). -/
def floorRule (clk : ℕ → K) (s : Game K) : Game K :=
  if s.sy ≤ -5.9 then
    let s1 := resetprojectile clk s
    let s2 := { s1 with vx := s1.ux + s1.ax * s1.t }
    let s3 := { s2 with vy := s2.uy + s2.ay * s2.t }
    let s4 := { s3 with sy := -6 + 0.12 }
    let s5 := { s4 with uy := -(s4.vy * (1.0)) / 4 }
    { s5 with ux := s5.vx * 3 / 5 }
  else s

/-- The end of `draw`: the bullet and the three walls (lines 1288-1339). -/
def drawBullet (s : Game K) : Game K :=
  let s1 := draw3DObject Shape.bullet s
  let s2 := { s1 with bullet_rotation := s1.bullet_rotation + 100 }
  let s3 := { s2 with slab := s2.slab + 0.1 }
  draw3DObject Shape.rectangleright
    (draw3DObject Shape.rectangleleft (draw3DObject Shape.rectanglesideup s3))

/-- The first part of `draw`, up to and including the nine targets
(lines 879-1200). -/
def drawTargets (m : Libm K) (clk : ℕ → K) (s : Game K) : Game K :=
  hitRectangle3 clk (hitRectangle2 clk (hitRectangle1 clk (spinSquare5
    (hitSquare5 clk (hitSquare4 clk (hitSquare3 clk (hitSquare2 clk (hitSquare1 clk
      (drawCannon m (drawTriangle clk s))))))))))

/-- The second part of `draw`: barriers, motion, barrier response, floor rule
and the last shapes (lines 1205-1339). -/
def drawMotion (m : Libm K) (clk : ℕ → K) (junk : Int) (s : Game K) : Game K :=
  drawBullet (floorRule clk (barrierResponse m clk junk
    (integrate (updateTime m clk (drawBarriers s)))))

/-- The function `draw()`: one frame. -/
def draw (m : Libm K) (clk : ℕ → K) (junk : Int) (s : Game K) : Game K :=
  drawMotion m clk junk (drawTargets m clk s)

/-- The values of the globals when `main` starts: the initialisers of the
declarations, zero for the globals declared without one.  The initialiser of
`last_update_time` is the first clock read. -/
def initial (clk : ℕ → K) : Game K :=
  { last_update_time := clk 0, current_time := 0, t := 0, powertimeend := 0,
    powertimestart := 0, slab := 0, flagscore := 0, newflagcannon := 0, bulletflag := 0,
    resetbulletflag := 0, cannonrotflag := 0, ux := 0, uy := 0, vx := 0, vy := 0,
    sx := -7, sy := -4, ax := 0, ay := 0, cannon_rotation := 0, zoom := 1,
    flagsquare5 := 0, flagrectangle1 := 0, flagrectangle2 := 0, flagsquare1 := 0,
    flagsquare2 := 0, flagsquare3 := 0, flagsquare4 := 0, flagrectangle3 := 0,
    flagtriangle := 0, square5_rotation := 0, bullet_rotation := 0,
    barrier1_rotation := 0, barrier2_rotation := 0, rendered := [], reads := 1 }

/-- The startup configuration of `main` (lines 1452-1461): the two numbers read
from standard input select `ay` and `ax`. -/
def configure (gravityvariable airvar : K) (s : Game K) : Game K :=
  let s1 := if gravityvariable = 1 then { s with ay := -15 } else { s with ay := -5 }
  if airvar = 1 then { s1 with ax := -1 }
  else if airvar = 2 then { s1 with ax := -4 }
  else { s1 with ax := -8 }

/-- The state in which the main loop is entered. -/
def start (clk : ℕ → K) (gravityvariable airvar : K) : Game K :=
  configure gravityvariable airvar (initial clk)

/-- What can happen in the main loop: a callback run by `glfwPollEvents`, or
one call of `draw`.  The frame carries the indeterminate value that `mmm`
receives when `checkcollisionbarrier` returns none. -/
inductive Event (K : Type) where
  | key (key : Key) (action : Action)
  | char (key : Char)
  | mouse (button : Button) (action : Action)
  | scroll (yoffset : K)
  | frame (junk : Int)

/-- One event; `none` when the process ends. -/
def step (m : Libm K) (clk : ℕ → K) (e : Event K) (s : Game K) : Option (Game K) :=
  match e with
  | Event.key key action => some (keyboard m clk key action s)
  | Event.char key => keyboardChar m key s
  | Event.mouse button action => some (mouseButton m clk button action s)
  | Event.scroll yoffset => some (scroll_callback yoffset s)
  | Event.frame junk => some (draw m clk junk s)

/-- The state after a sequence of events; the events after the end of the
process have no effect. -/
def run (m : Libm K) (clk : ℕ → K) : List (Event K) → Game K → Game K
  | [], s => s
  | e :: es, s =>
    match step m clk e s with
    | some s1 => run m clk es s1
    | none => s

/-- The states in which the frames of a sequence of events start, in order. -/
def frameStarts (m : Libm K) (clk : ℕ → K) : List (Event K) → Game K → List (Game K)
  | [], _ => []
  | e :: es, s =>
    match step m clk e s with
    | some s1 =>
      match e with
      | Event.frame _ => s :: frameStarts m clk es s1
      | _ => frameStarts m clk es s1
    | none => []

/-- The nine targets, in the order in which `draw` tests them. -/
inductive Target where
  | triangle | square1 | square2 | square3 | square4 | square5
  | rectangle1 | rectangle2 | rectangle3
  deriving DecidableEq, Repr

/-- The amount that the hit branch of a target adds to `flagscore`. -/
def Target.points : Target → Int
  | Target.triangle => 25
  | Target.square1 => 10
  | Target.square2 => 10
  | Target.square3 => 5
  | Target.square4 => 5
  | Target.square5 => 20
  | Target.rectangle1 => 3
  | Target.rectangle2 => 7
  | Target.rectangle3 => 7

/-- The flag variable of a target. -/
def Target.flag (i : Target) (s : Game K) : Int :=
  match i with
  | Target.triangle => s.flagtriangle
  | Target.square1 => s.flagsquare1
  | Target.square2 => s.flagsquare2
  | Target.square3 => s.flagsquare3
  | Target.square4 => s.flagsquare4
  | Target.square5 => s.flagsquare5
  | Target.rectangle1 => s.flagrectangle1
  | Target.rectangle2 => s.flagrectangle2
  | Target.rectangle3 => s.flagrectangle3

/-- The box test of a target, without the test of its flag. -/
def Target.inBox (i : Target) (s : Game K) : Prop :=
  match i with
  | Target.triangle => |s.sx - 6| ≤ 0.7 ∧ |s.sy + 5| ≤ 0.9
  | Target.square1 => |s.sx - 4| ≤ 1.1 ∧ |s.sy + 5| ≤ 1.1
  | Target.square2 => |s.sx - 8| ≤ 1.1 ∧ |s.sy + 5| ≤ 1.1
  | Target.square3 => |s.sx - 6| ≤ 2.1 ∧ |s.sy + 2| ≤ 0.8
  | Target.square4 => |s.sx - 6| ≤ 1.1 ∧ |s.sy + 0.8| ≤ 0.6
  | Target.square5 => |s.sx - 6| ≤ 0.35 ∧ |s.sy - 0.25| ≤ 0.35
  | Target.rectangle1 => |s.sx - 2.5| ≤ 0.6 ∧ |s.sy + 4.5| ≤ 1.6
  | Target.rectangle2 => |s.sx - 9.5| ≤ 0.6 ∧ |s.sy + 4.5| ≤ 1.6
  | Target.rectangle3 => |s.sx - 6| ≤ 2.6 ∧ |s.sy + 3.5| ≤ 0.6

/-- The box test of a target can be evaluated. -/
instance Target.decidableInBox (i : Target) (s : Game K) : Decidable (i.inBox s) :=
  match i with
  | Target.triangle => inferInstanceAs (Decidable (_ ∧ _))
  | Target.square1 => inferInstanceAs (Decidable (_ ∧ _))
  | Target.square2 => inferInstanceAs (Decidable (_ ∧ _))
  | Target.square3 => inferInstanceAs (Decidable (_ ∧ _))
  | Target.square4 => inferInstanceAs (Decidable (_ ∧ _))
  | Target.square5 => inferInstanceAs (Decidable (_ ∧ _))
  | Target.rectangle1 => inferInstanceAs (Decidable (_ ∧ _))
  | Target.rectangle2 => inferInstanceAs (Decidable (_ ∧ _))
  | Target.rectangle3 => inferInstanceAs (Decidable (_ ∧ _))

/-- The part of `draw` that belongs to one target: its hit test and its
rendering. -/
def Target.hit (clk : ℕ → K) (i : Target) (s : Game K) : Game K :=
  match i with
  | Target.triangle => hitTriangle clk s
  | Target.square1 => hitSquare1 clk s
  | Target.square2 => hitSquare2 clk s
  | Target.square3 => hitSquare3 clk s
  | Target.square4 => hitSquare4 clk s
  | Target.square5 => hitSquare5 clk s
  | Target.rectangle1 => hitRectangle1 clk s
  | Target.rectangle2 => hitRectangle2 clk s
  | Target.rectangle3 => hitRectangle3 clk s

/-- The state that a frame started in `s` has reached when `draw` arrives at
the hit test of the target. -/
def Target.before (m : Libm K) (clk : ℕ → K) (i : Target) (s : Game K) : Game K :=
  match i with
  | Target.triangle => { s with rendered := [] }
  | Target.square1 => drawCannon m (drawTriangle clk s)
  | Target.square2 => hitSquare1 clk (drawCannon m (drawTriangle clk s))
  | Target.square3 => hitSquare2 clk (hitSquare1 clk (drawCannon m (drawTriangle clk s)))
  | Target.square4 =>
    hitSquare3 clk (hitSquare2 clk (hitSquare1 clk (drawCannon m (drawTriangle clk s))))
  | Target.square5 =>
    hitSquare4 clk (hitSquare3 clk (hitSquare2 clk (hitSquare1 clk
      (drawCannon m (drawTriangle clk s)))))
  | Target.rectangle1 =>
    spinSquare5 (hitSquare5 clk (hitSquare4 clk (hitSquare3 clk (hitSquare2 clk
      (hitSquare1 clk (drawCannon m (drawTriangle clk s)))))))
  | Target.rectangle2 =>
    hitRectangle1 clk (spinSquare5 (hitSquare5 clk (hitSquare4 clk (hitSquare3 clk
      (hitSquare2 clk (hitSquare1 clk (drawCannon m (drawTriangle clk s))))))))
  | Target.rectangle3 =>
    hitRectangle2 clk (hitRectangle1 clk (spinSquare5 (hitSquare5 clk (hitSquare4 clk
      (hitSquare3 clk (hitSquare2 clk (hitSquare1 clk
        (drawCannon m (drawTriangle clk s)))))))))

/-- What the hit test of the target adds to `flagscore` in the frame that
starts in `s`. -/
def Target.added (m : Libm K) (clk : ℕ → K) (i : Target) (s : Game K) : Int :=
  (i.hit clk (i.before m clk s)).flagscore - (i.before m clk s).flagscore

/-- The score and the nine flags of a state. -/
structure Board where
  flagscore : Int
  flagtriangle : Int
  flagsquare1 : Int
  flagsquare2 : Int
  flagsquare3 : Int
  flagsquare4 : Int
  flagsquare5 : Int
  flagrectangle1 : Int
  flagrectangle2 : Int
  flagrectangle3 : Int
  deriving DecidableEq, Repr

/-- The score and the flags held by a state. -/
def Game.board (s : Game K) : Board :=
  { flagscore := s.flagscore, flagtriangle := s.flagtriangle, flagsquare1 := s.flagsquare1,
    flagsquare2 := s.flagsquare2, flagsquare3 := s.flagsquare3, flagsquare4 := s.flagsquare4,
    flagsquare5 := s.flagsquare5, flagrectangle1 := s.flagrectangle1,
    flagrectangle2 := s.flagrectangle2, flagrectangle3 := s.flagrectangle3 }

/-- The two assignments that open the hit branch of a target: its points are
added to the score and its flag is set. -/
def Board.destroy (i : Target) (b : Board) : Board :=
  match i with
  | Target.triangle => { b with flagscore := b.flagscore + 25, flagtriangle := 1 }
  | Target.square1 => { b with flagscore := b.flagscore + 10, flagsquare1 := 1 }
  | Target.square2 => { b with flagscore := b.flagscore + 10, flagsquare2 := 1 }
  | Target.square3 => { b with flagscore := b.flagscore + 5, flagsquare3 := 1 }
  | Target.square4 => { b with flagscore := b.flagscore + 5, flagsquare4 := 1 }
  | Target.square5 => { b with flagscore := b.flagscore + 20, flagsquare5 := 1 }
  | Target.rectangle1 => { b with flagscore := b.flagscore + 3, flagrectangle1 := 1 }
  | Target.rectangle2 => { b with flagscore := b.flagscore + 7, flagrectangle2 := 1 }
  | Target.rectangle3 => { b with flagscore := b.flagscore + 7, flagrectangle3 := 1 }

/-- The flag of a target on a board. -/
def Board.flag (i : Target) (b : Board) : Int :=
  match i with
  | Target.triangle => b.flagtriangle
  | Target.square1 => b.flagsquare1
  | Target.square2 => b.flagsquare2
  | Target.square3 => b.flagsquare3
  | Target.square4 => b.flagsquare4
  | Target.square5 => b.flagsquare5
  | Target.rectangle1 => b.flagrectangle1
  | Target.rectangle2 => b.flagrectangle2
  | Target.rectangle3 => b.flagrectangle3

/-- The part of `draw` that follows the hit test of the target. -/
def Target.after (m : Libm K) (clk : ℕ → K) (junk : Int) (i : Target) (s : Game K) : Game K :=
  match i with
  | Target.triangle =>
    drawMotion m clk junk (hitRectangle3 clk (hitRectangle2 clk (hitRectangle1 clk (spinSquare5
      (hitSquare5 clk (hitSquare4 clk (hitSquare3 clk (hitSquare2 clk (hitSquare1 clk
        (drawCannon m s))))))))))
  | Target.square1 =>
    drawMotion m clk junk (hitRectangle3 clk (hitRectangle2 clk (hitRectangle1 clk (spinSquare5
      (hitSquare5 clk (hitSquare4 clk (hitSquare3 clk (hitSquare2 clk s))))))))
  | Target.square2 =>
    drawMotion m clk junk (hitRectangle3 clk (hitRectangle2 clk (hitRectangle1 clk (spinSquare5
      (hitSquare5 clk (hitSquare4 clk (hitSquare3 clk s)))))))
  | Target.square3 =>
    drawMotion m clk junk (hitRectangle3 clk (hitRectangle2 clk (hitRectangle1 clk (spinSquare5
      (hitSquare5 clk (hitSquare4 clk s))))))
  | Target.square4 =>
    drawMotion m clk junk (hitRectangle3 clk (hitRectangle2 clk (hitRectangle1 clk (spinSquare5
      (hitSquare5 clk s)))))
  | Target.square5 =>
    drawMotion m clk junk (hitRectangle3 clk (hitRectangle2 clk (hitRectangle1 clk
      (spinSquare5 s))))
  | Target.rectangle1 => drawMotion m clk junk (hitRectangle3 clk (hitRectangle2 clk s))
  | Target.rectangle2 => drawMotion m clk junk (hitRectangle3 clk s)
  | Target.rectangle3 => drawMotion m clk junk s

/-- The number of frames of a sequence of events in which the hit test of the
target adds something to `flagscore`. -/
def Target.scoringFrames (m : Libm K) (clk : ℕ → K) (i : Target) (es : List (Event K))
    (s : Game K) : Nat :=
  ((frameStarts m clk es s).filter (fun r => decide (i.added m clk r ≠ 0))).length

/-- The sum, over the frames of a sequence of events, of what the hit test of
the target adds to `flagscore`. -/
def Target.totalAdded (m : Libm K) (clk : ℕ → K) (i : Target) (es : List (Event K))
    (s : Game K) : Int :=
  ((frameStarts m clk es s).map (fun r => i.added m clk r)).sum

/-- The cannon angle is a whole number of degrees between -45 and 75. -/
def Game.angleOk (s : Game K) : Prop :=
  ∃ n : Int, s.cannon_rotation = (n : K) ∧ -45 ≤ n ∧ n ≤ 75

/-- The point `(p, q)` is within `r` of some point of the line of slope `k`
through `(a, b)`: the distance from the point to that line is at most `r`. -/
def nearLine (m : Libm K) (a b k r p q : K) : Prop :=
  ∃ x y : K, y - b = k * (x - a) ∧ m.sqrt ((p - x) ^ 2 + (q - y) ^ 2) ≤ r

/-- The Euclidean distance from `(p, q)` to `(a, b)` is at most `r`. -/
def nearPoint (m : Libm K) (a b r p q : K) : Prop :=
  m.sqrt ((p - a) ^ 2 + (q - b) ^ 2) ≤ r

/-- A clock for running the definitions: the `n`-th read returns `n`. -/
def exampleClock : ℕ → ℚ := fun n => n

/-- A stand-in for the math library on `ℚ`, exact at the angle 0 and at the
squares 0 and 1; it serves to run the definitions on concrete inputs. -/
def coarseLibm : Libm ℚ :=
  { cos := fun _ => 1, sin := fun _ => 0, tan := fun _ => 0, sqrt := fun x => x,
    M_PI := 355 / 113 }

/-- A state with the projectile in flight at `(2.95, -5)`, inside the box of
`square1` and left of its x-edge, with `ux = 4`. -/
def exampleFlight : Game ℚ :=
  { start exampleClock 1 1 with bulletflag := 1, sx := 2.95, sy := -5, ux := 4 }

/-- A state with the projectile in flight at `(3.5, -4.05)`, inside the box of
`square1`, right of its x-edge and above its y-edge, with `uy = -2`. -/
def exampleGraze : Game ℚ :=
  { start exampleClock 1 1 with bulletflag := 1, sx := 3.5, sy := -4.05, uy := -2 }

/-- A state with the projectile in flight below the floor threshold, moving
down. -/
def exampleFall : Game ℚ :=
  { start exampleClock 1 1 with bulletflag := 1, sx := 0, sy := -6, ux := 5, uy := -2 }

/-- The shape that `draw` submits for a target. -/
def Target.shape : Target → Shape
  | Target.triangle => Shape.triangle
  | Target.square1 => Shape.square1
  | Target.square2 => Shape.square2
  | Target.square3 => Shape.square3
  | Target.square4 => Shape.square4
  | Target.square5 => Shape.square5
  | Target.rectangle1 => Shape.rectangle1
  | Target.rectangle2 => Shape.rectangle2
  | Target.rectangle3 => Shape.rectangle3

/-- What the flag of a target is worth in points: its points when the flag is
1, nothing otherwise. -/
def Target.worth (i : Target) (s : Game K) : Int :=
  if i.flag s = 1 then i.points else 0

/-- The score is the sum of the points of the targets whose flag is 1. -/
def Game.scoreOk (s : Game K) : Prop :=
  s.flagscore = Target.triangle.worth s + Target.square1.worth s + Target.square2.worth s
    + Target.square3.worth s + Target.square4.worth s + Target.square5.worth s
    + Target.rectangle1.worth s + Target.rectangle2.worth s + Target.rectangle3.worth s

/-- What the loop of `main` writes to standard output: the line
`Score-update:<total>` and the banner `YOU WON!!`. -/
inductive Output where
  | scoreUpdate (total : Int)
  | youWon
  deriving DecidableEq, Repr

/-- The state of `main` in its loop: the globals, the local `k` and what has
been written to standard output. -/
structure Main (K : Type) where
  game : Game K
  k : Int
  stdout : List Output

/-- The state in which `main` enters its loop: `k = 0`, nothing written. -/
def mainStart (clk : ℕ → K) (gravityvariable airvar : K) : Main K :=
  { game := start clk gravityvariable airvar, k := 0, stdout := [] }

/-- The body of the loop of `main` up to the score report (lines 1473-1480):
`draw()`, then the `if(flagscore>k)` statement. -/
def loopFrame (m : Libm K) (clk : ℕ → K) (junk : Int) (st : Main K) : Main K :=
  let st1 := { st with game := draw m clk junk st.game }
  if st1.game.flagscore > st1.k then
    let st2 := { st1 with stdout := st1.stdout ++ [Output.scoreUpdate st1.game.flagscore] }
    let st3 := { st2 with k := st2.game.flagscore }
    if st3.game.flagscore > 90 then
      { st3 with stdout := st3.stdout ++ [Output.youWon] }
    else st3
  else st1

/-- What one pass through the loop body writes, from the score `total` that
`draw` leaves and the value of `k`. -/
def report (total k : Int) : List Output :=
  if total > k then
    if total > 90 then [Output.scoreUpdate total, Output.youWon]
    else [Output.scoreUpdate total]
  else []

/-- One event of the main loop: a frame is `draw()` with the score report, any
other event is a callback run by `glfwPollEvents`; `none` when the process
ends. -/
def mainStep (m : Libm K) (clk : ℕ → K) (e : Event K) (st : Main K) : Option (Main K) :=
  match e with
  | Event.frame junk => some (loopFrame m clk junk st)
  | Event.key key action => some { st with game := keyboard m clk key action st.game }
  | Event.char key =>
    match keyboardChar m key st.game with
    | some g => some { st with game := g }
    | none => none
  | Event.mouse button action =>
    some { st with game := mouseButton m clk button action st.game }
  | Event.scroll yoffset => some { st with game := scroll_callback yoffset st.game }

/-- The state of `main` after a sequence of events; the events after the end
of the process have no effect.  The runs of the loop are the sequences in which
a frame comes first and callbacks come between frames. -/
def mainRun (m : Libm K) (clk : ℕ → K) : List (Event K) → Main K → Main K
  | [], st => st
  | e :: es, st =>
    match mainStep m clk e st with
    | some st1 => mainRun m clk es st1
    | none => st

/-- The update of the aim controller in the words of the specification: the
rate is added to the angle and the result is clamped to `[-45, 75]`. -/
def stepThenClamp (angle rate : K) : K := min 75 (max (-45) (angle + rate))

/-- The state without what only the rendering uses: the render log, `slab` and
the rotations of `square5` and of the bullet. -/
def Game.core (s : Game K) : Game K :=
  { s with rendered := [], slab := 0, square5_rotation := 0, bullet_rotation := 0 }

/-- The aim controller has nothing to do: no aim key is held, or the angle is
at its limit. -/
def Game.aimIdle (s : Game K) : Prop :=
  ¬ (s.cannonrotflag = 1 ∧ s.cannon_rotation < 75)
    ∧ ¬ (s.cannonrotflag = -1 ∧ s.cannon_rotation > -45)

/-- The accelerations and the elapsed time of a state. -/
def Game.env (s : Game K) : K × K × K := (s.ax, s.ay, s.t)

/-- A state with the projectile in flight and the DOWN key held since before
the launch: `cannonrotflag = -1` at the angle 1. -/
def exampleHeldKey : Game ℚ :=
  { start exampleClock 1 1 with
    bulletflag := 1, cannonrotflag := -1, cannon_rotation := 1, sx := 0, sy := 0 }

/-- A state in which `square5` has been destroyed. -/
def exampleDestroyed : Game ℚ :=
  { start exampleClock 1 1 with flagsquare5 := 1, flagscore := 20 }

/-- A state with the projectile in flight at the centre `(6, -5)` of the box of
`triangle`, with `ux = 4` and `uy = -2`. -/
def exampleOnTriangle : Game ℚ :=
  { start exampleClock 1 1 with bulletflag := 1, sx := 6, sy := -5, ux := 4, uy := -2 }

/-- The global variables of `aa.cpp` that its `keyboard` and its `draw` write,
or read outside the rendering calls (lines 206-216 and 715-721), together with
the number of clock reads. -/
structure Aa.Game (K : Type) where
  last_update_time : K
  current_time : K
  t : K
  powertimeend : K
  powertimestart : K
  slab : K
  newflagcannon : Int
  oldflagcannon : Int
  bulletflag : Int
  cannonrotflag : K
  ux : K
  uy : K
  vx : K
  vy : K
  sx : K
  sy : K
  ax : K
  ay : K
  square5_rotation : K
  bullet_rotation : K
  cannon_rotation : K
  barrier1_rotation : K
  barrier2_rotation : K
  reads : Nat

/-- The function `keyboard (window, key, scancode, action, mods)` of `aa.cpp`
(lines 219-257).  No branch tests `bulletflag`. -/
def Aa.keyboard (clk : ℕ → K) (key : Key) (action : Action) (s : Aa.Game K) : Aa.Game K :=
  let s1 :=
    if action = Action.GLFW_PRESS then
      match key with
      | Key.GLFW_KEY_UP => { s with cannonrotflag := 1, newflagcannon := s.newflagcannon + 1 }
      | Key.GLFW_KEY_DOWN => { s with cannonrotflag := -1, newflagcannon := s.newflagcannon - 1 }
      | Key.GLFW_KEY_SPACE => { s with powertimestart := clk s.reads, reads := s.reads + 1 }
      | Key.other => s
    else s
  if action = Action.GLFW_RELEASE then
    match key with
    | Key.GLFW_KEY_SPACE =>
      let s2 := { s1 with bulletflag := 1 }
      let s3 := { s2 with last_update_time := clk s2.reads, reads := s2.reads + 1 }
      let s4 := { s3 with powertimeend := clk s3.reads, reads := s3.reads + 1 }
      let s5 := { s4 with ux := (s4.powertimeend - s4.powertimestart) * 5 }
      { s5 with uy := (s5.powertimeend - s5.powertimestart) * 3 }
    | Key.GLFW_KEY_UP => { s1 with cannonrotflag := 0 }
    | Key.GLFW_KEY_DOWN => { s1 with cannonrotflag := 0 }
    | Key.other => s1
  else s1

/-- The function `cannonanglecheck()` of `aa.cpp` (lines 723-737); its upper
limit is 45. -/
def Aa.cannonanglecheck (m : Libm K) (s : Aa.Game K) : Aa.Game K :=
  if s.cannonrotflag = 1 ∧ s.cannon_rotation < 45 then
    let s1 := { s with cannon_rotation := s.cannon_rotation + s.cannonrotflag }
    let s2 := { s1 with sx := -9 + 2 * m.cos (rad m s1.cannon_rotation) }
    { s2 with sy := -4 + 2 * m.sin (rad m s2.cannon_rotation) }
  else if s.cannonrotflag = -1 ∧ s.cannon_rotation > -45 then
    let s1 := { s with cannon_rotation := s.cannon_rotation + s.cannonrotflag }
    let s2 := { s1 with sx := -9 + 2 * m.cos (rad m s1.cannon_rotation) }
    { s2 with sy := -4 + 2 * m.sin (rad m s2.cannon_rotation) }
  else s

/-- The function `draw()` of `aa.cpp` (lines 740-1101): the assignments to the
globals, in the order of the source.  The rendering calls are left out; the elapsed time `t` is not divided, and no statement
tests the position of the projectile or assigns `bulletflag`. -/
def Aa.draw (m : Libm K) (clk : ℕ → K) (s : Aa.Game K) : Aa.Game K :=
  let s1 := { s with slab := s.slab + 0.1 }
  let s2 := Aa.cannonanglecheck m s1
  let s3 := { s2 with square5_rotation := s2.square5_rotation + 3 }
  let s4 := { s3 with current_time := clk s3.reads, reads := s3.reads + 1 }
  let s5 := { s4 with t := s4.current_time - s4.last_update_time }
  let s6 :=
    if s5.bulletflag = 1 then
      let r := { s5 with sx := s5.sx + s5.ux * s5.t + (0.5) * s5.ax * s5.t * s5.t }
      { r with sy := r.sy + r.uy * r.t + (0.5) * r.ay * r.t * r.t }
    else s5
  let s7 := { s6 with bullet_rotation := s6.bullet_rotation + 100 }
  let s8 := { s7 with barrier1_rotation := s7.barrier1_rotation - 2 }
  { s8 with barrier2_rotation := s8.barrier2_rotation + 2 }

/-- The values of the globals of `aa.cpp` when `main` starts.  The initialiser
of `last_update_time` is the first clock read. -/
def Aa.initial (clk : ℕ → K) : Aa.Game K :=
  { last_update_time := clk 0, current_time := 0, t := 0, powertimeend := 0,
    powertimestart := 0, slab := 0, newflagcannon := 0, oldflagcannon := 0, bulletflag := 0,
    cannonrotflag := 0, ux := 0, uy := 0, vx := 0, vy := 0, sx := -7, sy := -4,
    ax := -2, ay := -8, square5_rotation := 0, bullet_rotation := 0, cannon_rotation := 0,
    barrier1_rotation := 0, barrier2_rotation := 0, reads := 1 }

/-- A clock whose reads are not evenly spaced: the `n`-th read returns `n*n`. -/
def squareClock : ℕ → ℚ := fun n => n * n

/-- The loop of `main` of `aa.cpp` (lines 1205-1237) up to a first shot in
flight, with `squareClock`: the first frame, a SPACE press and a SPACE release
run by `glfwPollEvents`, and the next frame. -/
def Aa.exampleShot : Aa.Game ℚ :=
  Aa.draw coarseLibm squareClock
    (Aa.keyboard squareClock Key.GLFW_KEY_SPACE Action.GLFW_RELEASE
      (Aa.keyboard squareClock Key.GLFW_KEY_SPACE Action.GLFW_PRESS
        (Aa.draw coarseLibm squareClock (Aa.initial squareClock))))

/-- The launch velocity and the time origin of a state. -/
def Game.launch (s : Game K) : K × K × K := (s.ux, s.uy, s.last_update_time)

/-- A state with the projectile in flight at `(0, 5)`, away from the targets,
the barriers and the floor, with `ux = 4`. -/
def exampleCruise : Game ℚ :=
  { start exampleClock 1 1 with bulletflag := 1, sx := 0, sy := 5, ux := 4 }

/-- A state with the projectile in flight at `(6, -1.3)`, inside the boxes of
`square3` and of `square4`. -/
def exampleOverlap : Game ℚ :=
  { start exampleClock 1 1 with bulletflag := 1, sx := 6, sy := -1.3, ux := 4 }

/-- The state with another value of `ax`. -/
def Game.withAx (s : Game K) (x : K) : Game K := { s with ax := x }

/-- The projectile is at the muzzle: `(sx, sy)` is the point at distance 2 from
the pivot `(-9, -4)` in the direction of the cannon angle. -/
def Game.atMuzzle (m : Libm K) (s : Game K) : Prop :=
  s.sx = -9 + 2 * m.cos (rad m s.cannon_rotation)
    ∧ s.sy = -4 + 2 * m.sin (rad m s.cannon_rotation)

/-- The flag `resetbulletflag` is 0, and a projectile that is not in flight is
at the muzzle. -/
def Game.restOk (m : Libm K) (s : Game K) : Prop :=
  s.resetbulletflag = 0 ∧ (s.bulletflag = 0 → s.atMuzzle m)

/-- The two flags of the flight: `bulletflag` and `resetbulletflag`. -/
def Game.flight (s : Game K) : Int × Int := (s.bulletflag, s.resetbulletflag)

/-- A clock for a shot that bounces on the floor and then meets the second
barrier: the reads return 0, 1, 2, 23/8, 47/16, 143/8, 18, 59/3 and then 20. -/
def bounceClock : ℕ → K :=
  fun n => ([0, 1, 2, 23 / 8, 47 / 16, 143 / 8, 18, 59 / 3] : List K).getD n 20

/-- The state after the first frame of the run with `bounceClock`, up to what
the rendering uses. -/
def exampleFirstFrame : Game K :=
  { start bounceClock 1 1 with
    barrier1_rotation := -2, barrier2_rotation := 2, ax := 0, current_time := 1, reads := 2,
    t := 1 / 5 }

/-- The state after the launch that follows the first frame: SPACE pressed at
the clock value 2 and released at 23/8. -/
def exampleLaunched : Game K :=
  { (exampleFirstFrame : Game K) with
    powertimestart := 2, powertimeend := 47 / 16, bulletflag := 1, last_update_time := 23 / 8,
    reads := 5, ux := 15 / 8, uy := 0 }

/-- The state after the frame in which the launched projectile reaches the
floor and bounces. -/
def exampleBounced : Game K :=
  { (exampleLaunched : Game K) with
    barrier1_rotation := -4, barrier2_rotation := 4, vx := 15 / 8, vy := -45,
    current_time := 143 / 8, t := 3, sx := -11 / 8, sy := -6 + 0.12, last_update_time := 18,
    reads := 7, uy := 45 / 4, ux := 9 / 8 }

end Definitions

section Lemmas

variable {K : Type} [LinearOrderedField K]

set_option linter.unusedSectionVars false

/-! ### The score and the flags through the parts of a frame -/

theorem tick_board (s : Game K) : (tick s).board = s.board := rfl

theorem resetprojectile_board (clk : ℕ → K) (s : Game K) :
    (resetprojectile clk s).board = s.board := rfl

theorem draw3DObject_board (shape : Shape) (s : Game K) :
    (draw3DObject shape s).board = s.board := rfl

theorem deflect_board (xedge yedge : K) (s : Game K) :
    (deflect xedge yedge s).board = s.board := by
  unfold deflect; split_ifs <;> rfl

theorem cannonanglecheck_board (m : Libm K) (s : Game K) :
    (cannonanglecheck m s).board = s.board := by
  unfold cannonanglecheck; split_ifs <;> rfl

theorem drawCannon_board (m : Libm K) (s : Game K) : (drawCannon m s).board = s.board := by
  simp only [drawCannon, cannonanglecheck_board, draw3DObject_board]; rfl

theorem spinSquare5_board (s : Game K) : (spinSquare5 s).board = s.board := rfl

theorem drawBarriers_board (s : Game K) : (drawBarriers s).board = s.board := rfl

theorem updateTime_board (m : Libm K) (clk : ℕ → K) (s : Game K) :
    (updateTime m clk s).board = s.board := by
  simp only [updateTime, resetbullet]
  split_ifs <;> first | rfl | exact cannonanglecheck_board m _

theorem integrate_board (s : Game K) : (integrate s).board = s.board := by
  unfold integrate; split_ifs <;> rfl

theorem barrierResponse_board (m : Libm K) (clk : ℕ → K) (junk : Int) (s : Game K) :
    (barrierResponse m clk junk s).board = s.board := by
  simp only [barrierResponse]; split_ifs <;> rfl

theorem floorRule_board (clk : ℕ → K) (s : Game K) : (floorRule clk s).board = s.board := by
  unfold floorRule; split_ifs <;> rfl

theorem drawBullet_board (s : Game K) : (drawBullet s).board = s.board := rfl

theorem drawMotion_board (m : Libm K) (clk : ℕ → K) (junk : Int) (s : Game K) :
    (drawMotion m clk junk s).board = s.board := by
  simp only [drawMotion, drawBullet_board, floorRule_board, barrierResponse_board,
    integrate_board, updateTime_board, drawBarriers_board]

theorem keyboard_board (m : Libm K) (clk : ℕ → K) (key : Key) (action : Action) (s : Game K) :
    (keyboard m clk key action s).board = s.board := by
  cases action <;> cases key <;> simp only [keyboard] <;> split_ifs <;> rfl

theorem mouseButton_board (m : Libm K) (clk : ℕ → K) (button : Button) (action : Action)
    (s : Game K) : (mouseButton m clk button action s).board = s.board := by
  cases action <;> cases button <;> simp only [mouseButton] <;> split_ifs <;> rfl

theorem scroll_callback_board (yoffset : K) (s : Game K) :
    (scroll_callback yoffset s).board = s.board := by
  unfold scroll_callback; split_ifs <;> rfl

theorem keyboardChar_board (m : Libm K) (key : Char) (s r : Game K)
    (h : keyboardChar m key s = some r) : r.board = s.board := by
  unfold keyboardChar at h
  split_ifs at h <;> cases h <;> rfl

theorem step_board_of_not_frame (m : Libm K) (clk : ℕ → K) (e : Event K) (s r : Game K)
    (he : ∀ junk, e ≠ Event.frame junk) (h : step m clk e s = some r) : r.board = s.board := by
  cases e with
  | key key action => cases h; exact keyboard_board m clk key action s
  | char key => exact keyboardChar_board m key s r h
  | mouse button action => cases h; exact mouseButton_board m clk button action s
  | scroll yoffset => cases h; exact scroll_callback_board yoffset s
  | frame junk => exact absurd rfl (he junk)

theorem flag_eq_board (i : Target) (s : Game K) : i.flag s = s.board.flag i := by
  cases i <;> rfl

theorem hit_board_pos (clk : ℕ → K) (i : Target) (s : Game K)
    (h : i.inBox s) (hf : i.flag s ≠ 1) : (i.hit clk s).board = s.board.destroy i := by
  cases i <;>
    simp only [Target.hit, Target.inBox, Target.flag, hitTriangle,
      hitSquare1, hitSquare2, hitSquare3, hitSquare4, hitSquare5, hitRectangle1, hitRectangle2,
      hitRectangle3] at h hf ⊢ <;>
    (have hc := And.intro h.1 (And.intro h.2 hf); simp only [if_pos hc]) <;>
    split_ifs <;>
    first
    | (simp only [draw3DObject_board, deflect_board, resetprojectile_board]; rfl)
    | rfl

theorem hit_board_neg (clk : ℕ → K) (i : Target) (s : Game K)
    (h : ¬ (i.inBox s ∧ i.flag s ≠ 1)) : (i.hit clk s).board = s.board := by
  cases i <;>
    simp only [Target.hit, Target.inBox, Target.flag, and_assoc, hitTriangle,
      hitSquare1, hitSquare2, hitSquare3, hitSquare4, hitSquare5, hitRectangle1, hitRectangle2,
      hitRectangle3] at h ⊢ <;>
    simp only [if_neg h] <;>
    split_ifs <;> rfl

theorem destroy_flagscore (i : Target) (b : Board) :
    (b.destroy i).flagscore = b.flagscore + i.points := by
  cases i <;> rfl

theorem destroy_flag_self (i : Target) (b : Board) : (b.destroy i).flag i = 1 := by
  cases i <;> rfl

theorem destroy_flag_other (i j : Target) (b : Board) (h : j ≠ i) :
    (b.destroy i).flag j = b.flag j := by
  cases i <;> cases j <;> first | rfl | exact absurd rfl h

theorem hit_names (clk : ℕ → K) :
    hitTriangle clk = Target.hit clk Target.triangle
    ∧ hitSquare1 clk = Target.hit clk Target.square1
    ∧ hitSquare2 clk = Target.hit clk Target.square2
    ∧ hitSquare3 clk = Target.hit clk Target.square3
    ∧ hitSquare4 clk = Target.hit clk Target.square4
    ∧ hitSquare5 clk = Target.hit clk Target.square5
    ∧ hitRectangle1 clk = Target.hit clk Target.rectangle1
    ∧ hitRectangle2 clk = Target.hit clk Target.rectangle2
    ∧ hitRectangle3 clk = Target.hit clk Target.rectangle3 :=
  ⟨rfl, rfl, rfl, rfl, rfl, rfl, rfl, rfl, rfl⟩

theorem flag_congr (j : Target) (s r : Game K) (h : r.board = s.board) :
    j.flag r = j.flag s := by
  rw [flag_eq_board, h, flag_eq_board]

theorem hit_flag_other (clk : ℕ → K) (i j : Target) (s : Game K) (h : j ≠ i) :
    j.flag (i.hit clk s) = j.flag s := by
  by_cases hc : i.inBox s ∧ i.flag s ≠ 1
  · rw [flag_eq_board, hit_board_pos clk i s hc.1 hc.2, destroy_flag_other i j _ h,
      flag_eq_board]
  · exact flag_congr j _ _ (hit_board_neg clk i s hc)

theorem hit_flag_pos (clk : ℕ → K) (i : Target) (s : Game K)
    (h : i.inBox s) (hf : i.flag s ≠ 1) : i.flag (i.hit clk s) = 1 := by
  rw [flag_eq_board, hit_board_pos clk i s h hf, destroy_flag_self]

theorem hit_flag_neg (clk : ℕ → K) (i : Target) (s : Game K)
    (h : ¬ (i.inBox s ∧ i.flag s ≠ 1)) : i.flag (i.hit clk s) = i.flag s :=
  flag_congr i _ _ (hit_board_neg clk i s h)

theorem hit_flagscore_pos (clk : ℕ → K) (i : Target) (s : Game K)
    (h : i.inBox s) (hf : i.flag s ≠ 1) :
    (i.hit clk s).flagscore = s.flagscore + i.points := by
  have e := congrArg Board.flagscore (hit_board_pos clk i s h hf)
  rw [destroy_flagscore] at e
  exact e

theorem hit_flagscore_neg (clk : ℕ → K) (i : Target) (s : Game K)
    (h : ¬ (i.inBox s ∧ i.flag s ≠ 1)) : (i.hit clk s).flagscore = s.flagscore :=
  congrArg Board.flagscore (hit_board_neg clk i s h)

theorem drawCannon_flag (m : Libm K) (j : Target) (s : Game K) :
    j.flag (drawCannon m s) = j.flag s := flag_congr j _ _ (drawCannon_board m s)

theorem spinSquare5_flag (j : Target) (s : Game K) :
    j.flag (spinSquare5 s) = j.flag s := flag_congr j _ _ (spinSquare5_board s)

theorem drawMotion_flag (m : Libm K) (clk : ℕ → K) (junk : Int) (j : Target) (s : Game K) :
    j.flag (drawMotion m clk junk s) = j.flag s :=
  flag_congr j _ _ (drawMotion_board m clk junk s)

theorem clear_flag (j : Target) (s : Game K) :
    j.flag { s with rendered := [] } = j.flag s := by cases j <;> rfl

theorem before_flag (m : Libm K) (clk : ℕ → K) (i : Target) (s : Game K) :
    i.flag (i.before m clk s) = i.flag s := by
  cases i <;>
    simp [Target.before, drawTriangle, hit_names, hit_flag_other, drawCannon_flag,
      spinSquare5_flag, clear_flag]

theorem draw_eq_after (m : Libm K) (clk : ℕ → K) (junk : Int) (i : Target) (s : Game K) :
    draw m clk junk s = i.after m clk junk (i.hit clk (i.before m clk s)) := by
  cases i <;> rfl

theorem after_flag (m : Libm K) (clk : ℕ → K) (junk : Int) (i : Target) (s : Game K) :
    i.flag (i.after m clk junk s) = i.flag s := by
  cases i <;>
    simp [Target.after, hit_names, hit_flag_other, drawCannon_flag, spinSquare5_flag,
      drawMotion_flag]

/-- A frame in which the hit test of a target passes leaves its flag at 1. -/
theorem draw_flag_pos (m : Libm K) (clk : ℕ → K) (junk : Int) (i : Target) (s : Game K)
    (h : i.inBox (i.before m clk s)) (hf : i.flag s ≠ 1) :
    i.flag (draw m clk junk s) = 1 := by
  rw [draw_eq_after m clk junk i s, after_flag]
  exact hit_flag_pos clk i _ h (by rw [before_flag]; exact hf)

/-- A frame in which the hit test of a target fails leaves its flag as it was. -/
theorem draw_flag_neg (m : Libm K) (clk : ℕ → K) (junk : Int) (i : Target) (s : Game K)
    (h : ¬ (i.inBox (i.before m clk s) ∧ i.flag s ≠ 1)) :
    i.flag (draw m clk junk s) = i.flag s := by
  rw [draw_eq_after m clk junk i s, after_flag, hit_flag_neg, before_flag]
  rw [before_flag]; exact h

theorem added_pos (m : Libm K) (clk : ℕ → K) (i : Target) (s : Game K)
    (h : i.inBox (i.before m clk s)) (hf : i.flag s ≠ 1) : i.added m clk s = i.points := by
  unfold Target.added
  rw [hit_flagscore_pos clk i _ h (by rw [before_flag]; exact hf)]
  omega

theorem added_neg (m : Libm K) (clk : ℕ → K) (i : Target) (s : Game K)
    (h : ¬ (i.inBox (i.before m clk s) ∧ i.flag s ≠ 1)) : i.added m clk s = 0 := by
  unfold Target.added
  rw [hit_flagscore_neg clk i _ (by rw [before_flag]; exact h)]
  omega

theorem points_ne_zero (i : Target) : i.points ≠ 0 := by
  cases i <;> decide

/-- A target adds something in a frame only if its flag was not 1, and the
frame then sets the flag. -/
theorem added_ne_zero (m : Libm K) (clk : ℕ → K) (junk : Int) (i : Target) (s : Game K)
    (h : i.added m clk s ≠ 0) : i.flag s ≠ 1 ∧ i.flag (draw m clk junk s) = 1 := by
  by_cases hc : i.inBox (i.before m clk s) ∧ i.flag s ≠ 1
  · exact ⟨hc.2, draw_flag_pos m clk junk i s hc.1 hc.2⟩
  · exact absurd (added_neg m clk i s hc) h

theorem draw_flag_one (m : Libm K) (clk : ℕ → K) (junk : Int) (i : Target) (s : Game K)
    (h : i.flag s = 1) : i.flag (draw m clk junk s) = 1 := by
  rw [draw_flag_neg m clk junk i s (fun hc => hc.2 h)]; exact h

theorem flagscore_congr (s r : Game K) (h : r.board = s.board) : r.flagscore = s.flagscore :=
  congrArg Board.flagscore h

/-- The score after a frame is the score before it plus what the nine hit
tests add. -/
theorem draw_flagscore (m : Libm K) (clk : ℕ → K) (junk : Int) (s : Game K) :
    (draw m clk junk s).flagscore = s.flagscore
      + (Target.triangle.added m clk s + Target.square1.added m clk s
        + Target.square2.added m clk s + Target.square3.added m clk s
        + Target.square4.added m clk s + Target.square5.added m clk s
        + Target.rectangle1.added m clk s + Target.rectangle2.added m clk s
        + Target.rectangle3.added m clk s) := by
  have e0 : (draw m clk junk s).flagscore
      = (Target.rectangle3.hit clk (Target.rectangle3.before m clk s)).flagscore :=
    flagscore_congr _ _ (drawMotion_board m clk junk _)
  have e1 : (Target.square1.before m clk s).flagscore
      = (Target.triangle.hit clk (Target.triangle.before m clk s)).flagscore :=
    flagscore_congr _ _ (drawCannon_board m _)
  have e2 : (Target.rectangle1.before m clk s).flagscore
      = (Target.square5.hit clk (Target.square5.before m clk s)).flagscore :=
    flagscore_congr _ _ (spinSquare5_board _)
  have e3 : (Target.triangle.before m clk s).flagscore = s.flagscore := rfl
  have e4 : (Target.square2.before m clk s).flagscore
      = (Target.square1.hit clk (Target.square1.before m clk s)).flagscore := rfl
  have e5 : (Target.square3.before m clk s).flagscore
      = (Target.square2.hit clk (Target.square2.before m clk s)).flagscore := rfl
  have e6 : (Target.square4.before m clk s).flagscore
      = (Target.square3.hit clk (Target.square3.before m clk s)).flagscore := rfl
  have e7 : (Target.square5.before m clk s).flagscore
      = (Target.square4.hit clk (Target.square4.before m clk s)).flagscore := rfl
  have e8 : (Target.rectangle2.before m clk s).flagscore
      = (Target.rectangle1.hit clk (Target.rectangle1.before m clk s)).flagscore := rfl
  have e9 : (Target.rectangle3.before m clk s).flagscore
      = (Target.rectangle2.hit clk (Target.rectangle2.before m clk s)).flagscore := rfl
  simp only [Target.added]
  omega

/-! ### Frames that score, along a sequence of events -/

theorem scoringFrames_nil (m : Libm K) (clk : ℕ → K) (i : Target) (s : Game K) :
    i.scoringFrames m clk [] s = 0 := rfl

theorem scoringFrames_frame (m : Libm K) (clk : ℕ → K) (i : Target) (junk : Int)
    (es : List (Event K)) (s : Game K) :
    i.scoringFrames m clk (Event.frame junk :: es) s
      = (if i.added m clk s ≠ 0 then 1 else 0)
        + i.scoringFrames m clk es (draw m clk junk s) := by
  simp only [Target.scoringFrames, frameStarts, step, List.filter_cons]
  split_ifs with h1 h2 h2
  · simp only [List.length_cons]; omega
  · exact absurd h1 (by simpa using h2)
  · exact absurd h2 (by simpa using h1)
  · omega

theorem scoringFrames_other (m : Libm K) (clk : ℕ → K) (i : Target) (e : Event K)
    (es : List (Event K)) (s r : Game K) (he : ∀ junk, e ≠ Event.frame junk)
    (h : step m clk e s = some r) :
    i.scoringFrames m clk (e :: es) s = i.scoringFrames m clk es r := by
  cases e with
  | frame junk => exact absurd rfl (he junk)
  | key key action => simp only [Target.scoringFrames, frameStarts, h]
  | char key => simp only [Target.scoringFrames, frameStarts, h]
  | mouse button action => simp only [Target.scoringFrames, frameStarts, h]
  | scroll yoffset => simp only [Target.scoringFrames, frameStarts, h]

theorem scoringFrames_quit (m : Libm K) (clk : ℕ → K) (i : Target) (e : Event K)
    (es : List (Event K)) (s : Game K) (h : step m clk e s = none) :
    i.scoringFrames m clk (e :: es) s = 0 := by
  simp only [Target.scoringFrames, frameStarts, h, List.filter_nil, List.length_nil]

/-- From any state, at most one frame of a sequence of events scores for a
given target, and none does once its flag is 1. -/
theorem scoringFrames_le (m : Libm K) (clk : ℕ → K) (i : Target) (es : List (Event K)) :
    ∀ s : Game K, i.scoringFrames m clk es s ≤ 1
      ∧ (i.flag s = 1 → i.scoringFrames m clk es s = 0) := by
  induction es with
  | nil => intro s; exact ⟨by rw [scoringFrames_nil]; omega, fun _ => rfl⟩
  | cons e es ih =>
    intro s
    by_cases hf : ∃ junk, e = Event.frame junk
    · obtain ⟨junk, rfl⟩ := hf
      rw [scoringFrames_frame]
      by_cases ha : i.added m clk s ≠ 0
      · obtain ⟨h1, h2⟩ := added_ne_zero m clk junk i s ha
        rw [if_pos ha, (ih _).2 h2]
        exact ⟨le_refl _, fun h => absurd h h1⟩
      · rw [if_neg ha, Nat.zero_add]
        exact ⟨(ih _).1, fun h => (ih _).2 (draw_flag_one m clk junk i s h)⟩
    · have he : ∀ junk, e ≠ Event.frame junk := fun junk h => hf ⟨junk, h⟩
      cases hr : step m clk e s with
      | none => rw [scoringFrames_quit m clk i e es s hr]; exact ⟨by omega, fun _ => rfl⟩
      | some r =>
        rw [scoringFrames_other m clk i e es s r he hr]
        refine ⟨(ih r).1, fun h => (ih r).2 ?_⟩
        rw [flag_congr i s r (step_board_of_not_frame m clk e s r he hr)]; exact h

theorem totalAdded_frame (m : Libm K) (clk : ℕ → K) (i : Target) (junk : Int)
    (es : List (Event K)) (s : Game K) :
    i.totalAdded m clk (Event.frame junk :: es) s
      = i.added m clk s + i.totalAdded m clk es (draw m clk junk s) := by
  simp only [Target.totalAdded, frameStarts, step, List.map_cons, List.sum_cons]

theorem totalAdded_other (m : Libm K) (clk : ℕ → K) (i : Target) (e : Event K)
    (es : List (Event K)) (s r : Game K) (he : ∀ junk, e ≠ Event.frame junk)
    (h : step m clk e s = some r) :
    i.totalAdded m clk (e :: es) s = i.totalAdded m clk es r := by
  cases e with
  | frame junk => exact absurd rfl (he junk)
  | key key action => simp only [Target.totalAdded, frameStarts, h]
  | char key => simp only [Target.totalAdded, frameStarts, h]
  | mouse button action => simp only [Target.totalAdded, frameStarts, h]
  | scroll yoffset => simp only [Target.totalAdded, frameStarts, h]

theorem totalAdded_quit (m : Libm K) (clk : ℕ → K) (i : Target) (e : Event K)
    (es : List (Event K)) (s : Game K) (h : step m clk e s = none) :
    i.totalAdded m clk (e :: es) s = 0 := by
  simp only [Target.totalAdded, frameStarts, h, List.map_nil, List.sum_nil]

/-- From any state, what a target adds over a sequence of events is nothing or
its points, and nothing once its flag is 1. -/
theorem totalAdded_cases (m : Libm K) (clk : ℕ → K) (i : Target) (es : List (Event K)) :
    ∀ s : Game K,
      (i.totalAdded m clk es s = 0 ∨ i.totalAdded m clk es s = i.points)
      ∧ (i.flag s = 1 → i.totalAdded m clk es s = 0) := by
  induction es with
  | nil => intro s; exact ⟨Or.inl rfl, fun _ => rfl⟩
  | cons e es ih =>
    intro s
    by_cases hf : ∃ junk, e = Event.frame junk
    · obtain ⟨junk, rfl⟩ := hf
      rw [totalAdded_frame]
      by_cases hc : i.inBox (i.before m clk s) ∧ i.flag s ≠ 1
      · rw [added_pos m clk i s hc.1 hc.2,
          (ih _).2 (draw_flag_pos m clk junk i s hc.1 hc.2), Int.add_zero]
        exact ⟨Or.inr rfl, fun h => absurd h hc.2⟩
      · rw [added_neg m clk i s hc, Int.zero_add]
        exact ⟨(ih _).1, fun h => (ih _).2 (draw_flag_one m clk junk i s h)⟩
    · have he : ∀ junk, e ≠ Event.frame junk := fun junk h => hf ⟨junk, h⟩
      cases hr : step m clk e s with
      | none => rw [totalAdded_quit m clk i e es s hr]; exact ⟨Or.inl rfl, fun _ => rfl⟩
      | some r =>
        rw [totalAdded_other m clk i e es s r he hr]
        refine ⟨(ih r).1, fun h => (ih r).2 ?_⟩
        rw [flag_congr i s r (step_board_of_not_frame m clk e s r he hr)]; exact h

/-- The score after a sequence of events is the score before it plus what the
nine targets add over the sequence. -/
theorem run_flagscore (m : Libm K) (clk : ℕ → K) (es : List (Event K)) :
    ∀ s : Game K, (run m clk es s).flagscore = s.flagscore
      + (Target.triangle.totalAdded m clk es s + Target.square1.totalAdded m clk es s
        + Target.square2.totalAdded m clk es s + Target.square3.totalAdded m clk es s
        + Target.square4.totalAdded m clk es s + Target.square5.totalAdded m clk es s
        + Target.rectangle1.totalAdded m clk es s + Target.rectangle2.totalAdded m clk es s
        + Target.rectangle3.totalAdded m clk es s) := by
  induction es with
  | nil => intro s; simp [run, Target.totalAdded, frameStarts]
  | cons e es ih =>
    intro s
    by_cases hf : ∃ junk, e = Event.frame junk
    · obtain ⟨junk, rfl⟩ := hf
      have hd := draw_flagscore m clk junk s
      have hi := ih (draw m clk junk s)
      simp only [totalAdded_frame]
      show (run m clk es (draw m clk junk s)).flagscore = _
      omega
    · have he : ∀ junk, e ≠ Event.frame junk := fun junk h => hf ⟨junk, h⟩
      cases hr : step m clk e s with
      | none =>
        simp only [totalAdded_quit m clk _ e es s hr, run, hr]
        omega
      | some r =>
        have hb := flagscore_congr s r (step_board_of_not_frame m clk e s r he hr)
        have hi := ih r
        simp only [totalAdded_other m clk _ e es s r he hr, run, hr]
        omega

theorem mem_frameStarts_added (m : Libm K) (clk : ℕ → K) (i : Target) (s : Game K) :
    i.added m clk s = 0 ∨ i.added m clk s = i.points := by
  by_cases hc : i.inBox (i.before m clk s) ∧ i.flag s ≠ 1
  · exact Or.inr (added_pos m clk i s hc.1 hc.2)
  · exact Or.inl (added_neg m clk i s hc)

/-! ### The cannon angle -/

theorem deflect_cannon_rotation (xedge yedge : K) (s : Game K) :
    (deflect xedge yedge s).cannon_rotation = s.cannon_rotation := by
  unfold deflect; split_ifs <;> rfl

theorem hit_cannon_rotation (clk : ℕ → K) (i : Target) (s : Game K) :
    (i.hit clk s).cannon_rotation = s.cannon_rotation := by
  cases i <;>
    simp only [Target.hit, hitTriangle, hitSquare1, hitSquare2, hitSquare3, hitSquare4,
      hitSquare5, hitRectangle1, hitRectangle2, hitRectangle3] <;>
    split_ifs <;>
    first
    | rfl
    | exact deflect_cannon_rotation _ _ _

theorem angleOk_of_eq (s r : Game K) (h : r.cannon_rotation = s.cannon_rotation)
    (hs : s.angleOk) : r.angleOk := by
  unfold Game.angleOk at hs ⊢; rw [h]; exact hs

theorem cannonanglecheck_angleOk (m : Libm K) (s : Game K) (hs : s.angleOk) :
    (cannonanglecheck m s).angleOk := by
  obtain ⟨n, hn, h1, h2⟩ := hs
  unfold cannonanglecheck
  split_ifs with hup hdown
  · refine ⟨n + 1, ?_, by omega, ?_⟩
    · show s.cannon_rotation + s.cannonrotflag = _
      rw [hup.1, hn]; push_cast; rfl
    · have h3 : (n : K) < 75 := hn ▸ hup.2
      have h4 : n < 75 := by exact_mod_cast h3
      omega
  · refine ⟨n - 1, ?_, ?_, by omega⟩
    · show s.cannon_rotation + s.cannonrotflag = _
      rw [hdown.1, hn]; push_cast; ring
    · have h3 : (n : K) > -45 := hn ▸ hdown.2
      have h4 : n > -45 := by exact_mod_cast h3
      omega
  · exact ⟨n, hn, h1, h2⟩

theorem hit_angleOk (clk : ℕ → K) (i : Target) (s : Game K) (hs : s.angleOk) :
    (i.hit clk s).angleOk := angleOk_of_eq s _ (hit_cannon_rotation clk i s) hs

theorem drawCannon_angleOk (m : Libm K) (s : Game K) (hs : s.angleOk) :
    (drawCannon m s).angleOk :=
  cannonanglecheck_angleOk m _ (angleOk_of_eq s _ rfl hs)

theorem drawTargets_angleOk (m : Libm K) (clk : ℕ → K) (s : Game K) (hs : s.angleOk) :
    (drawTargets m clk s).angleOk := by
  simp only [drawTargets, drawTriangle, hit_names]
  have h0 : ({ s with rendered := [] } : Game K).angleOk := angleOk_of_eq s _ rfl hs
  have h1 := drawCannon_angleOk m _ (hit_angleOk clk Target.triangle _ h0)
  have h2 := hit_angleOk clk Target.square5 _ (hit_angleOk clk Target.square4 _
    (hit_angleOk clk Target.square3 _ (hit_angleOk clk Target.square2 _
      (hit_angleOk clk Target.square1 _ h1))))
  have h3 : (spinSquare5 _).angleOk := angleOk_of_eq _ _ rfl h2
  exact hit_angleOk clk Target.rectangle3 _ (hit_angleOk clk Target.rectangle2 _
    (hit_angleOk clk Target.rectangle1 _ h3))

theorem updateTime_angleOk (m : Libm K) (clk : ℕ → K) (s : Game K) (hs : s.angleOk) :
    (updateTime m clk s).angleOk := by
  simp only [updateTime, resetbullet]
  split_ifs <;>
    first
    | exact angleOk_of_eq s _ rfl hs
    | exact angleOk_of_eq _ _ rfl (cannonanglecheck_angleOk m _ (angleOk_of_eq s _ rfl hs))

theorem integrate_cannon_rotation (s : Game K) :
    (integrate s).cannon_rotation = s.cannon_rotation := by
  unfold integrate; split_ifs <;> rfl

theorem barrierResponse_cannon_rotation (m : Libm K) (clk : ℕ → K) (junk : Int)
    (s : Game K) : (barrierResponse m clk junk s).cannon_rotation = s.cannon_rotation := by
  simp only [barrierResponse]; split_ifs <;> rfl

theorem floorRule_cannon_rotation (clk : ℕ → K) (s : Game K) :
    (floorRule clk s).cannon_rotation = s.cannon_rotation := by
  unfold floorRule; split_ifs <;> rfl

theorem drawMotion_angleOk (m : Libm K) (clk : ℕ → K) (junk : Int) (s : Game K)
    (hs : s.angleOk) : (drawMotion m clk junk s).angleOk := by
  have h1 : (drawBarriers s).angleOk := angleOk_of_eq s _ rfl hs
  have h2 := updateTime_angleOk m clk _ h1
  have h3 := angleOk_of_eq _ _ (integrate_cannon_rotation _) h2
  have h4 := angleOk_of_eq _ _ (barrierResponse_cannon_rotation m clk junk _) h3
  have h5 := angleOk_of_eq _ _ (floorRule_cannon_rotation clk _) h4
  exact angleOk_of_eq _ (drawBullet _) rfl h5

theorem draw_angleOk (m : Libm K) (clk : ℕ → K) (junk : Int) (s : Game K)
    (hs : s.angleOk) : (draw m clk junk s).angleOk :=
  drawMotion_angleOk m clk junk _ (drawTargets_angleOk m clk s hs)

theorem keyboard_cannon_rotation (m : Libm K) (clk : ℕ → K) (key : Key) (action : Action)
    (s : Game K) : (keyboard m clk key action s).cannon_rotation = s.cannon_rotation := by
  cases action <;> cases key <;> simp only [keyboard] <;> split_ifs <;> rfl

theorem mouseButton_cannon_rotation (m : Libm K) (clk : ℕ → K) (button : Button)
    (action : Action) (s : Game K) :
    (mouseButton m clk button action s).cannon_rotation = s.cannon_rotation := by
  cases action <;> cases button <;> simp only [mouseButton] <;> split_ifs <;> rfl

theorem scroll_callback_cannon_rotation (yoffset : K) (s : Game K) :
    (scroll_callback yoffset s).cannon_rotation = s.cannon_rotation := by
  unfold scroll_callback; split_ifs <;> rfl

theorem keyboardChar_cannon_rotation (m : Libm K) (key : Char) (s r : Game K)
    (h : keyboardChar m key s = some r) : r.cannon_rotation = s.cannon_rotation := by
  unfold keyboardChar at h
  split_ifs at h <;> cases h <;> rfl

theorem step_angleOk (m : Libm K) (clk : ℕ → K) (e : Event K) (s r : Game K)
    (h : step m clk e s = some r) (hs : s.angleOk) : r.angleOk := by
  cases e with
  | key key action => cases h; exact angleOk_of_eq s _ (keyboard_cannon_rotation m clk key action s) hs
  | char key => exact angleOk_of_eq s _ (keyboardChar_cannon_rotation m key s r h) hs
  | mouse button action =>
    cases h; exact angleOk_of_eq s _ (mouseButton_cannon_rotation m clk button action s) hs
  | scroll yoffset => cases h; exact angleOk_of_eq s _ (scroll_callback_cannon_rotation yoffset s) hs
  | frame junk => cases h; exact draw_angleOk m clk junk s hs

theorem run_angleOk (m : Libm K) (clk : ℕ → K) (es : List (Event K)) :
    ∀ s : Game K, s.angleOk → (run m clk es s).angleOk := by
  induction es with
  | nil => intro s hs; exact hs
  | cons e es ih =>
    intro s hs
    unfold run
    cases hr : step m clk e s with
    | none => exact hs
    | some r => exact ih r (step_angleOk m clk e s r hr hs)

theorem start_angleOk (clk : ℕ → K) (gravityvariable airvar : K) :
    (start clk gravityvariable airvar).angleOk := by
  refine ⟨0, ?_, by omega, by omega⟩
  simp only [start, configure]
  split_ifs <;> simp [initial]

theorem angleOk_range (s : Game K) (hs : s.angleOk) :
    -45 ≤ s.cannon_rotation ∧ s.cannon_rotation ≤ 75 := by
  obtain ⟨n, hn, h1, h2⟩ := hs
  rw [hn]
  exact ⟨by exact_mod_cast h1, by exact_mod_cast h2⟩

/-! ### Launch, floor and distances -/

theorem mouseButton_release_eq (m : Libm K) (clk : ℕ → K) (s : Game K) :
    mouseButton m clk Button.GLFW_MOUSE_BUTTON_LEFT Action.GLFW_RELEASE s
      = keyboard m clk Key.GLFW_KEY_SPACE Action.GLFW_RELEASE s := by
  simp [mouseButton, keyboard]

theorem release_fields (m : Libm K) (clk : ℕ → K) (s : Game K) (h : s.bulletflag ≠ 1) :
    (keyboard m clk Key.GLFW_KEY_SPACE Action.GLFW_RELEASE s).ux
        = (clk (s.reads + 1) - s.powertimestart) * 2 * m.cos (s.cannon_rotation * m.M_PI / 180)
    ∧ (keyboard m clk Key.GLFW_KEY_SPACE Action.GLFW_RELEASE s).uy
        = (clk (s.reads + 1) - s.powertimestart) * 2 * m.sin (s.cannon_rotation * m.M_PI / 180)
    ∧ (keyboard m clk Key.GLFW_KEY_SPACE Action.GLFW_RELEASE s).bulletflag = 1
    ∧ (keyboard m clk Key.GLFW_KEY_SPACE Action.GLFW_RELEASE s).last_update_time
        = clk s.reads
    ∧ (keyboard m clk Key.GLFW_KEY_SPACE Action.GLFW_RELEASE s).powertimeend
        = clk (s.reads + 1) := by
  simp [keyboard, h, tick, glfwGetTime, powerfac, rad]

theorem start_bulletflag (clk : ℕ → K) (gravityvariable airvar : K) :
    (start clk gravityvariable airvar).bulletflag = 0 := by
  simp only [start, configure]
  split_ifs <;> rfl

theorem floorRule_fields (clk : ℕ → K) (s : Game K) (h : s.sy ≤ -5.9) :
    (floorRule clk s).uy = -(s.uy + s.ay * s.t) / 4
    ∧ (floorRule clk s).ux = 3 / 5 * (s.ux + s.ax * s.t)
    ∧ (floorRule clk s).last_update_time = clk s.reads
    ∧ (floorRule clk s).sy = -6 + 0.12
    ∧ (floorRule clk s).sx = s.sx := by
  simp only [floorRule, if_pos h, resetprojectile, tick, glfwGetTime]
  exact ⟨by ring, by ring, trivial, trivial, trivial⟩

theorem floorRule_sy_gt (clk : ℕ → K) (s : Game K) : (floorRule clk s).sy > -5.9 := by
  by_cases h : s.sy ≤ -5.9
  · rw [(floorRule_fields clk s h).2.2.2.1]; norm_num
  · simp only [floorRule, if_neg h]; exact lt_of_not_le h

theorem draw_sy (m : Libm K) (clk : ℕ → K) (junk : Int) (s : Game K) :
    (draw m clk junk s).sy = (floorRule clk (barrierResponse m clk junk
      (integrate (updateTime m clk (drawBarriers (drawTargets m clk s)))))).sy := rfl

/-! ### Monotone score, configuration, reset, aim -/

theorem points_pos (i : Target) : 0 < i.points := by
  cases i <;> decide

theorem added_nonneg (m : Libm K) (clk : ℕ → K) (i : Target) (s : Game K) :
    0 ≤ i.added m clk s := by
  rcases mem_frameStarts_added m clk i s with h | h
  · rw [h]
  · rw [h]; exact le_of_lt (points_pos i)

theorem draw_flagscore_le (m : Libm K) (clk : ℕ → K) (junk : Int) (s : Game K) :
    s.flagscore ≤ (draw m clk junk s).flagscore := by
  rw [draw_flagscore]
  have h1 := added_nonneg m clk Target.triangle s
  have h2 := added_nonneg m clk Target.square1 s
  have h3 := added_nonneg m clk Target.square2 s
  have h4 := added_nonneg m clk Target.square3 s
  have h5 := added_nonneg m clk Target.square4 s
  have h6 := added_nonneg m clk Target.square5 s
  have h7 := added_nonneg m clk Target.rectangle1 s
  have h8 := added_nonneg m clk Target.rectangle2 s
  have h9 := added_nonneg m clk Target.rectangle3 s
  omega

theorem step_flagscore_le (m : Libm K) (clk : ℕ → K) (e : Event K) (s r : Game K)
    (h : step m clk e s = some r) : s.flagscore ≤ r.flagscore := by
  by_cases hf : ∃ junk, e = Event.frame junk
  · obtain ⟨junk, rfl⟩ := hf
    cases h; exact draw_flagscore_le m clk junk s
  · have he : ∀ junk, e ≠ Event.frame junk := fun junk h => hf ⟨junk, h⟩
    exact le_of_eq (flagscore_congr s r (step_board_of_not_frame m clk e s r he h)).symm

theorem run_flagscore_le (m : Libm K) (clk : ℕ → K) (es : List (Event K)) :
    ∀ s : Game K, s.flagscore ≤ (run m clk es s).flagscore := by
  induction es with
  | nil => intro s; exact le_refl _
  | cons e es ih =>
    intro s
    unfold run
    cases hr : step m clk e s with
    | none => exact le_refl _
    | some r => exact le_trans (step_flagscore_le m clk e s r hr) (ih r)

theorem cannonanglecheck_clamp (m : Libm K) (s : Game K) (n : Int)
    (hn : s.cannon_rotation = (n : K)) (h1 : -45 ≤ n) (h2 : n ≤ 75)
    (hr : s.cannonrotflag = 1 ∨ s.cannonrotflag = 0 ∨ s.cannonrotflag = -1) :
    (cannonanglecheck m s).cannon_rotation
      = stepThenClamp s.cannon_rotation s.cannonrotflag := by
  have c1 : (-45 : K) ≤ s.cannon_rotation := by rw [hn]; exact_mod_cast h1
  have c2 : s.cannon_rotation ≤ 75 := by rw [hn]; exact_mod_cast h2
  unfold cannonanglecheck stepThenClamp
  rcases hr with hr | hr | hr
  · by_cases hlt : s.cannon_rotation < 75
    · have h3 : n < 75 := by rw [hn] at hlt; exact_mod_cast hlt
      have h4 : n + 1 ≤ 75 := by omega
      have c3 : s.cannon_rotation + 1 ≤ 75 := by rw [hn]; exact_mod_cast h4
      rw [if_pos ⟨hr, hlt⟩]
      show s.cannon_rotation + s.cannonrotflag = _
      rw [hr, max_eq_right (by linarith), min_eq_right c3]
    · have h3 : s.cannon_rotation = 75 := le_antisymm c2 (not_lt.mp hlt)
      rw [if_neg (fun h => hlt h.2), if_neg (fun h => by rw [hr] at h; norm_num at h)]
      rw [hr, h3, max_eq_right (by norm_num), min_eq_left (by norm_num)]
  · rw [if_neg (fun h => by rw [hr] at h; norm_num at h),
      if_neg (fun h => by rw [hr] at h; norm_num at h)]
    rw [hr, add_zero, max_eq_right c1, min_eq_right c2]
  · by_cases hgt : s.cannon_rotation > -45
    · have h3 : n > -45 := by rw [hn] at hgt; exact_mod_cast hgt
      have h4 : -45 ≤ n - 1 := by omega
      have c3 : (-45 : K) ≤ s.cannon_rotation - 1 := by rw [hn]; exact_mod_cast h4
      rw [if_neg (fun h => by rw [hr] at h; norm_num at h), if_pos ⟨hr, hgt⟩]
      show s.cannon_rotation + s.cannonrotflag = _
      rw [hr, show s.cannon_rotation + -1 = s.cannon_rotation - 1 by ring,
        max_eq_right c3, min_eq_right (by linarith)]
    · have h3 : s.cannon_rotation = -45 := le_antisymm (not_lt.mp hgt) c1
      rw [if_neg (fun h => by rw [hr] at h; norm_num at h), if_neg (fun h => hgt h.2)]
      rw [hr, h3]; norm_num

/-! ### Frames in which no hit test passes -/

theorem hit_eq_of_miss (clk : ℕ → K) (i : Target) (s : Game K)
    (h : ¬ (i.inBox s ∧ i.flag s ≠ 1)) :
    i.hit clk s = if i.flag s ≠ 1 then draw3DObject i.shape s else s := by
  cases i <;>
    simp only [Target.hit, Target.inBox, Target.flag, Target.shape, and_assoc, hitTriangle,
      hitSquare1, hitSquare2, hitSquare3, hitSquare4, hitSquare5, hitRectangle1, hitRectangle2,
      hitRectangle3] at h ⊢ <;>
    simp only [if_neg h]

theorem hit_eq_self (clk : ℕ → K) (i : Target) (s : Game K) (h : i.flag s = 1) :
    i.hit clk s = s := by
  rw [hit_eq_of_miss clk i s (fun hc => hc.2 h), if_neg (fun hc => hc h)]

theorem hit_core_of_miss (clk : ℕ → K) (i : Target) (s : Game K)
    (h : ¬ (i.inBox s ∧ i.flag s ≠ 1)) : (i.hit clk s).core = s.core := by
  rw [hit_eq_of_miss clk i s h]
  split_ifs <;> rfl

theorem inBox_core (i : Target) (s : Game K) : i.inBox s.core ↔ i.inBox s := by
  cases i <;> exact Iff.rfl

theorem flag_core (i : Target) (s : Game K) : i.flag s.core = i.flag s := by
  cases i <;> rfl

theorem miss_congr (i : Target) (r s : Game K) (h : r.core = s.core)
    (hm : ¬ (i.inBox s ∧ i.flag s ≠ 1)) : ¬ (i.inBox r ∧ i.flag r ≠ 1) := by
  rw [← inBox_core i r, ← flag_core i r, h, inBox_core, flag_core]
  exact hm

theorem hit_core_of (clk : ℕ → K) (i : Target) (r s : Game K) (h : r.core = s.core)
    (hm : ¬ (i.inBox s ∧ i.flag s ≠ 1)) : (i.hit clk r).core = s.core := by
  rw [hit_core_of_miss clk i r (miss_congr i r s h hm), h]

theorem cannonanglecheck_idle (m : Libm K) (s : Game K) (h : s.aimIdle) :
    cannonanglecheck m s = s := by
  unfold cannonanglecheck
  rw [if_neg h.1, if_neg h.2]

theorem aimIdle_congr (r s : Game K) (h : r.core = s.core) (hs : s.aimIdle) : r.aimIdle := by
  have e1 : r.core.cannonrotflag = s.core.cannonrotflag := congrArg _ h
  have e2 : r.core.cannon_rotation = s.core.cannon_rotation := congrArg _ h
  change r.cannonrotflag = s.cannonrotflag at e1
  change r.cannon_rotation = s.cannon_rotation at e2
  unfold Game.aimIdle at hs ⊢
  rw [e1, e2]; exact hs

theorem drawCannon_core_of (m : Libm K) (r s : Game K) (h : r.core = s.core)
    (hs : s.aimIdle) : (drawCannon m r).core = s.core := by
  have hr : r.aimIdle := aimIdle_congr r s h hs
  show (cannonanglecheck m (draw3DObject Shape.cannon (draw3DObject Shape.rectangle
    { r with slab := r.slab + 0.1 }))).core = s.core
  rw [cannonanglecheck_idle m (draw3DObject Shape.cannon (draw3DObject Shape.rectangle
    { r with slab := r.slab + 0.1 })) hr]
  exact h

/-- When the aim controller is idle and no hit test passes, the first part of
`draw` changes nothing but what the rendering uses. -/
theorem drawTargets_core_of_miss (m : Libm K) (clk : ℕ → K) (s : Game K) (hs : s.aimIdle)
    (hm : ∀ i : Target, ¬ (i.inBox s ∧ i.flag s ≠ 1)) :
    (drawTargets m clk s).core = s.core := by
  simp only [drawTargets, drawTriangle, hit_names]
  have h0 : ({ s with rendered := [] } : Game K).core = s.core := rfl
  have h1 := drawCannon_core_of m _ s (hit_core_of clk Target.triangle _ s h0 (hm _)) hs
  have h2 := hit_core_of clk Target.square5 _ s (hit_core_of clk Target.square4 _ s
    (hit_core_of clk Target.square3 _ s (hit_core_of clk Target.square2 _ s
      (hit_core_of clk Target.square1 _ s h1 (hm _)) (hm _)) (hm _)) (hm _)) (hm _)
  have h3 : (spinSquare5 _).core = s.core := h2
  exact hit_core_of clk Target.rectangle3 _ s (hit_core_of clk Target.rectangle2 _ s
    (hit_core_of clk Target.rectangle1 _ s h3 (hm _)) (hm _)) (hm _)

theorem drawBarriers_core (s : Game K) : (drawBarriers s).core = (drawBarriers s.core).core :=
  rfl

theorem updateTime_core (m : Libm K) (clk : ℕ → K) (s : Game K) :
    (updateTime m clk s).core = (updateTime m clk s.core).core := by
  simp only [updateTime, resetbullet, cannonanglecheck, Game.core]
  split_ifs <;> rfl

theorem integrate_core (s : Game K) : (integrate s).core = (integrate s.core).core := by
  simp only [integrate, Game.core]
  split_ifs <;> rfl

theorem barrierResponse_core (m : Libm K) (clk : ℕ → K) (junk : Int) (s : Game K) :
    (barrierResponse m clk junk s).core = (barrierResponse m clk junk s.core).core := by
  have e : checkcollisionbarrier m s.core = checkcollisionbarrier m s := rfl
  simp only [barrierResponse, e]
  simp only [Game.core]
  split_ifs <;> rfl

theorem floorRule_core (clk : ℕ → K) (s : Game K) :
    (floorRule clk s).core = (floorRule clk s.core).core := by
  simp only [floorRule, Game.core]
  split_ifs <;> rfl

theorem drawBullet_core (s : Game K) : (drawBullet s).core = (drawBullet s.core).core := rfl

theorem drawMotion_core (m : Libm K) (clk : ℕ → K) (junk : Int) (s : Game K) :
    (drawMotion m clk junk s).core = (drawMotion m clk junk s.core).core := by
  unfold drawMotion
  rw [drawBullet_core, floorRule_core, barrierResponse_core, integrate_core, updateTime_core,
    drawBarriers_core, ← updateTime_core, ← integrate_core, ← barrierResponse_core,
    ← floorRule_core, ← drawBullet_core]

theorem drawMotion_core_congr (m : Libm K) (clk : ℕ → K) (junk : Int) (r s : Game K)
    (h : r.core = s.core) :
    (drawMotion m clk junk r).core = (drawMotion m clk junk s).core := by
  rw [drawMotion_core m clk junk r, h, ← drawMotion_core]

/-- When the aim controller is idle and no hit test passes, a frame acts as its
second part alone, up to what the rendering uses. -/
theorem draw_core_of_miss (m : Libm K) (clk : ℕ → K) (junk : Int) (s : Game K)
    (hs : s.aimIdle) (hm : ∀ i : Target, ¬ (i.inBox s ∧ i.flag s ≠ 1)) :
    (draw m clk junk s).core = (drawMotion m clk junk s).core :=
  drawMotion_core_congr m clk junk _ s (drawTargets_core_of_miss m clk s hs hm)

/-! ### The barrier response -/

theorem barrierResponse_hit (m : Libm K) (clk : ℕ → K) (junk : Int) (s : Game K)
    (h : (checkcollisionbarrier m s).getD junk = 1) :
    (barrierResponse m clk junk s).ux = -(s.ux + s.ax * s.t)
    ∧ (barrierResponse m clk junk s).sx = s.sx - 0.3
    ∧ (barrierResponse m clk junk s).last_update_time = clk s.reads
    ∧ (barrierResponse m clk junk s).sy = s.sy := by
  simp only [barrierResponse, if_pos h]
  split_ifs <;> exact ⟨rfl, rfl, rfl, rfl⟩

theorem barrierResponse_miss (m : Libm K) (clk : ℕ → K) (junk : Int) (s : Game K)
    (h : ¬ (checkcollisionbarrier m s).getD junk = 1) :
    barrierResponse m clk junk s = s := by
  simp only [barrierResponse, if_neg h]

/-- States that agree up to what the rendering uses agree on the motion of the
projectile. -/
theorem core_fields (r s : Game K) (h : r.core = s.core) :
    r.ux = s.ux ∧ r.uy = s.uy ∧ r.sx = s.sx ∧ r.sy = s.sy
    ∧ r.last_update_time = s.last_update_time ∧ r.ax = s.ax ∧ r.ay = s.ay ∧ r.t = s.t
    ∧ r.bulletflag = s.bulletflag ∧ r.cannon_rotation = s.cannon_rotation
    ∧ r.flagscore = s.flagscore ∧ r.reads = s.reads := by
  have e1 : r.core.ux = s.core.ux := congrArg _ h
  have e2 : r.core.uy = s.core.uy := congrArg _ h
  have e3 : r.core.sx = s.core.sx := congrArg _ h
  have e4 : r.core.sy = s.core.sy := congrArg _ h
  have e5 : r.core.last_update_time = s.core.last_update_time := congrArg _ h
  have e6 : r.core.ax = s.core.ax := congrArg _ h
  have e7 : r.core.ay = s.core.ay := congrArg _ h
  have e8 : r.core.t = s.core.t := congrArg _ h
  have e9 : r.core.bulletflag = s.core.bulletflag := congrArg _ h
  have e10 : r.core.cannon_rotation = s.core.cannon_rotation := congrArg _ h
  have e11 : r.core.flagscore = s.core.flagscore := congrArg _ h
  have e12 : r.core.reads = s.core.reads := congrArg _ h
  exact ⟨e1, e2, e3, e4, e5, e6, e7, e8, e9, e10, e11, e12⟩

/-! ### Destroyed targets -/

theorem shape_injective (i j : Target) (h : i.shape = j.shape) : i = j := by
  cases i <;> cases j <;> first | rfl | exact absurd h (by decide)

theorem shape_not_scenery (i : Target) :
    i.shape ∉ [Shape.rectangle, Shape.cannon]
    ∧ i.shape ∉ [Shape.barrier1, Shape.barrier2, Shape.bullet, Shape.rectanglesideup,
        Shape.rectangleleft, Shape.rectangleright] := by
  cases i <;> decide

theorem hit_flag_one (clk : ℕ → K) (i j : Target) (s : Game K) (h : j.flag s = 1) :
    j.flag (i.hit clk s) = 1 := by
  by_cases hij : j = i
  · subst hij; rw [hit_eq_self clk j s h]; exact h
  · rw [hit_flag_other clk i j s hij]; exact h

theorem deflect_rendered (xedge yedge : K) (s : Game K) :
    (deflect xedge yedge s).rendered = s.rendered := by
  unfold deflect; split_ifs <;> rfl

theorem hit_rendered (clk : ℕ → K) (i : Target) (s : Game K) :
    (i.hit clk s).rendered = s.rendered ∨ (i.hit clk s).rendered = s.rendered ++ [i.shape] := by
  cases i <;>
    simp only [Target.hit, Target.shape, hitTriangle, hitSquare1, hitSquare2, hitSquare3,
      hitSquare4, hitSquare5, hitRectangle1, hitRectangle2, hitRectangle3] <;>
    split_ifs <;>
    first
    | exact Or.inl rfl
    | exact Or.inr rfl
    | exact Or.inl (deflect_rendered _ _ _)
    | (right; show (deflect _ _ _).rendered ++ _ = _; rw [deflect_rendered]; rfl)

theorem cannonanglecheck_rendered (m : Libm K) (s : Game K) :
    (cannonanglecheck m s).rendered = s.rendered := by
  unfold cannonanglecheck; split_ifs <;> rfl

theorem drawCannon_rendered (m : Libm K) (s : Game K) :
    (drawCannon m s).rendered = s.rendered ++ [Shape.rectangle, Shape.cannon] := by
  simp only [drawCannon, cannonanglecheck_rendered, draw3DObject, List.append_assoc,
    List.singleton_append]

theorem updateTime_rendered (m : Libm K) (clk : ℕ → K) (s : Game K) :
    (updateTime m clk s).rendered = s.rendered := by
  simp only [updateTime, resetbullet]
  split_ifs <;> first | rfl | exact cannonanglecheck_rendered m _

theorem integrate_rendered (s : Game K) : (integrate s).rendered = s.rendered := by
  unfold integrate; split_ifs <;> rfl

theorem barrierResponse_rendered (m : Libm K) (clk : ℕ → K) (junk : Int) (s : Game K) :
    (barrierResponse m clk junk s).rendered = s.rendered := by
  simp only [barrierResponse]; split_ifs <;> rfl

theorem floorRule_rendered (clk : ℕ → K) (s : Game K) :
    (floorRule clk s).rendered = s.rendered := by
  unfold floorRule; split_ifs <;> rfl

theorem drawMotion_rendered (m : Libm K) (clk : ℕ → K) (junk : Int) (s : Game K) :
    (drawMotion m clk junk s).rendered
      = s.rendered ++ [Shape.barrier1, Shape.barrier2, Shape.bullet, Shape.rectanglesideup,
          Shape.rectangleleft, Shape.rectangleright] := by
  have e : (drawMotion m clk junk s).rendered
      = (floorRule clk (barrierResponse m clk junk (integrate (updateTime m clk
          (drawBarriers s))))).rendered ++ [Shape.bullet, Shape.rectanglesideup,
            Shape.rectangleleft, Shape.rectangleright] := by
    simp only [drawMotion, drawBullet, draw3DObject, List.append_assoc, List.singleton_append,
      List.cons_append, List.nil_append]
  rw [e, floorRule_rendered, barrierResponse_rendered, integrate_rendered, updateTime_rendered]
  simp only [drawBarriers, draw3DObject, List.append_assoc, List.singleton_append,
    List.cons_append, List.nil_append]

/-- A destroyed target that has not been drawn stays destroyed and undrawn
through the hit test of any target. -/
theorem hit_hidden (clk : ℕ → K) (i j : Target) (s : Game K)
    (h : i.flag s = 1 ∧ i.shape ∉ s.rendered) :
    i.flag (j.hit clk s) = 1 ∧ i.shape ∉ (j.hit clk s).rendered := by
  refine ⟨hit_flag_one clk j i s h.1, ?_⟩
  by_cases hij : j = i
  · subst hij; rw [hit_eq_self clk j s h.1]; exact h.2
  · rcases hit_rendered clk j s with e | e
    · rw [e]; exact h.2
    · rw [e, List.mem_append, List.mem_singleton]
      rintro (h1 | h1)
      · exact h.2 h1
      · exact hij (shape_injective i j h1).symm

theorem drawCannon_hidden (m : Libm K) (i : Target) (s : Game K)
    (h : i.flag s = 1 ∧ i.shape ∉ s.rendered) :
    i.flag (drawCannon m s) = 1 ∧ i.shape ∉ (drawCannon m s).rendered := by
  refine ⟨by rw [drawCannon_flag]; exact h.1, ?_⟩
  rw [drawCannon_rendered, List.mem_append]
  rintro (h1 | h1)
  · exact h.2 h1
  · exact (shape_not_scenery i).1 h1

theorem drawMotion_hidden (m : Libm K) (clk : ℕ → K) (junk : Int) (i : Target) (s : Game K)
    (h : i.flag s = 1 ∧ i.shape ∉ s.rendered) :
    i.flag (drawMotion m clk junk s) = 1 ∧ i.shape ∉ (drawMotion m clk junk s).rendered := by
  refine ⟨by rw [drawMotion_flag]; exact h.1, ?_⟩
  rw [drawMotion_rendered, List.mem_append]
  rintro (h1 | h1)
  · exact h.2 h1
  · exact (shape_not_scenery i).2 h1

/-- A frame does not draw a target whose flag is 1. -/
theorem draw_hidden (m : Libm K) (clk : ℕ → K) (junk : Int) (i : Target) (s : Game K)
    (h : i.flag s = 1) :
    i.flag (draw m clk junk s) = 1 ∧ i.shape ∉ (draw m clk junk s).rendered := by
  simp only [draw, drawTargets, drawTriangle, hit_names]
  have h0 : i.flag ({ s with rendered := [] } : Game K) = 1
      ∧ i.shape ∉ ({ s with rendered := [] } : Game K).rendered :=
    ⟨by rw [clear_flag]; exact h, List.not_mem_nil _⟩
  have h1 := drawCannon_hidden m i _ (hit_hidden clk i Target.triangle _ h0)
  have h2 := hit_hidden clk i Target.square5 _ (hit_hidden clk i Target.square4 _
    (hit_hidden clk i Target.square3 _ (hit_hidden clk i Target.square2 _
      (hit_hidden clk i Target.square1 _ h1))))
  have h3 : i.flag (spinSquare5 _) = 1 ∧ i.shape ∉ (spinSquare5 _).rendered := h2
  exact drawMotion_hidden m clk junk i _ (hit_hidden clk i Target.rectangle3 _
    (hit_hidden clk i Target.rectangle2 _ (hit_hidden clk i Target.rectangle1 _ h3)))

theorem step_flag_one (m : Libm K) (clk : ℕ → K) (e : Event K) (i : Target) (s r : Game K)
    (h : step m clk e s = some r) (hf : i.flag s = 1) : i.flag r = 1 := by
  by_cases hfr : ∃ junk, e = Event.frame junk
  · obtain ⟨junk, rfl⟩ := hfr
    cases h; exact draw_flag_one m clk junk i s hf
  · have he : ∀ junk, e ≠ Event.frame junk := fun junk h => hfr ⟨junk, h⟩
    rw [flag_congr i s r (step_board_of_not_frame m clk e s r he h)]; exact hf

theorem run_flag_one (m : Libm K) (clk : ℕ → K) (i : Target) (es : List (Event K)) :
    ∀ s : Game K, i.flag s = 1 → i.flag (run m clk es s) = 1 := by
  induction es with
  | nil => intro s hs; exact hs
  | cons e es ih =>
    intro s hs
    unfold run
    cases hr : step m clk e s with
    | none => exact hs
    | some r => exact ih r (step_flag_one m clk e i s r hr hs)

/-! ### The accelerations -/

theorem deflect_env (xedge yedge : K) (s : Game K) : (deflect xedge yedge s).env = s.env := by
  unfold deflect; split_ifs <;> rfl

theorem hit_env (clk : ℕ → K) (i : Target) (s : Game K) : (i.hit clk s).env = s.env := by
  cases i <;>
    simp only [Target.hit, hitTriangle, hitSquare1, hitSquare2, hitSquare3, hitSquare4,
      hitSquare5, hitRectangle1, hitRectangle2, hitRectangle3] <;>
    split_ifs <;>
    first
    | rfl
    | exact deflect_env _ _ _

theorem cannonanglecheck_env (m : Libm K) (s : Game K) : (cannonanglecheck m s).env = s.env := by
  unfold cannonanglecheck; split_ifs <;> rfl

theorem drawCannon_env (m : Libm K) (s : Game K) : (drawCannon m s).env = s.env := by
  unfold drawCannon; rw [cannonanglecheck_env]; rfl

theorem spinSquare5_env (s : Game K) : (spinSquare5 s).env = s.env := rfl

theorem drawTargets_env (m : Libm K) (clk : ℕ → K) (s : Game K) :
    (drawTargets m clk s).env = s.env := by
  simp only [drawTargets, drawTriangle, hit_names, hit_env, drawCannon_env, spinSquare5_env]
  rfl

theorem updateTime_accel (m : Libm K) (clk : ℕ → K) (s : Game K) :
    (updateTime m clk s).ay = s.ay
    ∧ (updateTime m clk s).ax = if s.ux + s.ax * s.t < 0.01 then 0 else s.ax := by
  simp only [updateTime, resetbullet, cannonanglecheck, tick]
  split_ifs <;> exact ⟨rfl, rfl⟩

theorem integrate_accel (s : Game K) : (integrate s).ax = s.ax ∧ (integrate s).ay = s.ay := by
  unfold integrate; split_ifs <;> exact ⟨rfl, rfl⟩

theorem barrierResponse_accel (m : Libm K) (clk : ℕ → K) (junk : Int) (s : Game K) :
    (barrierResponse m clk junk s).ax = s.ax ∧ (barrierResponse m clk junk s).ay = s.ay := by
  simp only [barrierResponse]; split_ifs <;> exact ⟨rfl, rfl⟩

theorem floorRule_accel (clk : ℕ → K) (s : Game K) :
    (floorRule clk s).ax = s.ax ∧ (floorRule clk s).ay = s.ay := by
  unfold floorRule; split_ifs <;> exact ⟨rfl, rfl⟩

theorem drawBullet_ay (s : Game K) : (drawBullet s).ay = s.ay := rfl

theorem drawBullet_ax (s : Game K) : (drawBullet s).ax = s.ax := rfl

theorem drawMotion_accel (m : Libm K) (clk : ℕ → K) (junk : Int) (s : Game K) :
    (drawMotion m clk junk s).ay = s.ay
    ∧ (drawMotion m clk junk s).ax = if s.ux + s.ax * s.t < 0.01 then 0 else s.ax := by
  have u := updateTime_accel m clk (drawBarriers s)
  have a1 := integrate_accel (updateTime m clk (drawBarriers s))
  have a2 := barrierResponse_accel m clk junk (integrate (updateTime m clk (drawBarriers s)))
  have a3 := floorRule_accel clk (barrierResponse m clk junk
    (integrate (updateTime m clk (drawBarriers s))))
  unfold drawMotion
  rw [drawBullet_ay, drawBullet_ax, a3.2, a2.2, a1.2, u.1, a3.1, a2.1, a1.1, u.2]
  exact ⟨rfl, rfl⟩

/-- A frame leaves `ay` as it is, and leaves `ax` as it is or sets it to 0: to 0
exactly when `vx = ux + ax*t`, computed after the hit tests, is below 0.01. -/
theorem draw_accel (m : Libm K) (clk : ℕ → K) (junk : Int) (s : Game K) :
    (draw m clk junk s).ay = s.ay
    ∧ (draw m clk junk s).ax
        = if (drawTargets m clk s).ux + s.ax * s.t < 0.01 then 0 else s.ax := by
  have e : (drawTargets m clk s).env = s.env := drawTargets_env m clk s
  have e1 : (drawTargets m clk s).ax = s.ax := congrArg (fun p => p.1) e
  have e2 : (drawTargets m clk s).ay = s.ay := congrArg (fun p => p.2.1) e
  have e3 : (drawTargets m clk s).t = s.t := congrArg (fun p => p.2.2) e
  have d := drawMotion_accel m clk junk (drawTargets m clk s)
  rw [e1, e2, e3] at d
  exact d

theorem keyboard_env (m : Libm K) (clk : ℕ → K) (key : Key) (action : Action) (s : Game K) :
    (keyboard m clk key action s).env = s.env := by
  cases action <;> cases key <;> simp only [keyboard] <;> split_ifs <;> rfl

theorem mouseButton_env (m : Libm K) (clk : ℕ → K) (button : Button) (action : Action)
    (s : Game K) : (mouseButton m clk button action s).env = s.env := by
  cases action <;> cases button <;> simp only [mouseButton] <;> split_ifs <;> rfl

theorem scroll_callback_env (yoffset : K) (s : Game K) :
    (scroll_callback yoffset s).env = s.env := by
  unfold scroll_callback; split_ifs <;> rfl

theorem keyboardChar_env (m : Libm K) (key : Char) (s r : Game K)
    (h : keyboardChar m key s = some r) : r.env = s.env := by
  unfold keyboardChar at h
  split_ifs at h <;> cases h <;> rfl

theorem deflect_ux_zero (xedge yedge : K) (s : Game K) (h : s.ux = 0) :
    (deflect xedge yedge s).ux = 0 := by
  unfold deflect
  split_ifs
  · show -s.vx * (((3 : Int) / 4 : Int) : K) = 0
    norm_num
  · exact h
  · exact h

theorem hit_ux_zero (clk : ℕ → K) (i : Target) (s : Game K) (h : s.ux = 0) :
    (i.hit clk s).ux = 0 := by
  cases i <;>
    simp only [Target.hit, hitTriangle, hitSquare1, hitSquare2, hitSquare3, hitSquare4,
      hitSquare5, hitRectangle1, hitRectangle2, hitRectangle3] <;>
    split_ifs <;>
    first
    | exact h
    | exact deflect_ux_zero _ _ _ h
    | (show -_ * (((3 : Int) / 4 : Int) : K) = 0; norm_num)

theorem cannonanglecheck_ux (m : Libm K) (s : Game K) : (cannonanglecheck m s).ux = s.ux := by
  unfold cannonanglecheck; split_ifs <;> rfl

theorem drawTargets_ux_zero (m : Libm K) (clk : ℕ → K) (s : Game K) (h : s.ux = 0) :
    (drawTargets m clk s).ux = 0 := by
  simp only [drawTargets, drawTriangle, hit_names]
  have h1 : (drawCannon m (Target.triangle.hit clk { s with rendered := [] })).ux = 0 := by
    unfold drawCannon
    rw [cannonanglecheck_ux]
    exact hit_ux_zero clk Target.triangle _ h
  have h2 := hit_ux_zero clk Target.square5 _ (hit_ux_zero clk Target.square4 _
    (hit_ux_zero clk Target.square3 _ (hit_ux_zero clk Target.square2 _
      (hit_ux_zero clk Target.square1 _ h1))))
  exact hit_ux_zero clk Target.rectangle3 _ (hit_ux_zero clk Target.rectangle2 _
    (hit_ux_zero clk Target.rectangle1 (spinSquare5 _) h2))

/-! ### The score as the sum of the destroyed targets -/

theorem worth_congr (i : Target) (s r : Game K) (h : r.board = s.board) :
    i.worth r = i.worth s := by
  unfold Target.worth; rw [flag_congr i s r h]

theorem worth_cases (i : Target) (s : Game K) :
    (i.flag s = 1 ∧ i.worth s = i.points) ∨ (i.flag s ≠ 1 ∧ i.worth s = 0) := by
  unfold Target.worth
  by_cases h : i.flag s = 1
  · exact Or.inl ⟨h, if_pos h⟩
  · exact Or.inr ⟨h, if_neg h⟩

theorem draw_worth (m : Libm K) (clk : ℕ → K) (junk : Int) (i : Target) (s : Game K) :
    i.worth (draw m clk junk s) = i.worth s + i.added m clk s := by
  unfold Target.worth
  by_cases hc : i.inBox (i.before m clk s) ∧ i.flag s ≠ 1
  · rw [draw_flag_pos m clk junk i s hc.1 hc.2, added_pos m clk i s hc.1 hc.2, if_pos rfl,
      if_neg hc.2, Int.zero_add]
  · rw [draw_flag_neg m clk junk i s hc, added_neg m clk i s hc, Int.add_zero]

theorem draw_scoreOk (m : Libm K) (clk : ℕ → K) (junk : Int) (s : Game K) (h : s.scoreOk) :
    (draw m clk junk s).scoreOk := by
  unfold Game.scoreOk at h ⊢
  rw [draw_flagscore, draw_worth, draw_worth, draw_worth, draw_worth, draw_worth, draw_worth,
    draw_worth, draw_worth, draw_worth]
  omega

theorem scoreOk_congr (s r : Game K) (h : r.board = s.board) (hs : s.scoreOk) : r.scoreOk := by
  unfold Game.scoreOk at hs ⊢
  rw [flagscore_congr s r h, worth_congr _ s r h, worth_congr _ s r h, worth_congr _ s r h,
    worth_congr _ s r h, worth_congr _ s r h, worth_congr _ s r h, worth_congr _ s r h,
    worth_congr _ s r h, worth_congr _ s r h]
  exact hs

theorem step_scoreOk (m : Libm K) (clk : ℕ → K) (e : Event K) (s r : Game K)
    (h : step m clk e s = some r) (hs : s.scoreOk) : r.scoreOk := by
  by_cases hf : ∃ junk, e = Event.frame junk
  · obtain ⟨junk, rfl⟩ := hf
    cases h; exact draw_scoreOk m clk junk s hs
  · have he : ∀ junk, e ≠ Event.frame junk := fun junk h => hf ⟨junk, h⟩
    exact scoreOk_congr s r (step_board_of_not_frame m clk e s r he h) hs

theorem start_board (clk : ℕ → K) (gravityvariable airvar : K) :
    (start clk gravityvariable airvar).board = (initial clk).board := by
  simp only [start, configure]
  split_ifs <;> rfl

theorem start_scoreOk (clk : ℕ → K) (gravityvariable airvar : K) :
    (start clk gravityvariable airvar).scoreOk :=
  scoreOk_congr (initial clk) _ (start_board clk gravityvariable airvar) (by
    simp [Game.scoreOk, Target.worth, Target.flag, initial])

theorem worth_le (i : Target) (s : Game K) : i.worth s ≤ i.points := by
  unfold Target.worth
  split_ifs
  · exact le_refl _
  · exact le_of_lt (points_pos i)

/-- Once the score exceeds 90 every flag is 1. -/
theorem scoreOk_all_destroyed (s : Game K) (h : s.scoreOk) (hw : 90 < s.flagscore)
    (i : Target) : i.flag s = 1 := by
  unfold Game.scoreOk at h
  by_contra hne
  have wi : i.worth s = 0 := if_neg hne
  have w1 : Target.triangle.worth s ≤ 25 := worth_le Target.triangle s
  have w2 : Target.square1.worth s ≤ 10 := worth_le Target.square1 s
  have w3 : Target.square2.worth s ≤ 10 := worth_le Target.square2 s
  have w4 : Target.square3.worth s ≤ 5 := worth_le Target.square3 s
  have w5 : Target.square4.worth s ≤ 5 := worth_le Target.square4 s
  have w6 : Target.square5.worth s ≤ 20 := worth_le Target.square5 s
  have w7 : Target.rectangle1.worth s ≤ 3 := worth_le Target.rectangle1 s
  have w8 : Target.rectangle2.worth s ≤ 7 := worth_le Target.rectangle2 s
  have w9 : Target.rectangle3.worth s ≤ 7 := worth_le Target.rectangle3 s
  cases i <;> omega

/-- Once the score exceeds 90 a frame does not change it. -/
theorem draw_flagscore_of_won (m : Libm K) (clk : ℕ → K) (junk : Int) (s : Game K)
    (h : s.scoreOk) (hw : 90 < s.flagscore) :
    (draw m clk junk s).flagscore = s.flagscore := by
  have z : ∀ i : Target, i.added m clk s = 0 := fun i =>
    added_neg m clk i s (fun hc => hc.2 (scoreOk_all_destroyed s h hw i))
  rw [draw_flagscore, z, z, z, z, z, z, z, z, z]
  omega

/-! ### The loop of `main` -/

theorem loopFrame_fields (m : Libm K) (clk : ℕ → K) (junk : Int) (st : Main K) :
    (loopFrame m clk junk st).game = draw m clk junk st.game
    ∧ (loopFrame m clk junk st).stdout
        = st.stdout ++ report (draw m clk junk st.game).flagscore st.k
    ∧ (loopFrame m clk junk st).k
        = if (draw m clk junk st.game).flagscore > st.k
          then (draw m clk junk st.game).flagscore else st.k := by
  simp only [loopFrame, report]
  split_ifs <;> simp

/-- What holds in every state of the loop: `k` is the score, the score is the
sum of the destroyed targets, and the banner has been written at most once and
not at all while the score is at most 90. -/
theorem mainStep_invariant (m : Libm K) (clk : ℕ → K) (e : Event K) (st st1 : Main K)
    (h : mainStep m clk e st = some st1)
    (hi : st.k = st.game.flagscore ∧ st.game.scoreOk
      ∧ (st.game.flagscore ≤ 90 → List.count Output.youWon st.stdout = 0)
      ∧ List.count Output.youWon st.stdout ≤ 1) :
    st1.k = st1.game.flagscore ∧ st1.game.scoreOk
      ∧ (st1.game.flagscore ≤ 90 → List.count Output.youWon st1.stdout = 0)
      ∧ List.count Output.youWon st1.stdout ≤ 1 := by
  obtain ⟨hk, hs, h0, h1⟩ := hi
  have other : ∀ g : Game K, g.board = st.game.board →
      st1 = { st with game := g } →
      st1.k = st1.game.flagscore ∧ st1.game.scoreOk
      ∧ (st1.game.flagscore ≤ 90 → List.count Output.youWon st1.stdout = 0)
      ∧ List.count Output.youWon st1.stdout ≤ 1 := by
    intro g hg e1
    subst e1
    have ef : g.flagscore = st.game.flagscore := flagscore_congr _ _ hg
    exact ⟨by show st.k = g.flagscore; rw [ef]; exact hk, scoreOk_congr _ _ hg hs,
      by show g.flagscore ≤ 90 → _; rw [ef]; exact h0, h1⟩
  cases e with
  | key key action => cases h; exact other _ (keyboard_board m clk key action _) rfl
  | mouse button action => cases h; exact other _ (mouseButton_board m clk button action _) rfl
  | scroll yoffset => cases h; exact other _ (scroll_callback_board yoffset _) rfl
  | char key =>
    simp only [mainStep] at h
    cases hc : keyboardChar m key st.game with
    | none => rw [hc] at h; cases h
    | some g => rw [hc] at h; cases h; exact other g (keyboardChar_board m key _ g hc) rfl
  | frame junk =>
    cases h
    obtain ⟨e1, e2, e3⟩ := loopFrame_fields m clk junk st
    have hle := draw_flagscore_le m clk junk st.game
    have hs1 := draw_scoreOk m clk junk st.game hs
    rw [e1, e2, e3, List.count_append]
    refine ⟨?_, hs1, ?_, ?_⟩
    · split_ifs with hgt
      · rfl
      · omega
    · intro h90
      have : st.game.flagscore ≤ 90 := le_trans hle h90
      rw [h0 this]
      unfold report
      split_ifs with a b
      · omega
      · simp
      · simp
    · by_cases hw : 90 < st.game.flagscore
      · have := draw_flagscore_of_won m clk junk st.game hs hw
        unfold report
        rw [if_neg (by omega)]
        simpa using h1
      · rw [h0 (by omega)]
        unfold report
        split_ifs <;> simp

theorem mainStart_invariant (clk : ℕ → K) (gravityvariable airvar : K) :
    (mainStart clk gravityvariable airvar).k
        = (mainStart clk gravityvariable airvar).game.flagscore
    ∧ (mainStart clk gravityvariable airvar).game.scoreOk
    ∧ ((mainStart clk gravityvariable airvar).game.flagscore ≤ 90 →
        List.count Output.youWon (mainStart clk gravityvariable airvar).stdout = 0)
    ∧ List.count Output.youWon (mainStart clk gravityvariable airvar).stdout ≤ 1 := by
  refine ⟨?_, start_scoreOk clk gravityvariable airvar, fun _ => rfl, Nat.zero_le 1⟩
  show (0 : Int) = (start clk gravityvariable airvar).flagscore
  rw [flagscore_congr _ _ (start_board clk gravityvariable airvar)]; rfl

theorem mainRun_invariant (m : Libm K) (clk : ℕ → K) (es : List (Event K)) :
    ∀ st : Main K,
      (st.k = st.game.flagscore ∧ st.game.scoreOk
        ∧ (st.game.flagscore ≤ 90 → List.count Output.youWon st.stdout = 0)
        ∧ List.count Output.youWon st.stdout ≤ 1) →
      ((mainRun m clk es st).k = (mainRun m clk es st).game.flagscore
        ∧ (mainRun m clk es st).game.scoreOk
        ∧ ((mainRun m clk es st).game.flagscore ≤ 90 →
            List.count Output.youWon (mainRun m clk es st).stdout = 0)
        ∧ List.count Output.youWon (mainRun m clk es st).stdout ≤ 1) := by
  induction es with
  | nil => intro st hi; exact hi
  | cons e es ih =>
    intro st hi
    unfold mainRun
    cases hr : mainStep m clk e st with
    | none => exact hi
    | some st1 => exact ih st1 (mainStep_invariant m clk e st st1 hr hi)

/-! ### Accelerations along a run, and a held aim key -/

theorem env_fields (r s : Game K) (h : r.env = s.env) : r.ax = s.ax ∧ r.ay = s.ay :=
  ⟨congrArg (fun p => p.1) h, congrArg (fun p => p.2.1) h⟩

theorem step_accel (m : Libm K) (clk : ℕ → K) (e : Event K) (s r : Game K)
    (h : step m clk e s = some r) : r.ay = s.ay ∧ (r.ax = s.ax ∨ r.ax = 0) := by
  cases e with
  | key key action =>
    cases h
    exact ⟨(env_fields _ _ (keyboard_env m clk key action s)).2,
      Or.inl (env_fields _ _ (keyboard_env m clk key action s)).1⟩
  | char key =>
    exact ⟨(env_fields _ _ (keyboardChar_env m key s r h)).2,
      Or.inl (env_fields _ _ (keyboardChar_env m key s r h)).1⟩
  | mouse button action =>
    cases h
    exact ⟨(env_fields _ _ (mouseButton_env m clk button action s)).2,
      Or.inl (env_fields _ _ (mouseButton_env m clk button action s)).1⟩
  | scroll yoffset =>
    cases h
    exact ⟨(env_fields _ _ (scroll_callback_env yoffset s)).2,
      Or.inl (env_fields _ _ (scroll_callback_env yoffset s)).1⟩
  | frame junk =>
    cases h
    obtain ⟨h1, h2⟩ := draw_accel m clk junk s
    refine ⟨h1, ?_⟩
    rw [h2]
    split_ifs
    · exact Or.inr rfl
    · exact Or.inl rfl

theorem run_accel (m : Libm K) (clk : ℕ → K) (es : List (Event K)) :
    ∀ s : Game K, (run m clk es s).ay = s.ay
      ∧ ((run m clk es s).ax = s.ax ∨ (run m clk es s).ax = 0) := by
  induction es with
  | nil => intro s; exact ⟨rfl, Or.inl rfl⟩
  | cons e es ih =>
    intro s
    unfold run
    cases hr : step m clk e s with
    | none => exact ⟨rfl, Or.inl rfl⟩
    | some r =>
      obtain ⟨a1, a2⟩ := step_accel m clk e s r hr
      obtain ⟨b1, b2⟩ := ih r
      refine ⟨by rw [b1, a1], ?_⟩
      rcases b2 with b2 | b2
      · rw [b2]; exact a2
      · exact Or.inr b2

/-- An aim key pressed before the launch is still held in flight: after an UP
press, a fire press and a fire release the projectile is in flight with
`cannonrotflag = 1`. -/
theorem held_key_launch (m : Libm K) (clk : ℕ → K) (s : Game K) (h : s.bulletflag ≠ 1) :
    (run m clk
        [Event.key Key.GLFW_KEY_UP Action.GLFW_PRESS,
         Event.key Key.GLFW_KEY_SPACE Action.GLFW_PRESS,
         Event.key Key.GLFW_KEY_SPACE Action.GLFW_RELEASE] s).bulletflag = 1
    ∧ (run m clk
        [Event.key Key.GLFW_KEY_UP Action.GLFW_PRESS,
         Event.key Key.GLFW_KEY_SPACE Action.GLFW_PRESS,
         Event.key Key.GLFW_KEY_SPACE Action.GLFW_RELEASE] s).cannonrotflag = 1 := by
  simp [run, step, keyboard, tick, h]

/-! ### The score along a run, and the hit on the triangle -/

theorem run_scoreOk (m : Libm K) (clk : ℕ → K) (es : List (Event K)) :
    ∀ s : Game K, s.scoreOk → (run m clk es s).scoreOk := by
  induction es with
  | nil => intro s hs; exact hs
  | cons e es ih =>
    intro s hs
    simp only [run]
    cases hstep : step m clk e s with
    | none => exact hs
    | some s1 => exact ih s1 (step_scoreOk m clk e s s1 hstep hs)

theorem worth_nonneg (i : Target) (s : Game K) : 0 ≤ i.worth s := by
  rcases worth_cases i s with h | h
  · rw [h.2]; cases i <;> decide
  · rw [h.2]

theorem scoreOk_range (s : Game K) (h : s.scoreOk) : 0 ≤ s.flagscore ∧ s.flagscore ≤ 92 := by
  have a1 := worth_nonneg Target.triangle s
  have a2 := worth_nonneg Target.square1 s
  have a3 := worth_nonneg Target.square2 s
  have a4 := worth_nonneg Target.square3 s
  have a5 := worth_nonneg Target.square4 s
  have a6 := worth_nonneg Target.square5 s
  have a7 := worth_nonneg Target.rectangle1 s
  have a8 := worth_nonneg Target.rectangle2 s
  have a9 := worth_nonneg Target.rectangle3 s
  have b1 : Target.triangle.worth s ≤ 25 := worth_le Target.triangle s
  have b2 : Target.square1.worth s ≤ 10 := worth_le Target.square1 s
  have b3 : Target.square2.worth s ≤ 10 := worth_le Target.square2 s
  have b4 : Target.square3.worth s ≤ 5 := worth_le Target.square3 s
  have b5 : Target.square4.worth s ≤ 5 := worth_le Target.square4 s
  have b6 : Target.square5.worth s ≤ 20 := worth_le Target.square5 s
  have b7 : Target.rectangle1.worth s ≤ 3 := worth_le Target.rectangle1 s
  have b8 : Target.rectangle2.worth s ≤ 7 := worth_le Target.rectangle2 s
  have b9 : Target.rectangle3.worth s ≤ 7 := worth_le Target.rectangle3 s
  unfold Game.scoreOk at h
  omega

theorem worth_of_destroyed (i : Target) (s : Game K) (h : i.flag s = 1) :
    i.worth s = i.points := by
  unfold Target.worth; rw [if_pos h]

theorem worth_of_standing (i : Target) (s : Game K) (h : i.flag s ≠ 1) : i.worth s = 0 := by
  unfold Target.worth; rw [if_neg h]

theorem scoreOk_of_all (s : Game K) (h : s.scoreOk) (ha : ∀ i : Target, i.flag s = 1) :
    s.flagscore = 92 := by
  unfold Game.scoreOk at h
  rw [h, worth_of_destroyed _ s (ha _), worth_of_destroyed _ s (ha _),
    worth_of_destroyed _ s (ha _), worth_of_destroyed _ s (ha _),
    worth_of_destroyed _ s (ha _), worth_of_destroyed _ s (ha _),
    worth_of_destroyed _ s (ha _), worth_of_destroyed _ s (ha _),
    worth_of_destroyed _ s (ha _)]
  rfl

theorem scoreOk_of_standing (s : Game K) (h : s.scoreOk) (i : Target) (hi : i.flag s ≠ 1) :
    s.flagscore ≤ 92 - i.points := by
  have b1 : Target.triangle.worth s ≤ 25 := worth_le Target.triangle s
  have b2 : Target.square1.worth s ≤ 10 := worth_le Target.square1 s
  have b3 : Target.square2.worth s ≤ 10 := worth_le Target.square2 s
  have b4 : Target.square3.worth s ≤ 5 := worth_le Target.square3 s
  have b5 : Target.square4.worth s ≤ 5 := worth_le Target.square4 s
  have b6 : Target.square5.worth s ≤ 20 := worth_le Target.square5 s
  have b7 : Target.rectangle1.worth s ≤ 3 := worth_le Target.rectangle1 s
  have b8 : Target.rectangle2.worth s ≤ 7 := worth_le Target.rectangle2 s
  have b9 : Target.rectangle3.worth s ≤ 7 := worth_le Target.rectangle3 s
  have hz := worth_of_standing i s hi
  unfold Game.scoreOk at h
  cases i <;> simp only [Target.points] <;> omega

theorem points_ge_three (i : Target) : 3 ≤ i.points := by
  cases i <;> decide

theorem hitTriangle_eq (clk : ℕ → K) (s : Game K)
    (hx : |s.sx - 6| ≤ 0.7) (hy : |s.sy + 5| ≤ 0.9) (hf : s.flagtriangle ≠ 1) :
    hitTriangle clk s
      = resetprojectile clk { s with flagscore := s.flagscore + 25, flagtriangle := 1 } := by
  have h1 : ¬ s.sx < 5.3 := by
    have := (abs_le.mp hx).1
    intro hc
    norm_num at this hc
    linarith
  have h2 : ¬ s.sy > -4.1 := by
    have := (abs_le.mp hy).2
    intro hc
    norm_num at this hc
    linarith
  have hc := And.intro hx (And.intro hy hf)
  have hd : deflect 5.3 (-4.1)
      (resetprojectile clk { s with flagscore := s.flagscore + 25, flagtriangle := 1 })
      = resetprojectile clk { s with flagscore := s.flagscore + 25, flagtriangle := 1 } := by
    unfold deflect
    rw [if_neg (show ¬ (resetprojectile clk
        { s with flagscore := s.flagscore + 25, flagtriangle := 1 }).sx < 5.3 from h1),
      if_neg (show ¬ (resetprojectile clk
        { s with flagscore := s.flagscore + 25, flagtriangle := 1 }).sy > -4.1 from h2)]
  unfold hitTriangle
  simp only [if_pos hc, hd]
  rw [if_neg]
  intro hn
  exact hn rfl

/-! ### The y-bands of the barrier response -/

theorem barrierResponse_uy (m : Libm K) (clk : ℕ → K) (junk : Int) (s : Game K)
    (h : (checkcollisionbarrier m s).getD junk = 1) :
    (barrierResponse m clk junk s).uy
      = if (s.sy ≥ -3 ∧ s.sy ≤ -1.5) ∨ (s.sy ≥ 3 ∧ s.sy ≤ 4.5) then s.uy + 0.5
        else if (s.sy < -3 ∧ s.sy ≥ -4.5) ∨ (s.sy < 3 ∧ s.sy ≥ 1.5) then s.uy - 0.5
        else s.uy := by
  simp only [barrierResponse, if_pos h]
  split_ifs <;> rfl

/-! ### The fire key of `aa.cpp` -/

theorem aa_keyboard_refire (clk : ℕ → K) (s : Aa.Game K) :
    (Aa.keyboard clk Key.GLFW_KEY_SPACE Action.GLFW_RELEASE
      (Aa.keyboard clk Key.GLFW_KEY_SPACE Action.GLFW_PRESS s)).last_update_time
        = clk (s.reads + 1)
    ∧ (Aa.keyboard clk Key.GLFW_KEY_SPACE Action.GLFW_RELEASE
      (Aa.keyboard clk Key.GLFW_KEY_SPACE Action.GLFW_PRESS s)).ux
        = (clk (s.reads + 2) - clk s.reads) * 5
    ∧ (Aa.keyboard clk Key.GLFW_KEY_SPACE Action.GLFW_RELEASE
      (Aa.keyboard clk Key.GLFW_KEY_SPACE Action.GLFW_PRESS s)).uy
        = (clk (s.reads + 2) - clk s.reads) * 3
    ∧ (Aa.keyboard clk Key.GLFW_KEY_SPACE Action.GLFW_RELEASE
      (Aa.keyboard clk Key.GLFW_KEY_SPACE Action.GLFW_PRESS s)).bulletflag = 1 :=
  ⟨rfl, rfl, rfl, rfl⟩

/-- A frame of `aa.cpp` reads the clock once and leaves the launch velocity, the
time origin and `bulletflag` as they are. -/
theorem aa_draw_launch (m : Libm K) (clk : ℕ → K) (s : Aa.Game K) :
    (Aa.draw m clk s).ux = s.ux ∧ (Aa.draw m clk s).uy = s.uy
    ∧ (Aa.draw m clk s).last_update_time = s.last_update_time
    ∧ (Aa.draw m clk s).bulletflag = s.bulletflag
    ∧ (Aa.draw m clk s).reads = s.reads + 1 := by
  simp only [Aa.draw, Aa.cannonanglecheck]
  split_ifs <;> exact ⟨rfl, rfl, rfl, rfl, rfl⟩

theorem aa_keyboard_fire_reads (clk : ℕ → K) (s : Aa.Game K) :
    (Aa.keyboard clk Key.GLFW_KEY_SPACE Action.GLFW_RELEASE
      (Aa.keyboard clk Key.GLFW_KEY_SPACE Action.GLFW_PRESS s)).reads = s.reads + 3 := rfl

theorem aa_initial_reads (clk : ℕ → K) : (Aa.initial clk).reads = 1 := rfl

/-- The first shot of the example run of `aa.cpp`. -/
theorem aa_exampleShot_fields :
    Aa.exampleShot.bulletflag = 1 ∧ Aa.exampleShot.ux = 60 ∧ Aa.exampleShot.uy = 36
    ∧ Aa.exampleShot.last_update_time = 9 ∧ Aa.exampleShot.reads = 6 := by
  unfold Aa.exampleShot
  obtain ⟨d1, d2, d3, d4, d5⟩ := aa_draw_launch coarseLibm squareClock
    (Aa.keyboard squareClock Key.GLFW_KEY_SPACE Action.GLFW_RELEASE
      (Aa.keyboard squareClock Key.GLFW_KEY_SPACE Action.GLFW_PRESS
        (Aa.draw coarseLibm squareClock (Aa.initial squareClock))))
  obtain ⟨k1, k2, k3, k4⟩ := aa_keyboard_refire squareClock
    (Aa.draw coarseLibm squareClock (Aa.initial squareClock))
  have k5 := aa_keyboard_fire_reads squareClock
    (Aa.draw coarseLibm squareClock (Aa.initial squareClock))
  have r0 : (Aa.draw coarseLibm squareClock (Aa.initial squareClock)).reads = 2 := by
    rw [(aa_draw_launch coarseLibm squareClock _).2.2.2.2, aa_initial_reads]
  rw [d1, d2, d3, d4, d5, k1, k2, k3, k4, k5, r0]
  norm_num [squareClock]

/-! ### Frames without a hit: the launch velocity and the time origin -/

theorem launch_fields (r s : Game K) (h : r.launch = s.launch) :
    r.ux = s.ux ∧ r.uy = s.uy ∧ r.last_update_time = s.last_update_time :=
  ⟨congrArg (fun p => p.1) h, congrArg (fun p => p.2.1) h, congrArg (fun p => p.2.2) h⟩

theorem launch_of_core (r s : Game K) (h : r.core = s.core) : r.launch = s.launch := by
  have e : r.core.launch = s.core.launch := by rw [h]
  exact e

theorem hit_launch_of_miss (clk : ℕ → K) (i : Target) (s : Game K)
    (h : ¬ (i.inBox s ∧ i.flag s ≠ 1)) : (i.hit clk s).launch = s.launch :=
  launch_of_core _ _ (hit_core_of_miss clk i s h)

theorem cannonanglecheck_launch (m : Libm K) (s : Game K) :
    (cannonanglecheck m s).launch = s.launch := by
  unfold cannonanglecheck; split_ifs <;> rfl

theorem drawCannon_launch (m : Libm K) (s : Game K) : (drawCannon m s).launch = s.launch := by
  unfold drawCannon
  rw [cannonanglecheck_launch]
  rfl

/-- When no hit test passes, the first part of `draw` leaves the launch velocity
and the time origin as they were, whatever the aim controller does. -/
theorem drawTargets_launch_of_miss (m : Libm K) (clk : ℕ → K) (s : Game K)
    (hm : ∀ i : Target, ¬ (i.inBox (i.before m clk s) ∧ i.flag (i.before m clk s) ≠ 1)) :
    (drawTargets m clk s).launch = s.launch := by
  have e0 : (Target.triangle.before m clk s).launch = s.launch := rfl
  have h0 := hit_launch_of_miss clk Target.triangle _ (hm Target.triangle)
  have e1 : (Target.square1.before m clk s).launch
      = (Target.triangle.hit clk (Target.triangle.before m clk s)).launch :=
    drawCannon_launch m _
  have h1 := hit_launch_of_miss clk Target.square1 _ (hm Target.square1)
  have e2 : (Target.square2.before m clk s).launch
      = (Target.square1.hit clk (Target.square1.before m clk s)).launch := rfl
  have h2 := hit_launch_of_miss clk Target.square2 _ (hm Target.square2)
  have e3 : (Target.square3.before m clk s).launch
      = (Target.square2.hit clk (Target.square2.before m clk s)).launch := rfl
  have h3 := hit_launch_of_miss clk Target.square3 _ (hm Target.square3)
  have e4 : (Target.square4.before m clk s).launch
      = (Target.square3.hit clk (Target.square3.before m clk s)).launch := rfl
  have h4 := hit_launch_of_miss clk Target.square4 _ (hm Target.square4)
  have e5 : (Target.square5.before m clk s).launch
      = (Target.square4.hit clk (Target.square4.before m clk s)).launch := rfl
  have h5 := hit_launch_of_miss clk Target.square5 _ (hm Target.square5)
  have e6 : (Target.rectangle1.before m clk s).launch
      = (Target.square5.hit clk (Target.square5.before m clk s)).launch := rfl
  have h6 := hit_launch_of_miss clk Target.rectangle1 _ (hm Target.rectangle1)
  have e7 : (Target.rectangle2.before m clk s).launch
      = (Target.rectangle1.hit clk (Target.rectangle1.before m clk s)).launch := rfl
  have h7 := hit_launch_of_miss clk Target.rectangle2 _ (hm Target.rectangle2)
  have e8 : (Target.rectangle3.before m clk s).launch
      = (Target.rectangle2.hit clk (Target.rectangle2.before m clk s)).launch := rfl
  have h8 := hit_launch_of_miss clk Target.rectangle3 _ (hm Target.rectangle3)
  have e9 : (drawTargets m clk s).launch
      = (Target.rectangle3.hit clk (Target.rectangle3.before m clk s)).launch := rfl
  rw [e9, h8, e8, h7, e7, h6, e6, h5, e5, h4, e4, h3, e3, h2, e2, h1, e1, h0, e0]

theorem floorRule_miss (clk : ℕ → K) (s : Game K) (h : ¬ s.sy ≤ -5.9) : floorRule clk s = s := by
  unfold floorRule; rw [if_neg h]

theorem integrate_launch (s : Game K) : (integrate s).launch = s.launch := by
  unfold integrate; split_ifs <;> rfl

theorem updateTime_launch (m : Libm K) (clk : ℕ → K) (s : Game K) :
    (updateTime m clk s).launch = s.launch := by
  simp only [updateTime, resetbullet, cannonanglecheck]
  split_ifs <;> rfl

theorem drawBullet_launch (s : Game K) : (drawBullet s).launch = s.launch := rfl

theorem drawBarriers_launch (s : Game K) : (drawBarriers s).launch = s.launch := rfl

/-- When no barrier hit is declared and the floor rule does not fire, the second
part of `draw` leaves the launch velocity and the time origin as they were. -/
theorem drawMotion_launch_of_quiet (m : Libm K) (clk : ℕ → K) (junk : Int) (s : Game K)
    (hb : ¬ (checkcollisionbarrier m
      (integrate (updateTime m clk (drawBarriers s)))).getD junk = 1)
    (hf : ¬ (integrate (updateTime m clk (drawBarriers s))).sy ≤ -5.9) :
    (drawMotion m clk junk s).launch = s.launch := by
  unfold drawMotion
  rw [barrierResponse_miss m clk junk _ hb, floorRule_miss clk _ hf, drawBullet_launch,
    integrate_launch, updateTime_launch, drawBarriers_launch]

theorem integrate_clock (s : Game K) :
    (integrate s).t = s.t ∧ (integrate s).current_time = s.current_time := by
  unfold integrate; split_ifs <;> exact ⟨rfl, rfl⟩

theorem barrierResponse_clock (m : Libm K) (clk : ℕ → K) (junk : Int) (s : Game K) :
    (barrierResponse m clk junk s).t = s.t
    ∧ (barrierResponse m clk junk s).current_time = s.current_time := by
  simp only [barrierResponse]; split_ifs <;> exact ⟨rfl, rfl⟩

theorem floorRule_clock (clk : ℕ → K) (s : Game K) :
    (floorRule clk s).t = s.t ∧ (floorRule clk s).current_time = s.current_time := by
  unfold floorRule; split_ifs <;> exact ⟨rfl, rfl⟩

theorem updateTime_clock (m : Libm K) (clk : ℕ → K) (s : Game K) :
    (updateTime m clk s).t = ((updateTime m clk s).current_time - s.last_update_time) / 5 := by
  simp only [updateTime, resetbullet, cannonanglecheck, tick, glfwGetTime]
  split_ifs <;> rfl

theorem drawBullet_clock (s : Game K) :
    (drawBullet s).t = s.t ∧ (drawBullet s).current_time = s.current_time := ⟨rfl, rfl⟩

theorem drawBarriers_last_update_time (s : Game K) :
    (drawBarriers s).last_update_time = s.last_update_time := rfl

theorem drawMotion_clock (m : Libm K) (clk : ℕ → K) (junk : Int) (s : Game K) :
    (drawMotion m clk junk s).t
      = ((drawMotion m clk junk s).current_time - s.last_update_time) / 5 := by
  have u := updateTime_clock m clk (drawBarriers s)
  have a1 := integrate_clock (updateTime m clk (drawBarriers s))
  have a2 := barrierResponse_clock m clk junk (integrate (updateTime m clk (drawBarriers s)))
  have a3 := floorRule_clock clk (barrierResponse m clk junk
    (integrate (updateTime m clk (drawBarriers s))))
  unfold drawMotion
  rw [(drawBullet_clock _).1, (drawBullet_clock _).2, a3.1, a3.2, a2.1, a2.2, a1.1, a1.2, u,
    drawBarriers_last_update_time]

/-- The elapsed time that a frame leaves is measured from the time origin that
the hit tests leave. -/
theorem draw_clock (m : Libm K) (clk : ℕ → K) (junk : Int) (s : Game K) :
    (draw m clk junk s).t
      = ((draw m clk junk s).current_time - (drawTargets m clk s).last_update_time) / 5 :=
  drawMotion_clock m clk junk (drawTargets m clk s)

/-! ### A frame that hits two targets -/

theorem aimIdle_of_zero (s : Game K) (h : s.cannonrotflag = 0) : s.aimIdle := by
  unfold Game.aimIdle
  rw [h]
  norm_num

theorem deflect_pos (xedge yedge : K) (s : Game K) :
    ((deflect xedge yedge s).sx = s.sx ∨ s.sx < xedge)
    ∧ ((deflect xedge yedge s).sy = s.sy
        ∨ ((deflect xedge yedge s).sy = s.sy + 0.3 ∧ s.sy > yedge)) := by
  unfold deflect
  by_cases h1 : s.sx < xedge
  · rw [if_pos h1]
    exact ⟨Or.inr h1, Or.inl rfl⟩
  · rw [if_neg h1]
    by_cases h2 : s.sy > yedge
    · rw [if_pos h2]
      exact ⟨Or.inl rfl, Or.inr ⟨rfl, h2⟩⟩
    · rw [if_neg h2]
      exact ⟨Or.inl rfl, Or.inl rfl⟩

theorem hitSquare3_eq (clk : ℕ → K) (s : Game K)
    (h : |s.sx - 6| ≤ 2.1 ∧ |s.sy + 2| ≤ 0.8 ∧ s.flagsquare3 ≠ 1) :
    hitSquare3 clk s = deflect 4.1 (-1.4)
      (resetprojectile clk { s with flagscore := s.flagscore + 5, flagsquare3 := 1 }) := by
  have hb := congrArg Board.flagsquare3 (deflect_board 4.1 (-1.4)
    (resetprojectile clk { s with flagscore := s.flagscore + 5, flagsquare3 := 1 }))
  have hb2 : (deflect 4.1 (-1.4)
      (resetprojectile clk { s with flagscore := s.flagscore + 5, flagsquare3 := 1 })).flagsquare3
      = 1 := hb
  unfold hitSquare3
  simp only [if_pos h]
  rw [if_neg]
  intro hn
  exact hn hb2

theorem hitSquare4_eq (clk : ℕ → K) (s : Game K)
    (h : |s.sx - 6| ≤ 1.1 ∧ |s.sy + 0.8| ≤ 0.6 ∧ s.flagsquare4 ≠ 1) :
    hitSquare4 clk s = deflect 5.01 (-0.35)
      (resetprojectile clk { s with flagscore := s.flagscore + 5, flagsquare4 := 1 }) := by
  have hb := congrArg Board.flagsquare4 (deflect_board 5.01 (-0.35)
    (resetprojectile clk { s with flagscore := s.flagscore + 5, flagsquare4 := 1 }))
  have hb2 : (deflect 5.01 (-0.35)
      (resetprojectile clk { s with flagscore := s.flagscore + 5, flagsquare4 := 1 })).flagsquare4
      = 1 := hb
  unfold hitSquare4
  simp only [if_pos h]
  rw [if_neg]
  intro hn
  exact hn hb2

/-- The hit on `square3` of a projectile that is also inside the box of
`square4` leaves it inside that box. -/
theorem hitSquare3_overlap (clk : ℕ → K) (s : Game K) (hf : s.flagsquare3 ≠ 1)
    (hx : |s.sx - 6| ≤ 1.1) (hy1 : -1.4 ≤ s.sy) (hy2 : s.sy ≤ -1.2) :
    (hitSquare3 clk s).sx = s.sx ∧ -1.4 ≤ (hitSquare3 clk s).sy
    ∧ (hitSquare3 clk s).sy ≤ -0.9 := by
  have hx2 := abs_le.mp hx
  have hc : |s.sx - 6| ≤ 2.1 ∧ |s.sy + 2| ≤ 0.8 ∧ s.flagsquare3 ≠ 1 := by
    refine ⟨le_trans hx (by norm_num), abs_le.mpr ⟨?_, ?_⟩, hf⟩
    · norm_num at hy1 ⊢; linarith
    · norm_num at hy2 ⊢; linarith
  rw [hitSquare3_eq clk s hc]
  obtain ⟨p1, p2⟩ := deflect_pos 4.1 (-1.4)
    (resetprojectile clk { s with flagscore := s.flagscore + 5, flagsquare3 := 1 })
  have q1 : (resetprojectile clk
      { s with flagscore := s.flagscore + 5, flagsquare3 := 1 }).sx = s.sx := rfl
  have q2 : (resetprojectile clk
      { s with flagscore := s.flagscore + 5, flagsquare3 := 1 }).sy = s.sy := rfl
  rw [q1] at p1
  rw [q2] at p2
  refine ⟨?_, ?_, ?_⟩
  · rcases p1 with p1 | p1
    · exact p1
    · exfalso
      have := hx2.1
      norm_num at this p1
      linarith
  · rcases p2 with p2 | ⟨p2, -⟩ <;> rw [p2]
    · exact hy1
    · norm_num at hy1 ⊢; linarith
  · rcases p2 with p2 | ⟨p2, -⟩ <;> rw [p2]
    · norm_num at hy2 ⊢; linarith
    · norm_num at hy2 ⊢; linarith

/-- The hit on `square4` of a projectile with `sy` in `[-1.4, -0.9]` leaves `sy`
as it is. -/
theorem hitSquare4_overlap (clk : ℕ → K) (s : Game K) (hf : s.flagsquare4 ≠ 1)
    (hx : |s.sx - 6| ≤ 1.1) (hy1 : -1.4 ≤ s.sy) (hy2 : s.sy ≤ -0.9) :
    (hitSquare4 clk s).sy = s.sy := by
  have hc : |s.sx - 6| ≤ 1.1 ∧ |s.sy + 0.8| ≤ 0.6 ∧ s.flagsquare4 ≠ 1 := by
    refine ⟨hx, abs_le.mpr ⟨?_, ?_⟩, hf⟩
    · norm_num at hy1 ⊢; linarith
    · norm_num at hy2 ⊢; linarith
  rw [hitSquare4_eq clk s hc]
  obtain ⟨-, p2⟩ := deflect_pos 5.01 (-0.35)
    (resetprojectile clk { s with flagscore := s.flagscore + 5, flagsquare4 := 1 })
  have q2 : (resetprojectile clk
      { s with flagscore := s.flagscore + 5, flagsquare4 := 1 }).sy = s.sy := rfl
  rw [q2] at p2
  rcases p2 with p2 | ⟨-, p2⟩
  · exact p2
  · exfalso
    norm_num at p2 hy2
    linarith

theorem hit_pos_of_miss (clk : ℕ → K) (i : Target) (s : Game K)
    (h : ¬ (i.inBox s ∧ i.flag s ≠ 1)) :
    (i.hit clk s).sx = s.sx ∧ (i.hit clk s).sy = s.sy := by
  obtain ⟨-, -, e3, e4, -⟩ := core_fields _ _ (hit_core_of_miss clk i s h)
  exact ⟨e3, e4⟩

/-- In a frame that starts with the aim controller idle and the projectile
inside the boxes of `square3` and of `square4`, the hit test of `square3` and
that of `square4` pass and no other does. -/
theorem overlap_tests (m : Libm K) (clk : ℕ → K) (s : Game K) (hr : s.cannonrotflag = 0)
    (h3 : s.flagsquare3 = 0) (h4 : s.flagsquare4 = 0)
    (hx : |s.sx - 6| ≤ 1.1) (hy1 : -1.4 ≤ s.sy) (hy2 : s.sy ≤ -1.2) :
    (∀ i : Target, i ≠ Target.square3 → i ≠ Target.square4 →
      ¬ (i.inBox (i.before m clk s) ∧ i.flag s ≠ 1))
    ∧ Target.square3.inBox (Target.square3.before m clk s)
    ∧ Target.square4.inBox (Target.square4.before m clk s) := by
  have hidle := aimIdle_of_zero s hr
  -- no test that reads `sy` in a box below -2.9 or above -0.1 passes
  have low : ∀ r : Game K, -1.4 ≤ r.sy → ∀ i : Target, i ≠ Target.square3 →
      i ≠ Target.square4 → i ≠ Target.square5 → ¬ (i.inBox r ∧ i.flag r ≠ 1) := by
    intro r hr1 i n3 n4 n5 hc
    have hb := hc.1
    cases i <;> simp only [Target.inBox, abs_le] at hb <;>
      first
      | exact absurd rfl n3
      | exact absurd rfl n4
      | exact absurd rfl n5
      | (obtain ⟨-, hb1, hb2⟩ := hb; norm_num at hb1 hb2 hr1; linarith)
  have high : ∀ r : Game K, r.sy ≤ -0.9 →
      ¬ (Target.square5.inBox r ∧ Target.square5.flag r ≠ 1) := by
    intro r hr1 hc
    have hb := hc.1
    simp only [Target.inBox, abs_le] at hb
    obtain ⟨-, hb1, hb2⟩ := hb
    norm_num at hb1 hb2 hr1
    linarith
  have hs1 : -1.4 ≤ s.sy := hy1
  -- the states before the tests of square1, square2 and square3
  have c0 : ({ s with rendered := [] } : Game K).core = s.core := rfl
  have m0 : ¬ (Target.triangle.inBox (Target.triangle.before m clk s)
      ∧ Target.triangle.flag (Target.triangle.before m clk s) ≠ 1) :=
    low _ hs1 Target.triangle (by decide) (by decide) (by decide)
  have c1 : (Target.square1.before m clk s).core = s.core :=
    drawCannon_core_of m _ s
      ((hit_core_of_miss clk Target.triangle _ m0).trans c0) hidle
  have f1 := core_fields _ _ c1
  have m1 : ¬ (Target.square1.inBox (Target.square1.before m clk s)
      ∧ Target.square1.flag (Target.square1.before m clk s) ≠ 1) :=
    low _ (by rw [f1.2.2.2.1]; exact hy1) Target.square1 (by decide) (by decide) (by decide)
  have c2 : (Target.square2.before m clk s).core = s.core :=
    (hit_core_of_miss clk Target.square1 _ m1).trans c1
  have f2 := core_fields _ _ c2
  have m2 : ¬ (Target.square2.inBox (Target.square2.before m clk s)
      ∧ Target.square2.flag (Target.square2.before m clk s) ≠ 1) :=
    low _ (by rw [f2.2.2.2.1]; exact hy1) Target.square2 (by decide) (by decide) (by decide)
  have c3 : (Target.square3.before m clk s).core = s.core :=
    (hit_core_of_miss clk Target.square2 _ m2).trans c2
  have f3 := core_fields _ _ c3
  have x3 : (Target.square3.before m clk s).sx = s.sx := f3.2.2.1
  have y3 : (Target.square3.before m clk s).sy = s.sy := f3.2.2.2.1
  have g3 : (Target.square3.before m clk s).flagsquare3 ≠ 1 := by
    have := before_flag m clk Target.square3 s
    change (Target.square3.before m clk s).flagsquare3 = s.flagsquare3 at this
    rw [this, h3]; decide
  have g4 : (Target.square4.before m clk s).flagsquare4 ≠ 1 := by
    have := before_flag m clk Target.square4 s
    change (Target.square4.before m clk s).flagsquare4 = s.flagsquare4 at this
    rw [this, h4]; decide
  -- the hit on square3
  obtain ⟨x4, y4a, y4b⟩ := hitSquare3_overlap clk (Target.square3.before m clk s) g3
    (by rw [x3]; exact hx) (by rw [y3]; exact hy1) (by rw [y3]; exact hy2)
  have e4 : Target.square4.before m clk s = hitSquare3 clk (Target.square3.before m clk s) :=
    rfl
  rw [← e4] at x4 y4a y4b
  have x4s : |(Target.square4.before m clk s).sx - 6| ≤ 1.1 := by
    rw [x4, x3]; exact hx
  -- the hit on square4
  have y5 := hitSquare4_overlap clk (Target.square4.before m clk s) g4 x4s y4a y4b
  have e5 : Target.square5.before m clk s = hitSquare4 clk (Target.square4.before m clk s) :=
    rfl
  rw [← e5] at y5
  have y5a : -1.4 ≤ (Target.square5.before m clk s).sy := by rw [y5]; exact y4a
  have y5b : (Target.square5.before m clk s).sy ≤ -0.9 := by rw [y5]; exact y4b
  have m5 := high _ y5b
  have y6 : (Target.rectangle1.before m clk s).sy = (Target.square5.before m clk s).sy :=
    (hit_pos_of_miss clk Target.square5 _ m5).2
  have y6a : -1.4 ≤ (Target.rectangle1.before m clk s).sy := by rw [y6]; exact y5a
  have m6 := low _ y6a Target.rectangle1 (by decide) (by decide) (by decide)
  have y7 : (Target.rectangle2.before m clk s).sy = (Target.rectangle1.before m clk s).sy :=
    (hit_pos_of_miss clk Target.rectangle1 _ m6).2
  have y7a : -1.4 ≤ (Target.rectangle2.before m clk s).sy := by rw [y7]; exact y6a
  have m7 := low _ y7a Target.rectangle2 (by decide) (by decide) (by decide)
  have y8 : (Target.rectangle3.before m clk s).sy = (Target.rectangle2.before m clk s).sy :=
    (hit_pos_of_miss clk Target.rectangle2 _ m7).2
  have y8a : -1.4 ≤ (Target.rectangle3.before m clk s).sy := by rw [y8]; exact y7a
  have m8 := low _ y8a Target.rectangle3 (by decide) (by decide) (by decide)
  refine ⟨fun i n3 n4 hc => ?_, ?_, ?_⟩
  · have hc2 : i.inBox (i.before m clk s) ∧ i.flag (i.before m clk s) ≠ 1 := by
      rw [before_flag]; exact hc
    cases i
    · exact m0 hc2
    · exact m1 hc2
    · exact m2 hc2
    · exact n3 rfl
    · exact n4 rfl
    · exact m5 hc2
    · exact m6 hc2
    · exact m7 hc2
    · exact m8 hc2
  · show |(Target.square3.before m clk s).sx - 6| ≤ 2.1
      ∧ |(Target.square3.before m clk s).sy + 2| ≤ 0.8
    rw [x3, y3]
    refine ⟨le_trans hx (by norm_num), abs_le.mpr ⟨?_, ?_⟩⟩
    · norm_num at hy1 ⊢; linarith
    · norm_num at hy2 ⊢; linarith
  · show |(Target.square4.before m clk s).sx - 6| ≤ 1.1
      ∧ |(Target.square4.before m clk s).sy + 0.8| ≤ 0.6
    refine ⟨x4s, abs_le.mpr ⟨?_, ?_⟩⟩
    · norm_num at y4a ⊢; linarith
    · norm_num at y4b ⊢; linarith

/-! ### The example frames -/

/-- When the aim controller is idle and no hit test passes in the state in which
a frame starts, the state in which each hit test runs is that state, up to what
the rendering uses. -/
theorem before_core_of_miss (m : Libm K) (clk : ℕ → K) (s : Game K) (hs : s.aimIdle)
    (hm : ∀ i : Target, ¬ (i.inBox s ∧ i.flag s ≠ 1)) (i : Target) :
    (i.before m clk s).core = s.core := by
  have c0 : (Target.triangle.before m clk s).core = s.core := rfl
  have c1 : (Target.square1.before m clk s).core = s.core :=
    drawCannon_core_of m _ s (hit_core_of clk Target.triangle _ s c0 (hm _)) hs
  have c2 : (Target.square2.before m clk s).core = s.core :=
    hit_core_of clk Target.square1 _ s c1 (hm _)
  have c3 : (Target.square3.before m clk s).core = s.core :=
    hit_core_of clk Target.square2 _ s c2 (hm _)
  have c4 : (Target.square4.before m clk s).core = s.core :=
    hit_core_of clk Target.square3 _ s c3 (hm _)
  have c5 : (Target.square5.before m clk s).core = s.core :=
    hit_core_of clk Target.square4 _ s c4 (hm _)
  have c6 : (Target.rectangle1.before m clk s).core = s.core :=
    hit_core_of clk Target.square5 _ s c5 (hm _)
  have c7 : (Target.rectangle2.before m clk s).core = s.core :=
    hit_core_of clk Target.rectangle1 _ s c6 (hm _)
  have c8 : (Target.rectangle3.before m clk s).core = s.core :=
    hit_core_of clk Target.rectangle2 _ s c7 (hm _)
  cases i
  · exact c0
  · exact c1
  · exact c2
  · exact c3
  · exact c4
  · exact c5
  · exact c6
  · exact c7
  · exact c8

theorem before_miss_of_miss (m : Libm K) (clk : ℕ → K) (s : Game K) (hs : s.aimIdle)
    (hm : ∀ i : Target, ¬ (i.inBox s ∧ i.flag s ≠ 1)) (i : Target) :
    ¬ (i.inBox (i.before m clk s) ∧ i.flag (i.before m clk s) ≠ 1) :=
  miss_congr i _ s (before_core_of_miss m clk s hs hm i) (hm i)

/-- The state in which the barrier test runs depends on the state that the hit
tests leave only up to what the rendering uses. -/
theorem midframe_core_congr (m : Libm K) (clk : ℕ → K) (r s : Game K) (h : r.core = s.core) :
    (integrate (updateTime m clk (drawBarriers r))).core
      = (integrate (updateTime m clk (drawBarriers s))).core := by
  rw [integrate_core, updateTime_core, drawBarriers_core, h, ← drawBarriers_core,
    ← updateTime_core, ← integrate_core]

theorem checkcollisionbarrier_congr (m : Libm K) (r s : Game K) (h : r.core = s.core) :
    checkcollisionbarrier m r = checkcollisionbarrier m s := by
  have e1 : checkcollisionbarrier m r.core = checkcollisionbarrier m r := rfl
  have e2 : checkcollisionbarrier m s.core = checkcollisionbarrier m s := rfl
  rw [← e1, h, e2]

theorem exampleCruise_miss (i : Target) :
    ¬ (i.inBox exampleCruise ∧ i.flag exampleCruise ≠ 1) := by
  intro h
  have hx : exampleCruise.sx = 0 := rfl
  cases i <;> simp only [Target.inBox, hx, abs_le] at h <;> norm_num at h

theorem exampleCruise_aimIdle : exampleCruise.aimIdle :=
  aimIdle_of_zero _ (by simp [exampleCruise, start, configure, initial])

/-- The frame that starts in the cruising example state declares no barrier hit
and does not reach the floor. -/
theorem exampleCruise_quiet :
    (checkcollisionbarrier coarseLibm (integrate (updateTime coarseLibm exampleClock
      (drawBarriers (drawTargets coarseLibm exampleClock exampleCruise))))).getD 0 ≠ 1
    ∧ ¬ (integrate (updateTime coarseLibm exampleClock
      (drawBarriers (drawTargets coarseLibm exampleClock exampleCruise)))).sy ≤ -5.9 := by
  have hc := midframe_core_congr coarseLibm exampleClock _ exampleCruise
    (drawTargets_core_of_miss coarseLibm exampleClock exampleCruise exampleCruise_aimIdle
      exampleCruise_miss)
  rw [checkcollisionbarrier_congr coarseLibm _ _ hc, (core_fields _ _ hc).2.2.2.1]
  constructor
  · norm_num [integrate, updateTime, drawBarriers, checkcollisionbarrier, cannonanglecheck,
      resetbullet, draw3DObject, tick, glfwGetTime, rad, exampleCruise, exampleClock, coarseLibm,
      start, configure, initial, abs_le]
  · norm_num [integrate, updateTime, drawBarriers, cannonanglecheck,
      resetbullet, draw3DObject, tick, glfwGetTime, rad, exampleCruise, exampleClock, coarseLibm,
      start, configure, initial]

/-! ### The air resistance in the first frame -/

theorem withAx_fields (s : Game K) (x : K) :
    (s.withAx x).ux = s.ux ∧ (s.withAx x).t = s.t ∧ (s.withAx x).ax = x :=
  ⟨rfl, rfl, rfl⟩

theorem clear_withAx (s : Game K) (x : K) :
    ({ s.withAx x with rendered := [] } : Game K)
      = ({ s with rendered := [] } : Game K).withAx x := rfl

theorem withAx_proj (s : Game K) (x : K) :
    (s.withAx x).sx = s.sx ∧ (s.withAx x).sy = s.sy ∧ (s.withAx x).vx = s.vx
    ∧ (s.withAx x).vy = s.vy ∧ (s.withAx x).flagscore = s.flagscore
    ∧ (s.withAx x).flagtriangle = s.flagtriangle ∧ (s.withAx x).flagsquare1 = s.flagsquare1
    ∧ (s.withAx x).flagsquare2 = s.flagsquare2 ∧ (s.withAx x).flagsquare3 = s.flagsquare3
    ∧ (s.withAx x).flagsquare4 = s.flagsquare4 ∧ (s.withAx x).flagsquare5 = s.flagsquare5
    ∧ (s.withAx x).flagrectangle1 = s.flagrectangle1
    ∧ (s.withAx x).flagrectangle2 = s.flagrectangle2
    ∧ (s.withAx x).flagrectangle3 = s.flagrectangle3 :=
  ⟨rfl, rfl, rfl, rfl, rfl, rfl, rfl, rfl, rfl, rfl, rfl, rfl, rfl, rfl⟩

theorem resetprojectile_withAx (clk : ℕ → K) (s : Game K) (x : K)
    (h0 : s.ux = 0) (ht : s.t = 0) :
    resetprojectile clk (s.withAx x) = (resetprojectile clk s).withAx x := by
  simp only [resetprojectile, Game.withAx, tick, glfwGetTime, h0, ht, mul_zero, add_zero]

theorem deflect_withAx (xedge yedge : K) (s : Game K) (x : K) :
    deflect xedge yedge (s.withAx x) = (deflect xedge yedge s).withAx x := by
  simp only [deflect, Game.withAx]
  split_ifs <;> rfl

theorem hitTriangle_withAx (clk : ℕ → K) (s : Game K) (x : K) (h0 : s.ux = 0) (ht : s.t = 0) :
    hitTriangle clk (s.withAx x) = (hitTriangle clk s).withAx x := by
  have e : ({ s.withAx x with flagscore := (s.withAx x).flagscore + 25, flagtriangle := 1 } : Game K)
      = ({ s with flagscore := s.flagscore + 25, flagtriangle := 1 } : Game K).withAx x := rfl
  have r := resetprojectile_withAx clk
    ({ s with flagscore := s.flagscore + 25, flagtriangle := 1 } : Game K) x h0 ht
  have d := deflect_withAx 5.3 (-4.1) (resetprojectile clk
    ({ s with flagscore := s.flagscore + 25, flagtriangle := 1 } : Game K)) x
  unfold hitTriangle
  rw [e, r, d]
  simp only [withAx_proj]
  by_cases hc : |s.sx - 6| ≤ 0.7 ∧ |s.sy + 5| ≤ 0.9 ∧ s.flagtriangle ≠ 1
  · simp only [if_pos hc, withAx_proj]
    split_ifs <;> rfl
  · simp only [if_neg hc, withAx_proj]
    split_ifs <;> rfl

theorem hitSquare1_withAx (clk : ℕ → K) (s : Game K) (x : K) (h0 : s.ux = 0) (ht : s.t = 0) :
    hitSquare1 clk (s.withAx x) = (hitSquare1 clk s).withAx x := by
  have e : ({ s.withAx x with flagscore := (s.withAx x).flagscore + 10, flagsquare1 := 1 } : Game K)
      = ({ s with flagscore := s.flagscore + 10, flagsquare1 := 1 } : Game K).withAx x := rfl
  have r := resetprojectile_withAx clk
    ({ s with flagscore := s.flagscore + 10, flagsquare1 := 1 } : Game K) x h0 ht
  have d := deflect_withAx 3 (-4.1) (resetprojectile clk
    ({ s with flagscore := s.flagscore + 10, flagsquare1 := 1 } : Game K)) x
  unfold hitSquare1
  rw [e, r, d]
  simp only [withAx_proj]
  by_cases hc : |s.sx - 4| ≤ 1.1 ∧ |s.sy + 5| ≤ 1.1 ∧ s.flagsquare1 ≠ 1
  · simp only [if_pos hc, withAx_proj]
    split_ifs <;> rfl
  · simp only [if_neg hc, withAx_proj]
    split_ifs <;> rfl

theorem hitSquare2_withAx (clk : ℕ → K) (s : Game K) (x : K) (h0 : s.ux = 0) (ht : s.t = 0) :
    hitSquare2 clk (s.withAx x) = (hitSquare2 clk s).withAx x := by
  have e : ({ s.withAx x with flagscore := (s.withAx x).flagscore + 10, flagsquare2 := 1 } : Game K)
      = ({ s with flagscore := s.flagscore + 10, flagsquare2 := 1 } : Game K).withAx x := rfl
  have r := resetprojectile_withAx clk
    ({ s with flagscore := s.flagscore + 10, flagsquare2 := 1 } : Game K) x h0 ht
  have d := deflect_withAx 7 (-4) (resetprojectile clk
    ({ s with flagscore := s.flagscore + 10, flagsquare2 := 1 } : Game K)) x
  unfold hitSquare2
  rw [e, r, d]
  simp only [withAx_proj]
  by_cases hc : |s.sx - 8| ≤ 1.1 ∧ |s.sy + 5| ≤ 1.1 ∧ s.flagsquare2 ≠ 1
  · simp only [if_pos hc, withAx_proj]
    split_ifs <;> rfl
  · simp only [if_neg hc, withAx_proj]
    split_ifs <;> rfl

theorem hitSquare3_withAx (clk : ℕ → K) (s : Game K) (x : K) (h0 : s.ux = 0) (ht : s.t = 0) :
    hitSquare3 clk (s.withAx x) = (hitSquare3 clk s).withAx x := by
  have e : ({ s.withAx x with flagscore := (s.withAx x).flagscore + 5, flagsquare3 := 1 } : Game K)
      = ({ s with flagscore := s.flagscore + 5, flagsquare3 := 1 } : Game K).withAx x := rfl
  have r := resetprojectile_withAx clk
    ({ s with flagscore := s.flagscore + 5, flagsquare3 := 1 } : Game K) x h0 ht
  have d := deflect_withAx 4.1 (-1.4) (resetprojectile clk
    ({ s with flagscore := s.flagscore + 5, flagsquare3 := 1 } : Game K)) x
  unfold hitSquare3
  rw [e, r, d]
  simp only [withAx_proj]
  by_cases hc : |s.sx - 6| ≤ 2.1 ∧ |s.sy + 2| ≤ 0.8 ∧ s.flagsquare3 ≠ 1
  · simp only [if_pos hc, withAx_proj]
    split_ifs <;> rfl
  · simp only [if_neg hc, withAx_proj]
    split_ifs <;> rfl

theorem hitSquare4_withAx (clk : ℕ → K) (s : Game K) (x : K) (h0 : s.ux = 0) (ht : s.t = 0) :
    hitSquare4 clk (s.withAx x) = (hitSquare4 clk s).withAx x := by
  have e : ({ s.withAx x with flagscore := (s.withAx x).flagscore + 5, flagsquare4 := 1 } : Game K)
      = ({ s with flagscore := s.flagscore + 5, flagsquare4 := 1 } : Game K).withAx x := rfl
  have r := resetprojectile_withAx clk
    ({ s with flagscore := s.flagscore + 5, flagsquare4 := 1 } : Game K) x h0 ht
  have d := deflect_withAx 5.01 (-0.35) (resetprojectile clk
    ({ s with flagscore := s.flagscore + 5, flagsquare4 := 1 } : Game K)) x
  unfold hitSquare4
  rw [e, r, d]
  simp only [withAx_proj]
  by_cases hc : |s.sx - 6| ≤ 1.1 ∧ |s.sy + 0.8| ≤ 0.6 ∧ s.flagsquare4 ≠ 1
  · simp only [if_pos hc, withAx_proj]
    split_ifs <;> rfl
  · simp only [if_neg hc, withAx_proj]
    split_ifs <;> rfl

theorem resetprojectile_proj (clk : ℕ → K) (s : Game K) :
    (resetprojectile clk s).sx = s.sx ∧ (resetprojectile clk s).sy = s.sy
    ∧ (resetprojectile clk s).flagsquare5 = s.flagsquare5 := ⟨rfl, rfl, rfl⟩

theorem hitSquare5_withAx (clk : ℕ → K) (s : Game K) (x : K) (h0 : s.ux = 0) (ht : s.t = 0) :
    hitSquare5 clk (s.withAx x) = (hitSquare5 clk s).withAx x := by
  have e : ({ s.withAx x with flagscore := (s.withAx x).flagscore + 20, flagsquare5 := 1 } : Game K)
      = ({ s with flagscore := s.flagscore + 20, flagsquare5 := 1 } : Game K).withAx x := rfl
  have r := resetprojectile_withAx clk
    ({ s with flagscore := s.flagscore + 20, flagsquare5 := 1 } : Game K) x h0 ht
  unfold hitSquare5
  rw [e, r]
  simp only [withAx_proj, resetprojectile_proj]
  by_cases hc : |s.sx - 6| ≤ 0.35 ∧ |s.sy - 0.25| ≤ 0.35 ∧ s.flagsquare5 ≠ 1
  · simp only [if_pos hc]
    by_cases h1 : s.sx < 5.75
    · simp only [if_pos h1, withAx_proj]
      split_ifs <;> rfl
    · simp only [if_neg h1]
      by_cases h2 : s.sy > 0.50
      · simp only [if_pos h2, withAx_proj]
        split_ifs <;> rfl
      · simp only [if_neg h2, withAx_proj]
        split_ifs <;> rfl
  · simp only [if_neg hc, withAx_proj]
    split_ifs <;> rfl

theorem hitRectangle1_withAx (clk : ℕ → K) (s : Game K) (x : K) (h0 : s.ux = 0) (ht : s.t = 0) :
    hitRectangle1 clk (s.withAx x) = (hitRectangle1 clk s).withAx x := by
  have e : ({ s.withAx x with flagscore := (s.withAx x).flagscore + 3, flagrectangle1 := 1 } : Game K)
      = ({ s with flagscore := s.flagscore + 3, flagrectangle1 := 1 } : Game K).withAx x := rfl
  have r := resetprojectile_withAx clk
    ({ s with flagscore := s.flagscore + 3, flagrectangle1 := 1 } : Game K) x h0 ht
  have d := deflect_withAx 2 (-3.1) (resetprojectile clk
    ({ s with flagscore := s.flagscore + 3, flagrectangle1 := 1 } : Game K)) x
  unfold hitRectangle1
  rw [e, r, d]
  simp only [withAx_proj]
  by_cases hc : |s.sx - 2.5| ≤ 0.6 ∧ |s.sy + 4.5| ≤ 1.6 ∧ s.flagrectangle1 ≠ 1
  · simp only [if_pos hc, withAx_proj]
    split_ifs <;> rfl
  · simp only [if_neg hc, withAx_proj]
    split_ifs <;> rfl

theorem hitRectangle2_withAx (clk : ℕ → K) (s : Game K) (x : K) (h0 : s.ux = 0) (ht : s.t = 0) :
    hitRectangle2 clk (s.withAx x) = (hitRectangle2 clk s).withAx x := by
  have e : ({ s.withAx x with flagscore := (s.withAx x).flagscore + 7, flagrectangle2 := 1 } : Game K)
      = ({ s with flagscore := s.flagscore + 7, flagrectangle2 := 1 } : Game K).withAx x := rfl
  have r := resetprojectile_withAx clk
    ({ s with flagscore := s.flagscore + 7, flagrectangle2 := 1 } : Game K) x h0 ht
  have d := deflect_withAx 9.01 (-3.01) (resetprojectile clk
    ({ s with flagscore := s.flagscore + 7, flagrectangle2 := 1 } : Game K)) x
  unfold hitRectangle2
  rw [e, r, d]
  simp only [withAx_proj]
  by_cases hc : |s.sx - 9.5| ≤ 0.6 ∧ |s.sy + 4.5| ≤ 1.6 ∧ s.flagrectangle2 ≠ 1
  · simp only [if_pos hc, withAx_proj]
    split_ifs <;> rfl
  · simp only [if_neg hc, withAx_proj]
    split_ifs <;> rfl

theorem hitRectangle3_withAx (clk : ℕ → K) (s : Game K) (x : K) (h0 : s.ux = 0) (ht : s.t = 0) :
    hitRectangle3 clk (s.withAx x) = (hitRectangle3 clk s).withAx x := by
  have e : ({ s.withAx x with flagscore := (s.withAx x).flagscore + 7, flagrectangle3 := 1 } : Game K)
      = ({ s with flagscore := s.flagscore + 7, flagrectangle3 := 1 } : Game K).withAx x := rfl
  have r := resetprojectile_withAx clk
    ({ s with flagscore := s.flagscore + 7, flagrectangle3 := 1 } : Game K) x h0 ht
  have d := deflect_withAx 3.52 (-3.01) (resetprojectile clk
    ({ s with flagscore := s.flagscore + 7, flagrectangle3 := 1 } : Game K)) x
  unfold hitRectangle3
  rw [e, r, d]
  simp only [withAx_proj]
  by_cases hc : |s.sx - 6| ≤ 2.6 ∧ |s.sy + 3.5| ≤ 0.6 ∧ s.flagrectangle3 ≠ 1
  · simp only [if_pos hc, withAx_proj]
    split_ifs <;> rfl
  · simp only [if_neg hc, withAx_proj]
    split_ifs <;> rfl

theorem hit_withAx (clk : ℕ → K) (i : Target) (s : Game K) (x : K)
    (h0 : s.ux = 0) (ht : s.t = 0) :
    i.hit clk (s.withAx x) = (i.hit clk s).withAx x := by
  cases i
  · exact hitTriangle_withAx clk s x h0 ht
  · exact hitSquare1_withAx clk s x h0 ht
  · exact hitSquare2_withAx clk s x h0 ht
  · exact hitSquare3_withAx clk s x h0 ht
  · exact hitSquare4_withAx clk s x h0 ht
  · exact hitSquare5_withAx clk s x h0 ht
  · exact hitRectangle1_withAx clk s x h0 ht
  · exact hitRectangle2_withAx clk s x h0 ht
  · exact hitRectangle3_withAx clk s x h0 ht

theorem cannonanglecheck_withAx (m : Libm K) (s : Game K) (x : K) :
    cannonanglecheck m (s.withAx x) = (cannonanglecheck m s).withAx x := by
  simp only [cannonanglecheck, Game.withAx]
  split_ifs <;> rfl

theorem drawCannon_withAx (m : Libm K) (s : Game K) (x : K) :
    drawCannon m (s.withAx x) = (drawCannon m s).withAx x := by
  simp only [drawCannon, draw3DObject, cannonanglecheck, Game.withAx]
  split_ifs <;> rfl

theorem spinSquare5_withAx (s : Game K) (x : K) :
    spinSquare5 (s.withAx x) = (spinSquare5 s).withAx x := rfl

theorem drawBarriers_withAx (s : Game K) (x : K) :
    drawBarriers (s.withAx x) = (drawBarriers s).withAx x := rfl

theorem hit_still (clk : ℕ → K) (i : Target) (s : Game K) (h : s.ux = 0 ∧ s.t = 0) :
    (i.hit clk s).ux = 0 ∧ (i.hit clk s).t = 0 := by
  refine ⟨hit_ux_zero clk i s h.1, ?_⟩
  have e : (i.hit clk s).t = s.t := congrArg (fun p => p.2.2) (hit_env clk i s)
  rw [e]; exact h.2

theorem drawCannon_still (m : Libm K) (s : Game K) (h : s.ux = 0 ∧ s.t = 0) :
    (drawCannon m s).ux = 0 ∧ (drawCannon m s).t = 0 := by
  have e : (drawCannon m s).t = s.t := congrArg (fun p => p.2.2) (drawCannon_env m s)
  have e2 : (drawCannon m s).ux = s.ux := by
    unfold drawCannon
    rw [cannonanglecheck_ux]
    rfl
  rw [e, e2]; exact h

/-- With `ux = 0` and `t = 0` the first part of `draw` does not read `ax`. -/
theorem drawTargets_withAx (m : Libm K) (clk : ℕ → K) (s : Game K) (x : K)
    (h0 : s.ux = 0) (ht : s.t = 0) :
    drawTargets m clk (s.withAx x) = (drawTargets m clk s).withAx x := by
  have p0 : ({ s with rendered := [] } : Game K).ux = 0
      ∧ ({ s with rendered := [] } : Game K).t = 0 := ⟨h0, ht⟩
  have p1 := hit_still clk Target.triangle _ p0
  have p2 := drawCannon_still m _ p1
  have p3 := hit_still clk Target.square1 _ p2
  have p4 := hit_still clk Target.square2 _ p3
  have p5 := hit_still clk Target.square3 _ p4
  have p6 := hit_still clk Target.square4 _ p5
  have p7 := hit_still clk Target.square5 _ p6
  have p8 : (spinSquare5 (Target.square5.hit clk (Target.square4.hit clk
      (Target.square3.hit clk (Target.square2.hit clk (Target.square1.hit clk
        (drawCannon m (Target.triangle.hit clk { s with rendered := [] })))))))).ux = 0
      ∧ (spinSquare5 (Target.square5.hit clk (Target.square4.hit clk
      (Target.square3.hit clk (Target.square2.hit clk (Target.square1.hit clk
        (drawCannon m (Target.triangle.hit clk { s with rendered := [] })))))))).t = 0 := p7
  have p9 := hit_still clk Target.rectangle1 _ p8
  have p10 := hit_still clk Target.rectangle2 _ p9
  simp only [drawTargets, drawTriangle, hit_names]
  rw [clear_withAx, hit_withAx clk _ _ x p0.1 p0.2, drawCannon_withAx,
    hit_withAx clk _ _ x p2.1 p2.2, hit_withAx clk _ _ x p3.1 p3.2,
    hit_withAx clk _ _ x p4.1 p4.2, hit_withAx clk _ _ x p5.1 p5.2,
    hit_withAx clk _ _ x p6.1 p6.2, spinSquare5_withAx,
    hit_withAx clk _ _ x p8.1 p8.2, hit_withAx clk _ _ x p9.1 p9.2,
    hit_withAx clk _ _ x p10.1 p10.2]

/-- With `ux = 0` and `t = 0` the velocity update finds `vx = 0` and sets `ax`
to 0, whatever `ax` was. -/
theorem updateTime_withAx (m : Libm K) (clk : ℕ → K) (s : Game K) (x : K)
    (h0 : s.ux = 0) (ht : s.t = 0) :
    updateTime m clk (s.withAx x) = updateTime m clk (s.withAx 0) := by
  have hlt : (0 : K) < 0.01 := by norm_num
  simp only [updateTime, resetbullet, cannonanglecheck, Game.withAx, tick, glfwGetTime, h0, ht,
    mul_zero, add_zero]
  split_ifs <;> rfl

theorem drawMotion_withAx (m : Libm K) (clk : ℕ → K) (junk : Int) (s : Game K) (x : K)
    (h0 : s.ux = 0) (ht : s.t = 0) :
    drawMotion m clk junk (s.withAx x) = drawMotion m clk junk (s.withAx 0) := by
  unfold drawMotion
  rw [drawBarriers_withAx, drawBarriers_withAx,
    updateTime_withAx m clk (drawBarriers s) x h0 ht]

/-- A frame that starts with `ux = 0` and `t = 0` does not depend on `ax`. -/
theorem draw_withAx (m : Libm K) (clk : ℕ → K) (junk : Int) (s : Game K) (x : K)
    (h0 : s.ux = 0) (ht : s.t = 0) :
    draw m clk junk (s.withAx x) = draw m clk junk (s.withAx 0) := by
  have q0 : (drawTargets m clk s).ux = 0 := drawTargets_ux_zero m clk s h0
  have q1 : (drawTargets m clk s).t = 0 := by
    have e : (drawTargets m clk s).t = s.t := congrArg (fun p => p.2.2) (drawTargets_env m clk s)
    rw [e]; exact ht
  unfold draw
  rw [drawTargets_withAx m clk s x h0 ht, drawTargets_withAx m clk s 0 h0 ht,
    drawMotion_withAx m clk junk _ x q0 q1]

theorem drawBarriers_still (s : Game K) :
    (drawBarriers s).ux = s.ux ∧ (drawBarriers s).t = s.t := ⟨rfl, rfl⟩

theorem start_still (clk : ℕ → K) (gravityvariable airvar : K) :
    (start clk gravityvariable airvar).ux = 0 ∧ (start clk gravityvariable airvar).t = 0 := by
  simp only [start, configure]
  split_ifs <;> exact ⟨rfl, rfl⟩

theorem start_withAx (clk : ℕ → K) (gravityvariable airvar other : K) :
    start clk gravityvariable airvar
      = (start clk gravityvariable other).withAx (start clk gravityvariable airvar).ax := by
  simp only [start, configure, Game.withAx]
  split_ifs <;> rfl

/-- The first frame from the start of the loop does not depend on the
air-resistance selector. -/
theorem first_frame_forgets_airvar (m : Libm K) (clk : ℕ → K) (junk : Int)
    (gravityvariable airvar other : K) :
    draw m clk junk (start clk gravityvariable airvar)
      = draw m clk junk (start clk gravityvariable other) := by
  obtain ⟨h0, ht⟩ := start_still clk gravityvariable other
  have e1 := draw_withAx m clk junk (start clk gravityvariable other)
    (start clk gravityvariable airvar).ax h0 ht
  have e2 := draw_withAx m clk junk (start clk gravityvariable other)
    (start clk gravityvariable other).ax h0 ht
  rw [← start_withAx clk gravityvariable airvar other] at e1
  rw [← start_withAx clk gravityvariable other other] at e2
  exact e1.trans e2.symm

theorem first_frame_vx (m : Libm K) (clk : ℕ → K) (gravityvariable airvar : K) :
    (updateTime m clk (drawBarriers (drawTargets m clk
      (start clk gravityvariable airvar)))).ax = 0 := by
  obtain ⟨h0, ht⟩ := start_still clk gravityvariable airvar
  have q1 : (drawTargets m clk (start clk gravityvariable airvar)).t
      = (start clk gravityvariable airvar).t :=
    congrArg (fun p => p.2.2) (drawTargets_env m clk _)
  rw [(updateTime_accel m clk _).2, (drawBarriers_still _).1, (drawBarriers_still _).2,
    drawTargets_ux_zero m clk _ h0, q1, ht]
  norm_num

theorem first_frame_ax (m : Libm K) (clk : ℕ → K) (junk : Int)
    (gravityvariable airvar : K) :
    (draw m clk junk (start clk gravityvariable airvar)).ax = 0 := by
  obtain ⟨h0, ht⟩ := start_still clk gravityvariable airvar
  rw [(draw_accel m clk junk _).2, drawTargets_ux_zero m clk _ h0, ht]
  norm_num

theorem run_ax_zero (m : Libm K) (clk : ℕ → K) (es : List (Event K)) (s : Game K)
    (h : s.ax = 0) : (run m clk es s).ax = 0 := by
  rcases (run_accel m clk es s).2 with e | e
  · rw [e]; exact h
  · exact e

theorem run_frame_cons (m : Libm K) (clk : ℕ → K) (junk : Int) (es : List (Event K))
    (s : Game K) : run m clk (Event.frame junk :: es) s = run m clk es (draw m clk junk s) :=
  rfl

/-! ### The projectile at rest -/

theorem flight_fields (r s : Game K) (h : r.flight = s.flight) :
    r.bulletflag = s.bulletflag ∧ r.resetbulletflag = s.resetbulletflag :=
  ⟨congrArg (fun p => p.1) h, congrArg (fun p => p.2) h⟩

theorem deflect_flight (xedge yedge : K) (s : Game K) :
    (deflect xedge yedge s).flight = s.flight := by
  unfold deflect; split_ifs <;> rfl

theorem hit_flight (clk : ℕ → K) (i : Target) (s : Game K) : (i.hit clk s).flight = s.flight := by
  cases i <;>
    simp only [Target.hit, hitTriangle, hitSquare1, hitSquare2, hitSquare3, hitSquare4,
      hitSquare5, hitRectangle1, hitRectangle2, hitRectangle3] <;>
    split_ifs <;>
    first
    | rfl
    | exact deflect_flight _ _ _

theorem cannonanglecheck_flight (m : Libm K) (s : Game K) :
    (cannonanglecheck m s).flight = s.flight := by
  unfold cannonanglecheck; split_ifs <;> rfl

theorem drawCannon_flight (m : Libm K) (s : Game K) : (drawCannon m s).flight = s.flight := by
  unfold drawCannon
  rw [cannonanglecheck_flight]
  rfl

theorem spinSquare5_flight (s : Game K) : (spinSquare5 s).flight = s.flight := rfl

theorem drawTargets_flight (m : Libm K) (clk : ℕ → K) (s : Game K) :
    (drawTargets m clk s).flight = s.flight := by
  simp only [drawTargets, drawTriangle, hit_names, hit_flight, drawCannon_flight,
    spinSquare5_flight]
  rfl

theorem updateTime_flight (m : Libm K) (clk : ℕ → K) (s : Game K)
    (h : s.resetbulletflag ≠ 1) : (updateTime m clk s).flight = s.flight := by
  simp only [updateTime, resetbullet, cannonanglecheck]
  rw [if_neg h]
  split_ifs <;> rfl

theorem integrate_flight (s : Game K) : (integrate s).flight = s.flight := by
  unfold integrate; split_ifs <;> rfl

theorem barrierResponse_flight (m : Libm K) (clk : ℕ → K) (junk : Int) (s : Game K) :
    (barrierResponse m clk junk s).flight = s.flight := by
  simp only [barrierResponse]; split_ifs <;> rfl

theorem floorRule_flight (clk : ℕ → K) (s : Game K) : (floorRule clk s).flight = s.flight := by
  unfold floorRule; split_ifs <;> rfl

theorem drawBullet_flight (s : Game K) : (drawBullet s).flight = s.flight := rfl

theorem drawBarriers_flight (s : Game K) : (drawBarriers s).flight = s.flight := rfl

theorem drawMotion_flight (m : Libm K) (clk : ℕ → K) (junk : Int) (s : Game K)
    (h : s.resetbulletflag ≠ 1) : (drawMotion m clk junk s).flight = s.flight := by
  have hb : (drawBarriers s).resetbulletflag ≠ 1 := h
  unfold drawMotion
  rw [drawBullet_flight, floorRule_flight, barrierResponse_flight, integrate_flight,
    updateTime_flight m clk _ hb, drawBarriers_flight]

/-- A frame that starts with `resetbulletflag` not 1 leaves `bulletflag` and
`resetbulletflag` as they were. -/
theorem draw_flight (m : Libm K) (clk : ℕ → K) (junk : Int) (s : Game K)
    (h : s.resetbulletflag ≠ 1) : (draw m clk junk s).flight = s.flight := by
  have h2 : (drawTargets m clk s).resetbulletflag ≠ 1 := by
    rw [(flight_fields _ _ (drawTargets_flight m clk s)).2]; exact h
  unfold draw
  rw [drawMotion_flight m clk junk _ h2, drawTargets_flight]

/-- A projectile with `sx ≤ -7` is inside the box of no target. -/
theorem far_miss (s : Game K) (h : s.sx ≤ -7) (i : Target) :
    ¬ (i.inBox s ∧ i.flag s ≠ 1) := by
  intro hc
  have hb := hc.1
  cases i <;> simp only [Target.inBox, abs_le] at hb <;>
    (obtain ⟨⟨hb1, -⟩, -⟩ := hb; norm_num at hb1; linarith)

theorem cannonanglecheck_core (m : Libm K) (s : Game K) :
    (cannonanglecheck m s).core = (cannonanglecheck m s.core).core := by
  simp only [cannonanglecheck, Game.core]
  split_ifs <;> rfl

theorem drawCannon_core_congr (m : Libm K) (r s : Game K) (h : r.core = s.core) :
    (drawCannon m r).core = (cannonanglecheck m s).core := by
  have e : (draw3DObject Shape.cannon (draw3DObject Shape.rectangle
      { r with slab := r.slab + 0.1 })).core = r.core := rfl
  unfold drawCannon
  rw [cannonanglecheck_core, e, h, ← cannonanglecheck_core]

/-- With the projectile at `sx ≤ -7` before and after the aim controller, the
first part of `draw` acts as the aim controller alone, up to what the rendering
uses. -/
theorem drawTargets_core_of_far (m : Libm K) (clk : ℕ → K) (s : Game K) (hx : s.sx ≤ -7)
    (hcx : (cannonanglecheck m s).sx ≤ -7) :
    (drawTargets m clk s).core = (cannonanglecheck m s).core := by
  have hm := far_miss (cannonanglecheck m s) hcx
  simp only [drawTargets, drawTriangle, hit_names]
  have h0 : ({ s with rendered := [] } : Game K).core = s.core := rfl
  have h1 := drawCannon_core_congr m _ s
    (hit_core_of clk Target.triangle _ s h0 (far_miss s hx _))
  have h2 := hit_core_of clk Target.square5 _ _ (hit_core_of clk Target.square4 _ _
    (hit_core_of clk Target.square3 _ _ (hit_core_of clk Target.square2 _ _
      (hit_core_of clk Target.square1 _ _ h1 (hm _)) (hm _)) (hm _)) (hm _)) (hm _)
  have h3 : (spinSquare5 _).core = (cannonanglecheck m s).core := h2
  exact hit_core_of clk Target.rectangle3 _ _ (hit_core_of clk Target.rectangle2 _ _
    (hit_core_of clk Target.rectangle1 _ _ h3 (hm _)) (hm _)) (hm _)

theorem updateTime_rest (m : Libm K) (clk : ℕ → K) (s : Game K) (h : s.resetbulletflag ≠ 1) :
    (updateTime m clk s).sx = s.sx ∧ (updateTime m clk s).sy = s.sy
    ∧ (updateTime m clk s).cannon_rotation = s.cannon_rotation
    ∧ (updateTime m clk s).bulletflag = s.bulletflag := by
  simp only [updateTime, resetbullet, cannonanglecheck]
  rw [if_neg h]
  split_ifs <;> exact ⟨rfl, rfl, rfl, rfl⟩

theorem integrate_rest (s : Game K) (h : s.bulletflag ≠ 1) : integrate s = s := by
  unfold integrate; rw [if_neg h]

theorem drawBarriers_rest (s : Game K) :
    (drawBarriers s).sx = s.sx ∧ (drawBarriers s).sy = s.sy
    ∧ (drawBarriers s).cannon_rotation = s.cannon_rotation
    ∧ (drawBarriers s).bulletflag = s.bulletflag
    ∧ (drawBarriers s).resetbulletflag = s.resetbulletflag := ⟨rfl, rfl, rfl, rfl, rfl⟩

/-- With the projectile not in flight, the state in which the barrier test runs
has the position and the cannon angle with which the second part of `draw`
starts. -/
theorem midframe_rest (m : Libm K) (clk : ℕ → K) (s : Game K) (hb : s.bulletflag ≠ 1)
    (hr : s.resetbulletflag ≠ 1) :
    (integrate (updateTime m clk (drawBarriers s))).sx = s.sx
    ∧ (integrate (updateTime m clk (drawBarriers s))).sy = s.sy
    ∧ (integrate (updateTime m clk (drawBarriers s))).cannon_rotation = s.cannon_rotation := by
  have hr2 : (drawBarriers s).resetbulletflag ≠ 1 := hr
  obtain ⟨u1, u2, u3, u4⟩ := updateTime_rest m clk (drawBarriers s) hr2
  have hb2 : (updateTime m clk (drawBarriers s)).bulletflag ≠ 1 := by
    rw [u4]; exact hb
  rw [integrate_rest _ hb2, u1, u2, u3]
  exact ⟨rfl, rfl, rfl⟩

theorem drawBullet_rest (s : Game K) :
    (drawBullet s).sx = s.sx ∧ (drawBullet s).sy = s.sy
    ∧ (drawBullet s).cannon_rotation = s.cannon_rotation := ⟨rfl, rfl, rfl⟩

/-- With the projectile not in flight, a second part of `draw` in which no
barrier hit is declared and the floor rule does not fire leaves the position and
the cannon angle as they were. -/
theorem drawMotion_rest_miss (m : Libm K) (clk : ℕ → K) (junk : Int) (s : Game K)
    (hb : s.bulletflag ≠ 1) (hr : s.resetbulletflag ≠ 1)
    (hc : ¬ (checkcollisionbarrier m
      (integrate (updateTime m clk (drawBarriers s)))).getD junk = 1)
    (hf : ¬ s.sy ≤ -5.9) :
    (drawMotion m clk junk s).sx = s.sx ∧ (drawMotion m clk junk s).sy = s.sy
    ∧ (drawMotion m clk junk s).cannon_rotation = s.cannon_rotation := by
  obtain ⟨x1, x2, x3⟩ := midframe_rest m clk s hb hr
  have hf2 : ¬ (integrate (updateTime m clk (drawBarriers s))).sy ≤ -5.9 := by
    rw [x2]; exact hf
  unfold drawMotion
  rw [barrierResponse_miss m clk junk _ hc, floorRule_miss clk _ hf2,
    (drawBullet_rest _).1, (drawBullet_rest _).2.1, (drawBullet_rest _).2.2, x1, x2, x3]
  exact ⟨rfl, rfl, rfl⟩

/-- With the projectile not in flight, a second part of `draw` in which `mmm` is
1 moves the projectile back by 0.3. -/
theorem drawMotion_rest_hit (m : Libm K) (clk : ℕ → K) (junk : Int) (s : Game K)
    (hb : s.bulletflag ≠ 1) (hr : s.resetbulletflag ≠ 1)
    (hc : (checkcollisionbarrier m
      (integrate (updateTime m clk (drawBarriers s)))).getD junk = 1)
    (hf : ¬ s.sy ≤ -5.9) :
    (drawMotion m clk junk s).sx = s.sx - 0.3
    ∧ (drawMotion m clk junk s).cannon_rotation = s.cannon_rotation := by
  obtain ⟨x1, x2, x3⟩ := midframe_rest m clk s hb hr
  obtain ⟨-, b2, -, b4⟩ := barrierResponse_hit m clk junk _ hc
  have hf2 : ¬ (barrierResponse m clk junk
      (integrate (updateTime m clk (drawBarriers s)))).sy ≤ -5.9 := by
    rw [b4, x2]; exact hf
  unfold drawMotion
  rw [floorRule_miss clk _ hf2, (drawBullet_rest _).1, (drawBullet_rest _).2.2, b2,
    barrierResponse_cannon_rotation, x1, x3]
  exact ⟨rfl, rfl⟩

theorem cannonanglecheck_atMuzzle (m : Libm K) (s : Game K) (h : s.atMuzzle m) :
    (cannonanglecheck m s).atMuzzle m := by
  unfold cannonanglecheck
  split_ifs
  · exact ⟨rfl, rfl⟩
  · exact ⟨rfl, rfl⟩
  · exact h

theorem atMuzzle_of_eq (m : Libm K) (r s : Game K) (h1 : r.sx = s.sx) (h2 : r.sy = s.sy)
    (h3 : r.cannon_rotation = s.cannon_rotation) (h : s.atMuzzle m) : r.atMuzzle m := by
  unfold Game.atMuzzle at h ⊢
  rw [h1, h2, h3]; exact h

theorem keyboard_restOk (m : Libm K) (clk : ℕ → K) (key : Key) (action : Action) (s : Game K)
    (h : s.restOk m) : (keyboard m clk key action s).restOk m := by
  cases action <;> cases key <;> simp only [keyboard] <;> (try split_ifs) <;>
    first
    | exact h
    | exact ⟨h.1, fun _ => ⟨rfl, rfl⟩⟩
    | exact ⟨h.1, fun hb => absurd (show (1 : Int) = 0 from hb) (by decide)⟩

theorem mouseButton_restOk (m : Libm K) (clk : ℕ → K) (button : Button) (action : Action)
    (s : Game K) (h : s.restOk m) : (mouseButton m clk button action s).restOk m := by
  cases action <;> cases button <;> simp only [mouseButton] <;> (try split_ifs) <;>
    first
    | exact h
    | exact ⟨h.1, fun _ => ⟨rfl, rfl⟩⟩
    | exact ⟨h.1, fun hb => absurd (show (1 : Int) = 0 from hb) (by decide)⟩

theorem scroll_callback_restOk (m : Libm K) (yoffset : K) (s : Game K) (h : s.restOk m) :
    (scroll_callback yoffset s).restOk m := by
  unfold scroll_callback
  split_ifs <;> exact h

theorem keyboardChar_restOk (m : Libm K) (key : Char) (s r : Game K)
    (hk : keyboardChar m key s = some r) (h : s.restOk m) : r.restOk m := by
  unfold keyboardChar at hk
  split_ifs at hk <;> cases hk <;>
    first
    | exact h
    | exact ⟨h.1, fun _ => ⟨rfl, rfl⟩⟩

/-- A frame in which the indeterminate value of `mmm` is not 1 keeps a
projectile at rest at the muzzle, when the muzzle is at `sx ≤ -7` and above the
floor threshold and no such point is a barrier hit. -/
theorem draw_restOk (m : Libm K) (clk : ℕ → K) (junk : Int) (s : Game K)
    (far : ∀ r : Game K, r.sx ≤ -7 → checkcollisionbarrier m r = none)
    (bounds : ∀ r : Game K, r.angleOk → r.atMuzzle m → r.sx ≤ -7 ∧ ¬ r.sy ≤ -5.9)
    (hj : junk ≠ 1) (ha : s.angleOk) (hp : s.restOk m) : (draw m clk junk s).restOk m := by
  have hr : s.resetbulletflag ≠ 1 := by rw [hp.1]; decide
  obtain ⟨f1, f2⟩ := flight_fields _ _ (draw_flight m clk junk s hr)
  refine ⟨f2.trans hp.1, fun hb => ?_⟩
  have hb0 : s.bulletflag = 0 := f1.symm.trans hb
  have hs := hp.2 hb0
  have hc := cannonanglecheck_atMuzzle m s hs
  have hca := cannonanglecheck_angleOk m s ha
  obtain ⟨c1, c2⟩ := flight_fields _ _ (cannonanglecheck_flight m s)
  have hcb : (cannonanglecheck m s).bulletflag ≠ 1 := by rw [c1, hb0]; decide
  have hcr : (cannonanglecheck m s).resetbulletflag ≠ 1 := by rw [c2]; exact hr
  obtain ⟨b1, b2⟩ := bounds _ hca hc
  have hcore : (draw m clk junk s).core = (drawMotion m clk junk (cannonanglecheck m s)).core :=
    drawMotion_core_congr m clk junk _ _
      (drawTargets_core_of_far m clk s (bounds s ha hs).1 b1)
  obtain ⟨-, -, e3, e4, -, -, -, -, -, e10, -⟩ := core_fields _ _ hcore
  obtain ⟨x1, -, -⟩ := midframe_rest m clk (cannonanglecheck m s) hcb hcr
  have hfar := far (integrate (updateTime m clk (drawBarriers (cannonanglecheck m s))))
    (by rw [x1]; exact b1)
  have hmiss : ¬ (checkcollisionbarrier m (integrate (updateTime m clk
      (drawBarriers (cannonanglecheck m s))))).getD junk = 1 := by
    rw [hfar]; exact hj
  obtain ⟨d1, d2, d3⟩ := drawMotion_rest_miss m clk junk _ hcb hcr hmiss b2
  exact atMuzzle_of_eq m _ _ (e3.trans d1) (e4.trans d2) (e10.trans d3) hc

theorem step_restOk (m : Libm K) (clk : ℕ → K) (e : Event K) (s r : Game K)
    (far : ∀ r : Game K, r.sx ≤ -7 → checkcollisionbarrier m r = none)
    (bounds : ∀ r : Game K, r.angleOk → r.atMuzzle m → r.sx ≤ -7 ∧ ¬ r.sy ≤ -5.9)
    (he : e ≠ Event.frame 1) (h : step m clk e s = some r) (ha : s.angleOk)
    (hp : s.restOk m) : r.restOk m := by
  cases e with
  | key key action => cases h; exact keyboard_restOk m clk key action s hp
  | char key => exact keyboardChar_restOk m key s r h hp
  | mouse button action => cases h; exact mouseButton_restOk m clk button action s hp
  | scroll yoffset => cases h; exact scroll_callback_restOk m yoffset s hp
  | frame junk =>
    cases h
    exact draw_restOk m clk junk s far bounds (fun hj => he (by rw [hj])) ha hp

theorem run_restOk (m : Libm K) (clk : ℕ → K)
    (far : ∀ r : Game K, r.sx ≤ -7 → checkcollisionbarrier m r = none)
    (bounds : ∀ r : Game K, r.angleOk → r.atMuzzle m → r.sx ≤ -7 ∧ ¬ r.sy ≤ -5.9)
    (es : List (Event K)) :
    ∀ s : Game K, Event.frame 1 ∉ es → s.angleOk → s.restOk m → (run m clk es s).restOk m := by
  induction es with
  | nil => intro s _ _ hp; exact hp
  | cons e es ih =>
    intro s hes ha hp
    have he : e ≠ Event.frame 1 := fun hc => hes (by rw [hc]; exact List.mem_cons_self _ _)
    have hes2 : Event.frame 1 ∉ es := fun hc => hes (List.mem_cons_of_mem _ hc)
    simp only [run]
    cases hstep : step m clk e s with
    | none => exact hp
    | some s1 =>
      exact ih s1 hes2 (step_angleOk m clk e s s1 hstep ha)
        (step_restOk m clk e s s1 far bounds he hstep ha hp)

/-- With the aim controller idle and the projectile at rest at `sx ≤ -7` and
above the floor threshold, a frame in which no barrier test passes and the
indeterminate value of `mmm` is 1 moves the projectile back by 0.3 and leaves it
at rest. -/
theorem draw_rest_stray (m : Libm K) (clk : ℕ → K) (s : Game K)
    (far : ∀ r : Game K, r.sx ≤ -7 → checkcollisionbarrier m r = none)
    (hi : s.aimIdle) (hb : s.bulletflag = 0) (hr : s.resetbulletflag = 0)
    (hx : s.sx ≤ -7) (hy : ¬ s.sy ≤ -5.9) :
    (draw m clk 1 s).sx = s.sx - 0.3 ∧ (draw m clk 1 s).bulletflag = 0
    ∧ (draw m clk 1 s).cannon_rotation = s.cannon_rotation := by
  have hr1 : s.resetbulletflag ≠ 1 := by rw [hr]; decide
  have hb1 : s.bulletflag ≠ 1 := by rw [hb]; decide
  obtain ⟨f1, -⟩ := flight_fields _ _ (draw_flight m clk 1 s hr1)
  have hcore := draw_core_of_miss m clk 1 s hi (far_miss s hx)
  obtain ⟨-, -, e3, -, -, -, -, -, -, e10, -⟩ := core_fields _ _ hcore
  obtain ⟨x1, -, -⟩ := midframe_rest m clk s hb1 hr1
  have hfar := far (integrate (updateTime m clk (drawBarriers s))) (by rw [x1]; exact hx)
  have hhit : (checkcollisionbarrier m (integrate (updateTime m clk
      (drawBarriers s)))).getD 1 = 1 := by
    rw [hfar]; rfl
  obtain ⟨d1, d2⟩ := drawMotion_rest_hit m clk 1 s hb1 hr1 hhit hy
  exact ⟨e3.trans d1, f1.trans hb, e10.trans d2⟩

theorem start_aimIdle (clk : ℕ → K) (gravityvariable airvar : K) :
    (start clk gravityvariable airvar).aimIdle := by
  apply aimIdle_of_zero
  simp only [start, configure]; split_ifs <;> rfl

theorem start_resetbulletflag (clk : ℕ → K) (gravityvariable airvar : K) :
    (start clk gravityvariable airvar).resetbulletflag = 0 := by
  simp only [start, configure]
  split_ifs <;> rfl

/-- An UP press at the start of the loop followed by a frame leaves the
projectile at rest. -/
theorem aim_then_frame_bulletflag (m : Libm K) (clk : ℕ → K) (junk : Int)
    (gravityvariable airvar : K) :
    (run m clk [Event.key Key.GLFW_KEY_UP Action.GLFW_PRESS, Event.frame junk]
      (start clk gravityvariable airvar)).bulletflag = 0 := by
  have hb := start_bulletflag clk gravityvariable airvar
  have hr := start_resetbulletflag clk gravityvariable airvar
  have hk : (keyboard m clk Key.GLFW_KEY_UP Action.GLFW_PRESS
      (start clk gravityvariable airvar)).flight = (start clk gravityvariable airvar).flight := by
    simp only [keyboard]
    split_ifs <;> rfl
  obtain ⟨k1, k2⟩ := flight_fields _ _ hk
  have hr2 : (keyboard m clk Key.GLFW_KEY_UP Action.GLFW_PRESS
      (start clk gravityvariable airvar)).resetbulletflag ≠ 1 := by
    rw [k2, hr]; decide
  have e : run m clk [Event.key Key.GLFW_KEY_UP Action.GLFW_PRESS, Event.frame junk]
      (start clk gravityvariable airvar)
      = draw m clk junk (keyboard m clk Key.GLFW_KEY_UP Action.GLFW_PRESS
          (start clk gravityvariable airvar)) := rfl
  rw [e, (flight_fields _ _ (draw_flight m clk junk _ hr2)).1, k1, hb]

/-! ### The barrier response along the runs of the program -/

theorem drawBarriers_ax (s : Game K) : (drawBarriers s).ax = s.ax := rfl

/-- In a frame that starts with `ax = 0`, the state in which the barrier test
runs has `ax = 0`. -/
theorem midframe_ax_of_zero (m : Libm K) (clk : ℕ → K) (s : Game K) (h : s.ax = 0) :
    (integrate (updateTime m clk (drawBarriers (drawTargets m clk s)))).ax = 0 := by
  have e1 : (drawTargets m clk s).ax = s.ax := (env_fields _ _ (drawTargets_env m clk s)).1
  rw [(integrate_accel _).1, (updateTime_accel m clk _).2, drawBarriers_ax, e1, h]
  exact ite_self 0

/-- In the first frame of the loop, the state in which the barrier test runs has
`ax = 0`. -/
theorem first_midframe_ax (m : Libm K) (clk : ℕ → K) (gravityvariable airvar : K) :
    (integrate (updateTime m clk (drawBarriers (drawTargets m clk
      (start clk gravityvariable airvar))))).ax = 0 := by
  rw [(integrate_accel _).1]
  exact first_frame_vx m clk gravityvariable airvar

/-- In every frame of a run of the loop, which starts with a frame, the state in
which the barrier test runs has `ax = 0`. -/
theorem run_midframe_ax (m : Libm K) (clk : ℕ → K) (gravityvariable airvar : K)
    (es : List (Event K)) (hes : es = [] ∨ ∃ (j : Int) (rest : List (Event K)),
      es = Event.frame j :: rest) :
    (integrate (updateTime m clk (drawBarriers (drawTargets m clk
      (run m clk es (start clk gravityvariable airvar)))))).ax = 0 := by
  rcases hes with h | ⟨j, rest, h⟩
  · rw [h]
    exact first_midframe_ax m clk gravityvariable airvar
  · rw [h, run_frame_cons]
    exact midframe_ax_of_zero m clk _
      (run_ax_zero m clk rest _ (first_frame_ax m clk j gravityvariable airvar))

/-- When no hit test passes in a frame, the state in which the barrier test runs
has the `ux` with which the frame starts. -/
theorem midframe_launch_of_miss (m : Libm K) (clk : ℕ → K) (s : Game K)
    (hm : ∀ i : Target, ¬ (i.inBox (i.before m clk s) ∧ i.flag (i.before m clk s) ≠ 1)) :
    (integrate (updateTime m clk (drawBarriers (drawTargets m clk s)))).launch = s.launch := by
  rw [integrate_launch, updateTime_launch, drawBarriers_launch,
    drawTargets_launch_of_miss m clk s hm]

theorem keyboard_core (m : Libm K) (clk : ℕ → K) (key : Key) (action : Action) (s : Game K) :
    (keyboard m clk key action s).core = (keyboard m clk key action s.core).core := by
  cases action <;> cases key <;> simp only [keyboard, Game.core] <;> split_ifs <;>
    first | rfl | (exfalso; contradiction)

theorem keyboard_core_congr (m : Libm K) (clk : ℕ → K) (key : Key) (action : Action)
    (r s : Game K) (h : r.core = s.core) :
    (keyboard m clk key action r).core = (keyboard m clk key action s).core := by
  rw [keyboard_core m clk key action r, h, ← keyboard_core]

/-- A projectile at `sx ≤ 0` is in the box of no target. -/
theorem west_miss (s : Game K) (h : s.sx ≤ 0) (i : Target) :
    ¬ (i.inBox s ∧ i.flag s ≠ 1) := by
  intro hc
  have hb := hc.1
  cases i <;> simp only [Target.inBox, abs_le] at hb <;>
    (obtain ⟨⟨hb1, -⟩, -⟩ := hb; norm_num at hb1; linarith)

/-! ### A shot that bounces on the floor and meets the second barrier -/

theorem start_one_one (clk : ℕ → K) :
    start clk 1 1 = { initial clk with ay := -15, ax := -1 } := by
  simp [start, configure]

theorem bounce_first_midframe (m : Libm K) :
    (integrate (updateTime m bounceClock (drawBarriers (start (bounceClock : ℕ → K) 1 1)))).sx
        = -7
    ∧ (integrate (updateTime m bounceClock (drawBarriers (start (bounceClock : ℕ → K) 1 1)))).sy
        = -4 := by
  rw [start_one_one]
  constructor <;>
  norm_num [integrate, updateTime, drawBarriers, cannonanglecheck, resetbullet, draw3DObject,
    tick, glfwGetTime, initial]

/-- The first frame of the run with `bounceClock`, when its barrier test
returns no value. -/
theorem bounce_first_frame (m : Libm K)
    (h : checkcollisionbarrier m (integrate (updateTime m bounceClock
      (drawBarriers (start (bounceClock : ℕ → K) 1 1)))) = none) :
    (draw m bounceClock 0 (start bounceClock 1 1)).core = (exampleFirstFrame : Game K).core := by
  have hx : (start (bounceClock : ℕ → K) 1 1).sx ≤ -7 := by
    rw [start_one_one]; norm_num [initial]
  have c := draw_core_of_miss m bounceClock 0 (start (bounceClock : ℕ → K) 1 1)
    (start_aimIdle _ _ _) (far_miss _ hx)
  refine c.trans ?_
  have h2 : ¬ (integrate (updateTime m bounceClock
      (drawBarriers (start (bounceClock : ℕ → K) 1 1)))).sy ≤ -5.9 := by
    rw [(bounce_first_midframe m).2]; norm_num
  unfold drawMotion
  rw [barrierResponse_miss _ _ _ _ (by rw [h]; decide), floorRule_miss _ _ h2]
  simp only [exampleFirstFrame, start_one_one]
  norm_num [drawBullet, integrate, updateTime, drawBarriers, cannonanglecheck, resetbullet,
    draw3DObject, tick, glfwGetTime, initial, Game.core, bounceClock]

/-- The launch after the first frame, with a math library that is exact at the
angle 0. -/
theorem bounce_launch (m : Libm K) (hc : m.cos 0 = 1) (hs : m.sin 0 = 0) :
    (keyboard m bounceClock Key.GLFW_KEY_SPACE Action.GLFW_RELEASE
      (keyboard m bounceClock Key.GLFW_KEY_SPACE Action.GLFW_PRESS
        (exampleFirstFrame : Game K))).core = (exampleLaunched : Game K).core := by
  simp only [exampleLaunched, exampleFirstFrame, start_one_one]
  simp [keyboard, tick, glfwGetTime, powerfac, rad, initial, Game.core, bounceClock, hc, hs]
  norm_num

theorem bounce_second_midframe (m : Libm K) :
    (integrate (updateTime m bounceClock (drawBarriers (exampleLaunched : Game K)))).sy
      = -(143 / 2) := by
  simp only [exampleLaunched, exampleFirstFrame, start_one_one]
  norm_num [integrate, updateTime, drawBarriers, cannonanglecheck, resetbullet, draw3DObject,
    tick, glfwGetTime, initial, bounceClock]

/-- The frame after the launch, when its barrier test returns no value: the
projectile reaches the floor and bounces. -/
theorem bounce_second_frame (m : Libm K)
    (h : checkcollisionbarrier m (integrate (updateTime m bounceClock
      (drawBarriers (exampleLaunched : Game K)))) = none) :
    (drawMotion m bounceClock 0 (exampleLaunched : Game K)).core
      = (exampleBounced : Game K).core := by
  unfold drawMotion
  rw [barrierResponse_miss _ _ _ _ (by rw [h]; decide)]
  simp only [exampleBounced, exampleLaunched, exampleFirstFrame, start_one_one]
  norm_num [drawBullet, floorRule, resetprojectile, integrate, updateTime, drawBarriers,
    cannonanglecheck, resetbullet, draw3DObject, tick, glfwGetTime, initial, Game.core,
    bounceClock]

/-- The integration step of the frame after the bounce ends straight above the
pivot `(-1, -3)` of the second barrier. -/
theorem bounce_third_midframe (m : Libm K) :
    (integrate (updateTime m bounceClock (drawBarriers (exampleBounced : Game K)))).sx = -1
    ∧ (integrate (updateTime m bounceClock (drawBarriers (exampleBounced : Game K)))).sy
        = -(889 / 300)
    ∧ (integrate (updateTime m bounceClock (drawBarriers (exampleBounced : Game K)))).ux
        = 9 / 8 := by
  simp only [exampleBounced, exampleLaunched, exampleFirstFrame, start_one_one]
  refine ⟨?_, ?_, ?_⟩ <;>
  norm_num [integrate, updateTime, drawBarriers, cannonanglecheck, resetbullet, draw3DObject,
    tick, glfwGetTime, initial, bounceClock]

theorem exampleLaunched_rest :
    (exampleLaunched : Game K).sx ≤ -7 ∧ (exampleLaunched : Game K).cannonrotflag = 0 := by
  simp only [exampleLaunched, exampleFirstFrame, start_one_one]
  norm_num [initial]

theorem exampleBounced_rest :
    (exampleBounced : Game K).sx ≤ 0 ∧ (exampleBounced : Game K).cannonrotflag = 0 := by
  simp only [exampleBounced, exampleLaunched, exampleFirstFrame, start_one_one]
  norm_num [initial]

end Lemmas

section RealLemmas

theorem speed_eq (d θ : ℝ) (hd : 0 ≤ d) :
    Real.sqrt ((d * 2 * Real.cos θ) ^ 2 + (d * 2 * Real.sin θ) ^ 2) = 2 * d := by
  have e : (d * 2 * Real.cos θ) ^ 2 + (d * 2 * Real.sin θ) ^ 2 = (2 * d) ^ 2 := by
    have h := Real.cos_sq_add_sin_sq θ
    linear_combination (4 * d ^ 2) * h
  rw [e, Real.sqrt_sq (by linarith)]

/-- The quotient computed by `checkcollisionbarrier` is the distance from
`(p, q)` to the line of slope `k` through `(a, b)`. -/
theorem lineDistance_le_iff (a b k r p q : ℝ) (hr : 0 ≤ r) :
    |q - k * p - b + k * a| / Real.sqrt (1 + k * k) ≤ r
      ↔ ∃ x y : ℝ, y - b = k * (x - a) ∧ Real.sqrt ((p - x) ^ 2 + (q - y) ^ 2) ≤ r := by
  have hD : 0 < 1 + k * k := by nlinarith [mul_self_nonneg k]
  have hs : 0 < Real.sqrt (1 + k * k) := Real.sqrt_pos.mpr hD
  have hsq : Real.sqrt (1 + k * k) ^ 2 = 1 + k * k := Real.sq_sqrt hD.le
  set c := q - k * p - b + k * a with hc
  rw [div_le_iff₀ hs]
  constructor
  · intro h
    refine ⟨p + k * c / (1 + k * k), b + k * (p + k * c / (1 + k * k) - a), by ring, ?_⟩
    have e : (p - (p + k * c / (1 + k * k))) ^ 2
        + (q - (b + k * (p + k * c / (1 + k * k) - a))) ^ 2
          = (|c| / Real.sqrt (1 + k * k)) ^ 2 := by
      rw [div_pow, sq_abs, hsq]
      field_simp
      ring
    rw [e, Real.sqrt_sq (div_nonneg (abs_nonneg c) hs.le), div_le_iff₀ hs]
    exact h
  · rintro ⟨x, y, hxy, hd⟩
    have hy : y = b + k * (x - a) := by linarith
    have h1 : (p - x) ^ 2 + (q - y) ^ 2 ≤ r ^ 2 := (Real.sqrt_le_left hr).mp hd
    have h3 : c ^ 2 ≤ (1 + k * k) * ((p - x) ^ 2 + (q - y) ^ 2) := by
      have e : (1 + k * k) * ((p - x) ^ 2 + (q - y) ^ 2) - c ^ 2
          = ((1 + k * k) * (p - x) + k * c) ^ 2 := by
        rw [hy, hc]; ring
      nlinarith [sq_nonneg ((1 + k * k) * (p - x) + k * c)]
    have h4 : |c| ^ 2 ≤ (r * Real.sqrt (1 + k * k)) ^ 2 := by
      rw [sq_abs, mul_pow, hsq]
      nlinarith
    exact (abs_le_of_sq_le_sq' h4 (mul_nonneg hr hs.le)).2

theorem barrier1_line (k p q : ℝ) :
    |q - k * p - 3 - k| / Real.sqrt (1 + k * k) ≤ 0.3
      ↔ nearLine (Libm.mk Real.cos Real.sin Real.tan Real.sqrt Real.pi) (-1) 3 k 0.3 p q := by
  have h := lineDistance_le_iff (-1) 3 k 0.3 p q (by norm_num)
  have e : q - k * p - 3 + k * (-1) = q - k * p - 3 - k := by ring
  rw [e] at h; exact h

theorem barrier2_line (k p q : ℝ) :
    |q - k * p + 3 - k| / Real.sqrt (1 + k * k) ≤ 0.3
      ↔ nearLine (Libm.mk Real.cos Real.sin Real.tan Real.sqrt Real.pi) (-1) (-3) k 0.3 p q := by
  have h := lineDistance_le_iff (-1) (-3) k 0.3 p q (by norm_num)
  have e : q - k * p - (-3) + k * (-1) = q - k * p + 3 - k := by ring
  rw [e] at h; exact h

theorem barrier1_pivot (p q : ℝ) :
    Real.sqrt ((p + 1) ^ 2 + (q - 3) ^ 2) ≤ 1.5 ↔ nearPoint (Libm.mk Real.cos Real.sin Real.tan Real.sqrt Real.pi) (-1) 3 1.5 p q := by
  have e : (p + 1) ^ 2 + (q - 3) ^ 2 = (p - (-1)) ^ 2 + (q - 3) ^ 2 := by ring
  rw [e]; rfl

theorem barrier2_pivot (p q : ℝ) :
    Real.sqrt ((p + 1) ^ 2 + (q + 3) ^ 2) ≤ 1.5 ↔ nearPoint (Libm.mk Real.cos Real.sin Real.tan Real.sqrt Real.pi) (-1) (-3) 1.5 p q := by
  have e : (p + 1) ^ 2 + (q + 3) ^ 2 = (p - (-1)) ^ 2 + (q - (-3)) ^ 2 := by ring
  rw [e]; rfl

theorem sqrt_le_bound (x : ℝ) (h : Real.sqrt x ≤ 1.5) : x ≤ 2.25 := by
  have h2 := (Real.sqrt_le_iff.mp h).2
  norm_num at h2 ⊢
  exact h2

/-- Over the reals a state in which `checkcollisionbarrier` returns 1 has `sy`
within 1.5 of the height of a pivot. -/
theorem hit_region_bands (s : Game ℝ)
    (h : checkcollisionbarrier (Libm.mk Real.cos Real.sin Real.tan Real.sqrt Real.pi) s = some 1) :
    (1.5 ≤ s.sy ∧ s.sy ≤ 4.5) ∨ (-4.5 ≤ s.sy ∧ s.sy ≤ -1.5) := by
  simp only [checkcollisionbarrier] at h
  split_ifs at h with hc
  rcases hc with hc | hc
  · left
    have h3 : Real.sqrt ((s.sx + 1) ^ 2 + (s.sy - 3) ^ 2) ≤ 1.5 := hc.2
    have h4 := sqrt_le_bound _ h3
    norm_num at h4 ⊢
    constructor <;> nlinarith [sq_nonneg (s.sx + 1)]
  · right
    have h3 : Real.sqrt ((s.sx + 1) ^ 2 + (s.sy + 3) ^ 2) ≤ 1.5 := hc.2
    have h4 := sqrt_le_bound _ h3
    norm_num at h4 ⊢
    constructor <;> nlinarith [sq_nonneg (s.sx + 1)]

theorem pivot_is_hit :
    checkcollisionbarrier (Libm.mk Real.cos Real.sin Real.tan Real.sqrt Real.pi)
      { start (fun n => (n : ℝ)) 1 1 with sx := -1, sy := 3 } = some 1 := by
  norm_num [checkcollisionbarrier, rad, start, configure, initial]

/-- Over the reals a point with `sx ≤ -7` is farther than 1.5 from both
pivots: `checkcollisionbarrier` returns no value. -/
theorem checkcollisionbarrier_far (r : Game ℝ) (h : r.sx ≤ -7) :
    checkcollisionbarrier (Libm.mk Real.cos Real.sin Real.tan Real.sqrt Real.pi) r = none := by
  simp only [checkcollisionbarrier]
  rw [if_neg]
  rintro (hc | hc)
  · have h3 : Real.sqrt ((r.sx + 1) ^ 2 + (r.sy - 3) ^ 2) ≤ 1.5 := hc.2
    have h4 := sqrt_le_bound _ h3
    norm_num at h4
    nlinarith [sq_nonneg (r.sy - 3)]
  · have h3 : Real.sqrt ((r.sx + 1) ^ 2 + (r.sy + 3) ^ 2) ≤ 1.5 := hc.2
    have h4 := sqrt_le_bound _ h3
    norm_num at h4
    nlinarith [sq_nonneg (r.sy + 3)]

theorem sin_ge_of_angle (x : ℝ) (h1 : -45 ≤ x) (h2 : x ≤ 75) :
    -0.95 < Real.sin (x * Real.pi / 180) := by
  have hpi := Real.pi_pos
  have hmono : Real.sin (-(Real.pi / 4)) ≤ Real.sin (x * Real.pi / 180) := by
    apply Real.sin_le_sin_of_le_of_le_pi_div_two
    · linarith
    · nlinarith
    · nlinarith
  rw [Real.sin_neg, Real.sin_pi_div_four] at hmono
  have hs : Real.sqrt 2 < 1.9 := by
    rw [Real.sqrt_lt' (by norm_num)]
    norm_num
  norm_num at hs ⊢
  linarith

/-- Over the reals the muzzle of a cannon at a whole angle in `[-45, 75]` is at
`sx ≤ -7` and above the floor threshold. -/
theorem muzzle_bounds (r : Game ℝ) (ha : r.angleOk)
    (hm : r.atMuzzle (Libm.mk Real.cos Real.sin Real.tan Real.sqrt Real.pi)) :
    r.sx ≤ -7 ∧ ¬ r.sy ≤ -5.9 := by
  obtain ⟨n, hn, h1, h2⟩ := ha
  obtain ⟨hx, hy⟩ := hm
  have c1 : (-45 : ℝ) ≤ r.cannon_rotation := by rw [hn]; exact_mod_cast h1
  have c2 : r.cannon_rotation ≤ (75 : ℝ) := by rw [hn]; exact_mod_cast h2
  have hs := sin_ge_of_angle r.cannon_rotation c1 c2
  have hx2 : r.sx = -9 + 2 * Real.cos (r.cannon_rotation * Real.pi / 180) := hx
  have hy2 : r.sy = -4 + 2 * Real.sin (r.cannon_rotation * Real.pi / 180) := hy
  have hc := Real.cos_le_one (r.cannon_rotation * Real.pi / 180)
  constructor
  · rw [hx2]; linarith
  · rw [hy2]; norm_num at hs ⊢; linarith

theorem start_restOk (clk : ℕ → ℝ) (gravityvariable airvar : ℝ) :
    (start clk gravityvariable airvar).restOk
      (Libm.mk Real.cos Real.sin Real.tan Real.sqrt Real.pi) := by
  have e1 : (start clk gravityvariable airvar).sx = -7 := by
    simp only [start, configure]; split_ifs <;> rfl
  have e2 : (start clk gravityvariable airvar).sy = -4 := by
    simp only [start, configure]; split_ifs <;> rfl
  have e3 : (start clk gravityvariable airvar).cannon_rotation = 0 := by
    simp only [start, configure]; split_ifs <;> rfl
  have e4 : (start clk gravityvariable airvar).resetbulletflag = 0 := by
    simp only [start, configure]; split_ifs <;> rfl
  refine ⟨e4, fun _ => ?_⟩
  unfold Game.atMuzzle
  rw [e1, e2, e3]
  simp [rad]
  norm_num

/-- Over the reals a point at or below the floor threshold is farther than 1.5
from both pivots: `checkcollisionbarrier` returns no value. -/
theorem checkcollisionbarrier_low (r : Game ℝ) (h : r.sy ≤ -5.9) :
    checkcollisionbarrier (Libm.mk Real.cos Real.sin Real.tan Real.sqrt Real.pi) r = none := by
  simp only [checkcollisionbarrier]
  rw [if_neg]
  rintro (hc | hc)
  · have h3 : Real.sqrt ((r.sx + 1) ^ 2 + (r.sy - 3) ^ 2) ≤ 1.5 := hc.2
    have h4 := sqrt_le_bound _ h3
    norm_num at h4 h
    nlinarith [sq_nonneg (r.sx + 1)]
  · have h3 : Real.sqrt ((r.sx + 1) ^ 2 + (r.sy + 3) ^ 2) ≤ 1.5 := hc.2
    have h4 := sqrt_le_bound _ h3
    norm_num at h4 h
    nlinarith [sq_nonneg (r.sx + 1)]

/-- Over the reals a point straight above or below the pivot `(-1, -3)` of the
second barrier, at a distance of at most 0.3, passes the test of
`checkcollisionbarrier` at every angle of the barrier. -/
theorem checkcollisionbarrier_pivot (r : Game ℝ) (hx : r.sx = -1) (hy : |r.sy + 3| ≤ 0.3) :
    checkcollisionbarrier (Libm.mk Real.cos Real.sin Real.tan Real.sqrt Real.pi) r = some 1 := by
  simp only [checkcollisionbarrier]
  rw [if_pos]
  right
  rw [hx]
  constructor
  · have e : r.sy - Real.tan (rad (Libm.mk Real.cos Real.sin Real.tan Real.sqrt Real.pi)
          r.barrier2_rotation) * (-1) + 3
        - Real.tan (rad (Libm.mk Real.cos Real.sin Real.tan Real.sqrt Real.pi)
          r.barrier2_rotation) = r.sy + 3 := by ring
    rw [e]
    have h1 : (1 : ℝ) ≤ Real.sqrt (1 + Real.tan (rad (Libm.mk Real.cos Real.sin Real.tan
        Real.sqrt Real.pi) r.barrier2_rotation) * Real.tan (rad (Libm.mk Real.cos Real.sin
        Real.tan Real.sqrt Real.pi) r.barrier2_rotation)) := by
      rw [Real.one_le_sqrt]
      nlinarith [mul_self_nonneg (Real.tan (rad (Libm.mk Real.cos Real.sin Real.tan
        Real.sqrt Real.pi) r.barrier2_rotation))]
    exact le_trans (div_le_self (abs_nonneg _) h1) hy
  · have e : (-1 + 1 : ℝ) ^ 2 + (r.sy + 3) ^ 2 = (r.sy + 3) ^ 2 := by ring
    rw [e, Real.sqrt_sq_eq_abs]
    norm_num at hy ⊢
    linarith


/-- The run with `bounceClock`: a frame, a shot charged for 15/16 at the angle
0, and the frame in which the projectile reaches the floor and bounces. -/
theorem bounce_run_core :
    (run (Libm.mk Real.cos Real.sin Real.tan Real.sqrt Real.pi) bounceClock
      [Event.frame 0, Event.key Key.GLFW_KEY_SPACE Action.GLFW_PRESS,
        Event.key Key.GLFW_KEY_SPACE Action.GLFW_RELEASE, Event.frame 0]
      (start bounceClock 1 1)).core = (exampleBounced : Game ℝ).core := by
  have hm1 := checkcollisionbarrier_far _
    (le_of_eq (bounce_first_midframe (Libm.mk Real.cos Real.sin Real.tan Real.sqrt Real.pi)).1)
  have c1 := bounce_first_frame _ hm1
  have c2 := (keyboard_core_congr (Libm.mk Real.cos Real.sin Real.tan Real.sqrt Real.pi)
    bounceClock Key.GLFW_KEY_SPACE Action.GLFW_RELEASE _ _
    (keyboard_core_congr (Libm.mk Real.cos Real.sin Real.tan Real.sqrt Real.pi)
      bounceClock Key.GLFW_KEY_SPACE Action.GLFW_PRESS _ _ c1)).trans
    (bounce_launch _ Real.cos_zero Real.sin_zero)
  have c3 := draw_core_of_miss (Libm.mk Real.cos Real.sin Real.tan Real.sqrt Real.pi)
    bounceClock 0 _ (aimIdle_congr _ _ c2 (aimIdle_of_zero _ exampleLaunched_rest.2))
    (fun i => miss_congr i _ _ c2 (far_miss _ exampleLaunched_rest.1 i))
  have c4 := drawMotion_core_congr (Libm.mk Real.cos Real.sin Real.tan Real.sqrt Real.pi)
    bounceClock 0 _ _ c2
  have hy : (integrate (updateTime (Libm.mk Real.cos Real.sin Real.tan Real.sqrt Real.pi)
      bounceClock (drawBarriers (exampleLaunched : Game ℝ)))).sy ≤ -5.9 := by
    rw [bounce_second_midframe]; norm_num
  have c5 := bounce_second_frame _ (checkcollisionbarrier_low _ hy)
  exact c3.trans (c4.trans c5)

/-- In the frame after the bounce the barrier test passes, with `ux = 9/8`. -/
theorem bounce_barrier_hit :
    checkcollisionbarrier (Libm.mk Real.cos Real.sin Real.tan Real.sqrt Real.pi)
      (integrate (updateTime (Libm.mk Real.cos Real.sin Real.tan Real.sqrt Real.pi) bounceClock
        (drawBarriers (drawTargets (Libm.mk Real.cos Real.sin Real.tan Real.sqrt Real.pi)
          bounceClock (run (Libm.mk Real.cos Real.sin Real.tan Real.sqrt Real.pi) bounceClock
            [Event.frame 0, Event.key Key.GLFW_KEY_SPACE Action.GLFW_PRESS,
              Event.key Key.GLFW_KEY_SPACE Action.GLFW_RELEASE, Event.frame 0]
            (start bounceClock 1 1)))))) = some 1
    ∧ (integrate (updateTime (Libm.mk Real.cos Real.sin Real.tan Real.sqrt Real.pi) bounceClock
        (drawBarriers (drawTargets (Libm.mk Real.cos Real.sin Real.tan Real.sqrt Real.pi)
          bounceClock (run (Libm.mk Real.cos Real.sin Real.tan Real.sqrt Real.pi) bounceClock
            [Event.frame 0, Event.key Key.GLFW_KEY_SPACE Action.GLFW_PRESS,
              Event.key Key.GLFW_KEY_SPACE Action.GLFW_RELEASE, Event.frame 0]
            (start bounceClock 1 1)))))).ux = 9 / 8 := by
  have c := bounce_run_core
  have d1 := drawTargets_core_of_miss (Libm.mk Real.cos Real.sin Real.tan Real.sqrt Real.pi)
    bounceClock _ (aimIdle_congr _ _ c (aimIdle_of_zero _ exampleBounced_rest.2))
    (fun i => miss_congr i _ _ c (west_miss _ exampleBounced_rest.1 i))
  have d2 := midframe_core_congr (Libm.mk Real.cos Real.sin Real.tan Real.sqrt Real.pi)
    bounceClock _ _ (d1.trans c)
  obtain ⟨m1, m2, m3⟩ :=
    bounce_third_midframe (Libm.mk Real.cos Real.sin Real.tan Real.sqrt Real.pi)
  constructor
  · rw [checkcollisionbarrier_congr _ _ _ d2]
    apply checkcollisionbarrier_pivot _ m1
    rw [m2, abs_le]
    constructor <;> norm_num
  · rw [(core_fields _ _ d2).1, m3]

end RealLemmas

section Claims

variable {K : Type} [LinearOrderedField K]

/-- C1. Along every sequence of frames and inputs from the initial state, each
of the nine targets adds to `flagscore` in at most one frame, and what it adds
over the whole sequence is nothing or its points; these nine totals make up
the change of `flagscore` over the sequence.  A frame is the part of `draw`
before the hit test of the target, then the hit test, then the rest; what the
hit test of a target
adds in a frame is 0 or the points of the target, and the nine amounts make up
the change of `flagscore` in the frame.  For `square5`: a frame
whose box test passes with `flagsquare5 = 0` adds exactly 20, and a frame with
`flagsquare5 = 1` adds 0. -/
theorem target_scores_at_most_once (m : Libm K) (clk : ℕ → K) (gravityvariable airvar : K)
    (es : List (Event K)) (i : Target) :
    i.scoringFrames m clk es (start clk gravityvariable airvar) ≤ 1
    ∧ (i.totalAdded m clk es (start clk gravityvariable airvar) = 0
        ∨ i.totalAdded m clk es (start clk gravityvariable airvar) = i.points)
    ∧ (∀ s : Game K, (run m clk es s).flagscore = s.flagscore
        + (Target.triangle.totalAdded m clk es s + Target.square1.totalAdded m clk es s
          + Target.square2.totalAdded m clk es s + Target.square3.totalAdded m clk es s
          + Target.square4.totalAdded m clk es s + Target.square5.totalAdded m clk es s
          + Target.rectangle1.totalAdded m clk es s + Target.rectangle2.totalAdded m clk es s
          + Target.rectangle3.totalAdded m clk es s))
    ∧ (∀ (s : Game K) (junk : Int),
        draw m clk junk s = i.after m clk junk (i.hit clk (i.before m clk s)))
    ∧ (∀ s : Game K, i.added m clk s = 0 ∨ i.added m clk s = i.points)
    ∧ (∀ (s : Game K) (junk : Int), (draw m clk junk s).flagscore = s.flagscore
        + (Target.triangle.added m clk s + Target.square1.added m clk s
          + Target.square2.added m clk s + Target.square3.added m clk s
          + Target.square4.added m clk s + Target.square5.added m clk s
          + Target.rectangle1.added m clk s + Target.rectangle2.added m clk s
          + Target.rectangle3.added m clk s))
    ∧ (∀ s : Game K, |(Target.square5.before m clk s).sx - 6| ≤ 0.35 →
        |(Target.square5.before m clk s).sy - 0.25| ≤ 0.35 → s.flagsquare5 = 0 →
        Target.square5.added m clk s = 20)
    ∧ (∀ s : Game K, s.flagsquare5 = 1 → Target.square5.added m clk s = 0) := by
  refine ⟨(scoringFrames_le m clk i es _).1, (totalAdded_cases m clk i es _).1,
    run_flagscore m clk es, fun s junk => draw_eq_after m clk junk i s,
    mem_frameStarts_added m clk i,
    fun s junk => draw_flagscore m clk junk s, fun s hx hy hf => ?_, fun s hf => ?_⟩
  · exact added_pos m clk Target.square5 s ⟨hx, hy⟩
      (by show s.flagsquare5 ≠ 1; rw [hf]; decide)
  · exact added_neg m clk Target.square5 s (fun hc => hc.2 hf)

/-- C2. In every state reached from the initial state by key, character, mouse
and scroll events and frames, `cannon_rotation` lies between -45 and 75. -/
theorem cannon_rotation_in_range (m : Libm K) (clk : ℕ → K) (gravityvariable airvar : K)
    (es : List (Event K)) :
    -45 ≤ (run m clk es (start clk gravityvariable airvar)).cannon_rotation
    ∧ (run m clk es (start clk gravityvariable airvar)).cannon_rotation ≤ 75 :=
  angleOk_range _ (run_angleOk m clk es _ (start_angleOk clk gravityvariable airvar))

/-- C3. With the projectile in flight (`bulletflag = 1`) the SPACE key and the
left mouse button change nothing, whatever the action (press, release or
repeat): the state, and so `ux`, `uy`, `last_update_time`, `powertimestart` and
`bulletflag`, stays as it is. -/
theorem fire_in_flight_noop (m : Libm K) (clk : ℕ → K) (s : Game K) (action : Action)
    (h : s.bulletflag = 1) :
    keyboard m clk Key.GLFW_KEY_SPACE action s = s
    ∧ mouseButton m clk Button.GLFW_MOUSE_BUTTON_LEFT action s = s := by
  cases action <;> simp [keyboard, mouseButton, h]

/-- Witness of C3: a fire release in the flying example state. -/
theorem fire_in_flight_noop_witness :
    keyboard coarseLibm exampleClock Key.GLFW_KEY_SPACE Action.GLFW_RELEASE exampleFlight
        = exampleFlight
    ∧ mouseButton coarseLibm exampleClock Button.GLFW_MOUSE_BUTTON_LEFT Action.GLFW_RELEASE
        exampleFlight = exampleFlight :=
  fire_in_flight_noop coarseLibm exampleClock exampleFlight Action.GLFW_RELEASE rfl

/-- C4. With the projectile not in flight, a fire release (SPACE key or left
mouse button) reads the clock twice, sets `last_update_time` to the first value
and `powertimeend` to the second, and sets `ux` and `uy` to the charge
`powertimeend - powertimestart` times `powerfac = 2` times the cosine and the
sine of `cannon_rotation` in radians, and `bulletflag` to 1.  When both reads
return `now`, the charge is `now - powertimestart` and `last_update_time = now`.
With charge 1 at angle 0 the result is `ux = 2` and `uy = 0`. -/
theorem fire_release_launch (clk : ℕ → ℝ) (s r : Game ℝ) (h : s.bulletflag ≠ 1)
    (hr : r = keyboard (Libm.mk Real.cos Real.sin Real.tan Real.sqrt Real.pi) clk
              Key.GLFW_KEY_SPACE Action.GLFW_RELEASE s
      ∨ r = mouseButton (Libm.mk Real.cos Real.sin Real.tan Real.sqrt Real.pi) clk
              Button.GLFW_MOUSE_BUTTON_LEFT Action.GLFW_RELEASE s) :
    r.ux = (r.powertimeend - s.powertimestart) * powerfac
            * Real.cos (s.cannon_rotation * Real.pi / 180)
    ∧ r.uy = (r.powertimeend - s.powertimestart) * powerfac
            * Real.sin (s.cannon_rotation * Real.pi / 180)
    ∧ (powerfac : ℝ) = 2
    ∧ r.bulletflag = 1
    ∧ r.last_update_time = clk s.reads
    ∧ r.powertimeend = clk (s.reads + 1)
    ∧ (∀ now : ℝ, clk s.reads = now → clk (s.reads + 1) = now →
        r.last_update_time = now
        ∧ r.ux = (now - s.powertimestart) * 2 * Real.cos (s.cannon_rotation * Real.pi / 180)
        ∧ r.uy = (now - s.powertimestart) * 2 * Real.sin (s.cannon_rotation * Real.pi / 180))
    ∧ (s.cannon_rotation = 0 → r.powertimeend - s.powertimestart = 1 →
        r.ux = 2 ∧ r.uy = 0) := by
  rw [mouseButton_release_eq, or_self] at hr
  subst hr
  obtain ⟨h1, h2, h3, h4, h5⟩ := release_fields (Libm.mk Real.cos Real.sin Real.tan Real.sqrt Real.pi) clk s h
  simp only [h1, h2, h3, h4, h5, powerfac]
  refine ⟨trivial, trivial, trivial, trivial, trivial, trivial, ?_, ?_⟩
  · intro now e1 e2
    rw [e1, e2]
    exact ⟨rfl, rfl, rfl⟩
  · intro h0 hd
    simp [h0, hd]

/-- Witness of C4: a fire release in the initial state. -/
theorem fire_release_launch_witness :
    (keyboard (Libm.mk Real.cos Real.sin Real.tan Real.sqrt Real.pi) (fun n => (n : ℝ))
      Key.GLFW_KEY_SPACE Action.GLFW_RELEASE (start (fun n => (n : ℝ)) 1 1)).bulletflag = 1 :=
  (fire_release_launch (fun n => (n : ℝ)) (start (fun n => (n : ℝ)) 1 1) _
    (by rw [start_bulletflag]; decide) (Or.inl rfl)).2.2.2.1

/-- C5. A fire release with charge `d1` and one with charge `d2`, where
`0 ≤ d1 ≤ d2`, give launch speeds `sqrt (ux^2 + uy^2)` in the same order,
whatever the cannon angles and so at every fixed angle; over the reals the
launch speed is `powerfac = 2` times the charge. -/
theorem launch_speed_monotone (clk1 clk2 : ℕ → ℝ) (s1 s2 r1 r2 : Game ℝ)
    (h1 : s1.bulletflag ≠ 1) (h2 : s2.bulletflag ≠ 1)
    (hd1 : 0 ≤ clk1 (s1.reads + 1) - s1.powertimestart)
    (hd : clk1 (s1.reads + 1) - s1.powertimestart ≤ clk2 (s2.reads + 1) - s2.powertimestart)
    (e1 : r1 = keyboard (Libm.mk Real.cos Real.sin Real.tan Real.sqrt Real.pi) clk1
              Key.GLFW_KEY_SPACE Action.GLFW_RELEASE s1
      ∨ r1 = mouseButton (Libm.mk Real.cos Real.sin Real.tan Real.sqrt Real.pi) clk1
              Button.GLFW_MOUSE_BUTTON_LEFT Action.GLFW_RELEASE s1)
    (e2 : r2 = keyboard (Libm.mk Real.cos Real.sin Real.tan Real.sqrt Real.pi) clk2
              Key.GLFW_KEY_SPACE Action.GLFW_RELEASE s2
      ∨ r2 = mouseButton (Libm.mk Real.cos Real.sin Real.tan Real.sqrt Real.pi) clk2
              Button.GLFW_MOUSE_BUTTON_LEFT Action.GLFW_RELEASE s2) :
    Real.sqrt (r1.ux ^ 2 + r1.uy ^ 2) ≤ Real.sqrt (r2.ux ^ 2 + r2.uy ^ 2)
    ∧ r1.powertimeend - s1.powertimestart = clk1 (s1.reads + 1) - s1.powertimestart
    ∧ r2.powertimeend - s2.powertimestart = clk2 (s2.reads + 1) - s2.powertimestart
    ∧ Real.sqrt (r1.ux ^ 2 + r1.uy ^ 2) = powerfac * (r1.powertimeend - s1.powertimestart)
    ∧ Real.sqrt (r2.ux ^ 2 + r2.uy ^ 2) = powerfac * (r2.powertimeend - s2.powertimestart)
    ∧ (powerfac : ℝ) = 2 := by
  rw [mouseButton_release_eq, or_self] at e1 e2
  subst e1 e2
  obtain ⟨a1, a2, -, -, a5⟩ := release_fields (Libm.mk Real.cos Real.sin Real.tan Real.sqrt Real.pi) clk1 s1 h1
  obtain ⟨b1, b2, -, -, b5⟩ := release_fields (Libm.mk Real.cos Real.sin Real.tan Real.sqrt Real.pi) clk2 s2 h2
  simp only [a1, a2, a5, b1, b2, b5, powerfac]
  rw [speed_eq _ _ hd1, speed_eq _ _ (le_trans hd1 hd)]
  refine ⟨by linarith, ?_, ?_, ?_, ?_, ?_⟩ <;> first | rfl | trivial

/-- Witness of C5: charges 1 and 2 from the initial state. -/
theorem launch_speed_monotone_witness :
    Real.sqrt
        ((keyboard (Libm.mk Real.cos Real.sin Real.tan Real.sqrt Real.pi) (fun n => (n : ℝ)) Key.GLFW_KEY_SPACE Action.GLFW_RELEASE
            { start (fun n => (n : ℝ)) 1 1 with powertimestart := 1 }).ux ^ 2
          + (keyboard (Libm.mk Real.cos Real.sin Real.tan Real.sqrt Real.pi) (fun n => (n : ℝ)) Key.GLFW_KEY_SPACE Action.GLFW_RELEASE
            { start (fun n => (n : ℝ)) 1 1 with powertimestart := 1 }).uy ^ 2)
      ≤ Real.sqrt
        ((keyboard (Libm.mk Real.cos Real.sin Real.tan Real.sqrt Real.pi) (fun n => (n : ℝ)) Key.GLFW_KEY_SPACE Action.GLFW_RELEASE
            (start (fun n => (n : ℝ)) 1 1)).ux ^ 2
          + (keyboard (Libm.mk Real.cos Real.sin Real.tan Real.sqrt Real.pi) (fun n => (n : ℝ)) Key.GLFW_KEY_SPACE Action.GLFW_RELEASE
            (start (fun n => (n : ℝ)) 1 1)).uy ^ 2) :=
  (launch_speed_monotone (fun n => (n : ℝ)) (fun n => (n : ℝ))
    { start (fun n => (n : ℝ)) 1 1 with powertimestart := 1 } (start (fun n => (n : ℝ)) 1 1)
    _ _
    (by show (start (fun n => (n : ℝ)) 1 1).bulletflag ≠ 1; rw [start_bulletflag]; decide)
    (by rw [start_bulletflag]; decide)
    (by norm_num [start, configure, initial])
    (by norm_num [start, configure, initial])
    (Or.inl rfl) (Or.inl rfl)).1

/-- C6. After a frame the projectile is strictly above the floor threshold,
`sy > -5.9`; when the floor rule fires, that is when `sy ≤ -5.9` after the
integration and the barrier response, the frame ends with `sy = -6 + 0.12`,
which is `-5.88`. -/
theorem draw_sy_above_floor (m : Libm K) (clk : ℕ → K) (junk : Int) (s : Game K) :
    (draw m clk junk s).sy > -5.9
    ∧ ((barrierResponse m clk junk
          (integrate (updateTime m clk (drawBarriers (drawTargets m clk s))))).sy ≤ -5.9 →
        (draw m clk junk s).sy = -6 + 0.12 ∧ (draw m clk junk s).sy = -5.88) := by
  rw [draw_sy]
  refine ⟨floorRule_sy_gt clk _, fun h => ?_⟩
  rw [(floorRule_fields clk _ h).2.2.2.1]
  exact ⟨rfl, by norm_num⟩

/-- C7. In a frame, the elapsed time used by the integration step is
`t = (current_time - last_update_time) / 5`, where `current_time` is the clock
read of this frame and `last_update_time` the last re-baseline.  With
`bulletflag = 1` the step adds `ux*t + (1/2)*ax*t^2` to `sx` and
`uy*t + (1/2)*ay*t^2` to `sy`, with the `ux`, `uy`, `ax`, `ay` of that moment,
which it leaves unchanged; with `bulletflag ≠ 1` it changes nothing. -/
theorem integration_step (m : Libm K) (clk : ℕ → K) (junk : Int) (s0 : Game K) :
    draw m clk junk s0 = drawBullet (floorRule clk (barrierResponse m clk junk
      (integrate (updateTime m clk (drawBarriers (drawTargets m clk s0))))))
    ∧ (∀ s : Game K,
        (updateTime m clk s).current_time = clk s.reads
        ∧ (updateTime m clk s).last_update_time = s.last_update_time
        ∧ (updateTime m clk s).t
            = ((updateTime m clk s).current_time - (updateTime m clk s).last_update_time) / 5)
    ∧ (∀ u : Game K, u.bulletflag = 1 →
        (integrate u).sx = u.sx + (u.ux * u.t + 1 / 2 * u.ax * u.t ^ 2)
        ∧ (integrate u).sy = u.sy + (u.uy * u.t + 1 / 2 * u.ay * u.t ^ 2)
        ∧ (integrate u).ux = u.ux ∧ (integrate u).uy = u.uy
        ∧ (integrate u).ax = u.ax ∧ (integrate u).ay = u.ay ∧ (integrate u).t = u.t)
    ∧ (∀ u : Game K, u.bulletflag ≠ 1 →
        integrate u = u ∧ (integrate u).sx = u.sx ∧ (integrate u).sy = u.sy) := by
  refine ⟨rfl, fun s => ?_, fun u hu => ?_, fun u hu => ?_⟩
  · simp only [updateTime, resetbullet, cannonanglecheck, tick, glfwGetTime]
    split_ifs <;> refine ⟨?_, ?_, ?_⟩ <;> first | rfl | trivial
  · simp only [integrate, if_pos hu]
    refine ⟨?_, ?_, ?_, ?_, ?_, ?_, ?_⟩ <;> first | trivial | rfl | (norm_num; ring)
  · simp only [integrate, if_neg hu]
    exact ⟨trivial, trivial, trivial⟩

/-- C8. When the floor rule fires (`sy ≤ -5.9`), it sets `uy` to
`-(uy + ay*t)/4`, `ux` to `(3/5)*(ux + ax*t)`, `last_update_time` to the clock
read and `sy` to `-6 + 0.12`; so a downward velocity `uy + ay*t < 0` gives an
upward `uy > 0`. -/
theorem floor_bounce (clk : ℕ → K) (s : Game K) (h : s.sy ≤ -5.9) :
    (floorRule clk s).uy = -(s.uy + s.ay * s.t) / 4
    ∧ (floorRule clk s).ux = 3 / 5 * (s.ux + s.ax * s.t)
    ∧ (floorRule clk s).last_update_time = clk s.reads
    ∧ (floorRule clk s).sy = -6 + 0.12
    ∧ (s.uy + s.ay * s.t < 0 → (floorRule clk s).uy > 0)
    ∧ (0 ≤ s.ux + s.ax * s.t → 0 ≤ (floorRule clk s).ux)
    ∧ (s.ux + s.ax * s.t ≤ 0 → (floorRule clk s).ux ≤ 0) := by
  obtain ⟨h1, h2, h3, h4, -⟩ := floorRule_fields clk s h
  refine ⟨h1, h2, h3, h4, fun hv => ?_, fun hv => ?_, fun hv => ?_⟩
  · rw [h1]; linarith
  · rw [h2]; linarith
  · rw [h2]; linarith

/-- Witness of C8: the example state below the floor bounces up with
`uy = 1/2`. -/
theorem floor_bounce_witness :
    (floorRule exampleClock exampleFall).uy
      = -(exampleFall.uy + exampleFall.ay * exampleFall.t) / 4
    ∧ (floorRule exampleClock exampleFall).sy = -6 + 0.12 :=
  ⟨(floor_bounce exampleClock exampleFall (by norm_num [exampleFall])).1,
   (floor_bounce exampleClock exampleFall (by norm_num [exampleFall])).2.2.2.1⟩

/-- C9. The factor `(3/4)` in the hit branches is the integer quotient 0.  In
the first example state, hit on `square1` left of its x-edge with `vx = 4`, the
new `ux` is 0 and not `-(3/4)*vx = -3`, while `sx` does decrease by 0.3.  In the
second, hit on `square1` above its y-edge with `vy = -2`, the new `uy` is 0 and
not `-(3/4)*vy = 3/2`, while `sy` does increase by 0.3. -/
theorem hitSquare1_xedge_ux :
    ((|exampleFlight.sx - 4| ≤ 1.1 ∧ |exampleFlight.sy + 5| ≤ 1.1
        ∧ exampleFlight.flagsquare1 ≠ 1 ∧ exampleFlight.sx < 3)
      ∧ (hitSquare1 exampleClock exampleFlight).vx = 4
      ∧ (hitSquare1 exampleClock exampleFlight).ux = 0
      ∧ -(3 / 4 : ℚ) * (hitSquare1 exampleClock exampleFlight).vx = -3
      ∧ (hitSquare1 exampleClock exampleFlight).sx = exampleFlight.sx - 0.3)
    ∧ ((|exampleGraze.sx - 4| ≤ 1.1 ∧ |exampleGraze.sy + 5| ≤ 1.1
        ∧ exampleGraze.flagsquare1 ≠ 1 ∧ ¬ exampleGraze.sx < 3 ∧ exampleGraze.sy > -4.1)
      ∧ (hitSquare1 exampleClock exampleGraze).vy = -2
      ∧ (hitSquare1 exampleClock exampleGraze).uy = 0
      ∧ -(3 / 4 : ℚ) * (hitSquare1 exampleClock exampleGraze).vy = 3 / 2
      ∧ (hitSquare1 exampleClock exampleGraze).sy = exampleGraze.sy + 0.3) := by
  constructor
  · have hc : |exampleFlight.sx - 4| ≤ 1.1 ∧ |exampleFlight.sy + 5| ≤ 1.1
        ∧ exampleFlight.flagsquare1 ≠ 1 := by
      norm_num [exampleFlight, start, configure, initial, abs_le]
    have hx : exampleFlight.sx < 3 := by norm_num [exampleFlight]
    refine ⟨⟨hc.1, hc.2.1, hc.2.2, hx⟩, ?_⟩
    have hx1 : (resetprojectile exampleClock
        { exampleFlight with flagscore := exampleFlight.flagscore + 10, flagsquare1 := 1 }).sx
          < 3 := hx
    simp only [hitSquare1, if_pos hc, deflect, if_pos hx1]
    norm_num [resetprojectile, tick, exampleFlight, start, configure, initial]
  · have hc : |exampleGraze.sx - 4| ≤ 1.1 ∧ |exampleGraze.sy + 5| ≤ 1.1
        ∧ exampleGraze.flagsquare1 ≠ 1 := by
      norm_num [exampleGraze, start, configure, initial, abs_le]
    have hx : ¬ exampleGraze.sx < 3 := by norm_num [exampleGraze]
    have hy : exampleGraze.sy > -4.1 := by norm_num [exampleGraze]
    refine ⟨⟨hc.1, hc.2.1, hc.2.2, hx, hy⟩, ?_⟩
    have hx1 : ¬ (resetprojectile exampleClock
        { exampleGraze with flagscore := exampleGraze.flagscore + 10, flagsquare1 := 1 }).sx
          < 3 := hx
    have hy1 : (resetprojectile exampleClock
        { exampleGraze with flagscore := exampleGraze.flagscore + 10, flagsquare1 := 1 }).sy
          > -4.1 := hy
    simp only [hitSquare1, if_pos hc, deflect, if_neg hx1, if_pos hy1]
    norm_num [resetprojectile, tick, exampleGraze, start, configure, initial]

/-- C11. In every frame of a run of the loop of `main` (the first frame, or a
frame after a sequence of events that starts with a frame) in which a barrier
hit is declared (`mmm` is 1), the response inverts the horizontal launch
velocity: the new `ux` is minus the `ux` of the state in which the response
runs.  It moves `sx` back by 0.3 and sets `last_update_time` to the clock read.
The reason is that `ax` is 0 in that state, so that the `vx = ux + ax*t` which
the response negates is `ux`.  When no target test passes in the frame, the `ux`
that is inverted is the `ux` with which the frame starts.  The response is the
step of `draw` between the integration and the floor rule. -/
theorem barrier_hit_inverts_ux (m : Libm K) (clk : ℕ → K) (gravityvariable airvar : K)
    (es : List (Event K)) (junk : Int)
    (hes : es = [] ∨ ∃ (j : Int) (rest : List (Event K)), es = Event.frame j :: rest)
    (h : (checkcollisionbarrier m (integrate (updateTime m clk (drawBarriers
      (drawTargets m clk (run m clk es (start clk gravityvariable airvar))))))).getD junk = 1) :
    (barrierResponse m clk junk (integrate (updateTime m clk (drawBarriers
        (drawTargets m clk (run m clk es (start clk gravityvariable airvar))))))).ux
      = -(integrate (updateTime m clk (drawBarriers
        (drawTargets m clk (run m clk es (start clk gravityvariable airvar)))))).ux
    ∧ (barrierResponse m clk junk (integrate (updateTime m clk (drawBarriers
        (drawTargets m clk (run m clk es (start clk gravityvariable airvar))))))).sx
      = (integrate (updateTime m clk (drawBarriers
        (drawTargets m clk (run m clk es (start clk gravityvariable airvar)))))).sx - 0.3
    ∧ (barrierResponse m clk junk (integrate (updateTime m clk (drawBarriers
        (drawTargets m clk (run m clk es (start clk gravityvariable airvar))))))).last_update_time
      = clk (integrate (updateTime m clk (drawBarriers
        (drawTargets m clk (run m clk es (start clk gravityvariable airvar)))))).reads
    ∧ (integrate (updateTime m clk (drawBarriers
        (drawTargets m clk (run m clk es (start clk gravityvariable airvar)))))).ax = 0
    ∧ ((∀ i : Target,
          ¬ (i.inBox (i.before m clk (run m clk es (start clk gravityvariable airvar)))
            ∧ i.flag (i.before m clk (run m clk es (start clk gravityvariable airvar))) ≠ 1)) →
        (barrierResponse m clk junk (integrate (updateTime m clk (drawBarriers
          (drawTargets m clk (run m clk es (start clk gravityvariable airvar))))))).ux
        = -(run m clk es (start clk gravityvariable airvar)).ux)
    ∧ draw m clk junk (run m clk es (start clk gravityvariable airvar))
        = drawBullet (floorRule clk (barrierResponse m clk junk (integrate (updateTime m clk
            (drawBarriers (drawTargets m clk
              (run m clk es (start clk gravityvariable airvar)))))))) := by
  have hax := run_midframe_ax m clk gravityvariable airvar es hes
  obtain ⟨b1, b2, b3, -⟩ := barrierResponse_hit m clk junk _ h
  have hux : (barrierResponse m clk junk (integrate (updateTime m clk (drawBarriers
        (drawTargets m clk (run m clk es (start clk gravityvariable airvar))))))).ux
      = -(integrate (updateTime m clk (drawBarriers
        (drawTargets m clk (run m clk es (start clk gravityvariable airvar)))))).ux := by
    rw [b1, hax, zero_mul, add_zero]
  refine ⟨hux, b2, b3, hax, fun hm => ?_, rfl⟩
  rw [hux, (launch_fields _ _ (midframe_launch_of_miss m clk _ hm)).1]

/-- C12. A flag that is 1 stays 1 through every sequence of events, the reset
key and the right mouse button included.  A frame that starts with the flag of
a target at 1 adds nothing for the target, passes through its hit test without
any change of state, so without nudge, and does not draw the target. -/
theorem destroyed_target_stays_out (m : Libm K) (clk : ℕ → K) (i : Target) (s : Game K)
    (h : i.flag s = 1) :
    (∀ es : List (Event K), i.flag (run m clk es s) = 1)
    ∧ (∀ r : Game K, keyboardChar m 'r' s = some r → i.flag r = 1)
    ∧ i.flag (mouseButton m clk Button.GLFW_MOUSE_BUTTON_RIGHT Action.GLFW_PRESS s) = 1
    ∧ (∀ junk : Int, i.flag (draw m clk junk s) = 1)
    ∧ i.added m clk s = 0
    ∧ i.hit clk (i.before m clk s) = i.before m clk s
    ∧ (∀ junk : Int, draw m clk junk s = i.after m clk junk (i.before m clk s))
    ∧ (∀ junk : Int, i.shape ∉ (draw m clk junk s).rendered) := by
  have hb : i.hit clk (i.before m clk s) = i.before m clk s :=
    hit_eq_self clk i _ (by rw [before_flag]; exact h)
  refine ⟨fun es => run_flag_one m clk i es s h, fun r hr => ?_, ?_,
    fun junk => draw_flag_one m clk junk i s h, added_neg m clk i s (fun hc => hc.2 h), hb,
    fun junk => ?_, fun junk => (draw_hidden m clk junk i s h).2⟩
  · rw [flag_congr i s r (keyboardChar_board m 'r' s r hr)]; exact h
  · rw [flag_congr i s _ (mouseButton_board m clk _ _ s)]; exact h
  · rw [draw_eq_after m clk junk i s, hb]

/-- Witness of C12: `square5` in a state in which it has been destroyed. -/
theorem destroyed_target_stays_out_witness :
    Target.square5.added coarseLibm exampleClock exampleDestroyed = 0 :=
  (destroyed_target_stays_out coarseLibm exampleClock Target.square5 exampleDestroyed
    rfl).2.2.2.2.1

/-- C13. In every state of the loop of `main` reached from its start, the
banner has been written at most once, and not at all while the score is at most
90.  The next pass through the loop writes the banner exactly when the score
goes from at most 90 to more than 90 in its frame; once the score exceeds 90 a
pass writes nothing. -/
theorem win_banner_once (m : Libm K) (clk : ℕ → K) (gravityvariable airvar : K)
    (es : List (Event K)) :
    List.count Output.youWon (mainRun m clk es (mainStart clk gravityvariable airvar)).stdout ≤ 1
    ∧ ((mainRun m clk es (mainStart clk gravityvariable airvar)).game.flagscore ≤ 90 →
        List.count Output.youWon
          (mainRun m clk es (mainStart clk gravityvariable airvar)).stdout = 0)
    ∧ (∀ junk : Int,
        (loopFrame m clk junk (mainRun m clk es (mainStart clk gravityvariable airvar))).stdout
          = (mainRun m clk es (mainStart clk gravityvariable airvar)).stdout
            ++ report
              (draw m clk junk
                (mainRun m clk es (mainStart clk gravityvariable airvar)).game).flagscore
              (mainRun m clk es (mainStart clk gravityvariable airvar)).k)
    ∧ (∀ junk : Int,
        Output.youWon ∈ report
            (draw m clk junk
              (mainRun m clk es (mainStart clk gravityvariable airvar)).game).flagscore
            (mainRun m clk es (mainStart clk gravityvariable airvar)).k
          ↔ (mainRun m clk es (mainStart clk gravityvariable airvar)).game.flagscore ≤ 90
            ∧ 90 < (draw m clk junk
              (mainRun m clk es (mainStart clk gravityvariable airvar)).game).flagscore)
    ∧ (90 < (mainRun m clk es (mainStart clk gravityvariable airvar)).game.flagscore →
        ∀ junk : Int,
          report
            (draw m clk junk
              (mainRun m clk es (mainStart clk gravityvariable airvar)).game).flagscore
            (mainRun m clk es (mainStart clk gravityvariable airvar)).k = []) := by
  obtain ⟨hk, hs, h0, h1⟩ := mainRun_invariant m clk es _
    (mainStart_invariant clk gravityvariable airvar)
  generalize mainRun m clk es (mainStart clk gravityvariable airvar) = st at hk hs h0 h1 ⊢
  refine ⟨h1, h0, fun junk => (loopFrame_fields m clk junk st).2.1, fun junk => ?_,
    fun hw junk => ?_⟩
  · have hle := draw_flagscore_le m clk junk st.game
    rw [hk]
    unfold report
    constructor
    · intro hmem
      split_ifs at hmem with a b
      · refine ⟨?_, b⟩
        by_contra hw
        have := draw_flagscore_of_won m clk junk st.game hs (by omega)
        omega
      · simp at hmem
      · simp at hmem
    · rintro ⟨a, b⟩
      rw [if_pos (by omega), if_pos b]
      simp
  · have := draw_flagscore_of_won m clk junk st.game hs hw
    unfold report
    rw [if_neg (by omega)]

/-- C14. A frame leaves `flagscore` at least as large as it was, no callback
changes it, and so it never decreases along a sequence of events. -/
theorem flagscore_nondecreasing (m : Libm K) (clk : ℕ → K) (s : Game K) :
    (∀ junk : Int, s.flagscore ≤ (draw m clk junk s).flagscore)
    ∧ (∀ (key : Key) (action : Action),
        (keyboard m clk key action s).flagscore = s.flagscore)
    ∧ (∀ (key : Char) (r : Game K), keyboardChar m key s = some r →
        r.flagscore = s.flagscore)
    ∧ (∀ (button : Button) (action : Action),
        (mouseButton m clk button action s).flagscore = s.flagscore)
    ∧ (∀ yoffset : K, (scroll_callback yoffset s).flagscore = s.flagscore)
    ∧ (∀ es : List (Event K), s.flagscore ≤ (run m clk es s).flagscore) :=
  ⟨fun junk => draw_flagscore_le m clk junk s,
   fun key action => flagscore_congr _ _ (keyboard_board m clk key action s),
   fun key r hr => flagscore_congr _ _ (keyboardChar_board m key s r hr),
   fun button action => flagscore_congr _ _ (mouseButton_board m clk button action s),
   fun yoffset => flagscore_congr _ _ (scroll_callback_board yoffset s),
   fun es => run_flagscore_le m clk es s⟩

/-- C15. A pass through the loop of `main` writes `Score-update:<total>`
exactly when the score after `draw` exceeds `k`; the total written is that
score, it is written once, and `k` becomes it; otherwise nothing is written and
`k` stays.  `k` starts at 0 and in every state of the loop reached from its
start `k` is the score, so a frame that raises the score writes the new total
once and a frame that does not writes nothing. -/
theorem score_update_printed (m : Libm K) (clk : ℕ → K) (gravityvariable airvar : K)
    (es : List (Event K)) :
    (∀ (st : Main K) (junk : Int),
        (loopFrame m clk junk st).stdout
          = st.stdout ++ report (draw m clk junk st.game).flagscore st.k
        ∧ ((draw m clk junk st.game).flagscore > st.k →
            (report (draw m clk junk st.game).flagscore st.k
                = [Output.scoreUpdate (draw m clk junk st.game).flagscore]
              ∨ report (draw m clk junk st.game).flagscore st.k
                = [Output.scoreUpdate (draw m clk junk st.game).flagscore, Output.youWon])
            ∧ (loopFrame m clk junk st).k = (draw m clk junk st.game).flagscore)
        ∧ (¬ (draw m clk junk st.game).flagscore > st.k →
            report (draw m clk junk st.game).flagscore st.k = []
            ∧ (loopFrame m clk junk st).k = st.k))
    ∧ (mainStart clk gravityvariable airvar).k = 0
    ∧ (mainRun m clk es (mainStart clk gravityvariable airvar)).k
        = (mainRun m clk es (mainStart clk gravityvariable airvar)).game.flagscore
    ∧ (∀ junk : Int,
        (mainRun m clk es (mainStart clk gravityvariable airvar)).game.flagscore
          < (draw m clk junk
              (mainRun m clk es (mainStart clk gravityvariable airvar)).game).flagscore →
        List.count
          (Output.scoreUpdate (draw m clk junk
            (mainRun m clk es (mainStart clk gravityvariable airvar)).game).flagscore)
          (report
            (draw m clk junk
              (mainRun m clk es (mainStart clk gravityvariable airvar)).game).flagscore
            (mainRun m clk es (mainStart clk gravityvariable airvar)).k) = 1)
    ∧ (∀ junk : Int,
        ¬ (mainRun m clk es (mainStart clk gravityvariable airvar)).game.flagscore
          < (draw m clk junk
              (mainRun m clk es (mainStart clk gravityvariable airvar)).game).flagscore →
        report
          (draw m clk junk
            (mainRun m clk es (mainStart clk gravityvariable airvar)).game).flagscore
          (mainRun m clk es (mainStart clk gravityvariable airvar)).k = []) := by
  obtain ⟨hk, -, -, -⟩ := mainRun_invariant m clk es _
    (mainStart_invariant clk gravityvariable airvar)
  generalize mainRun m clk es (mainStart clk gravityvariable airvar) = st at hk ⊢
  refine ⟨fun st0 junk => ?_, rfl, hk, fun junk hlt => ?_, fun junk hlt => ?_⟩
  · obtain ⟨-, e2, e3⟩ := loopFrame_fields m clk junk st0
    refine ⟨e2, fun hgt => ?_, fun hgt => ?_⟩
    · rw [e3, if_pos hgt]
      unfold report
      rw [if_pos hgt]
      split_ifs
      · exact ⟨Or.inr rfl, rfl⟩
      · exact ⟨Or.inl rfl, rfl⟩
    · rw [e3, if_neg hgt]
      unfold report
      rw [if_neg hgt]
      exact ⟨rfl, rfl⟩
  · rw [hk]
    unfold report
    rw [if_pos hlt]
    split_ifs <;> simp
  · rw [hk]
    unfold report
    rw [if_neg hlt]

/-- C16. The startup configuration accepts every pair of numbers: the gravity
selector gives `ay = -15` when it is 1 and `ay = -5` otherwise; the air
selector gives `ax = -1` when it is 1, `ax = -4` when it is 2 and `ax = -8`
otherwise; the main loop starts with these values. -/
theorem configure_accelerations (gravityvariable airvar : K) (s : Game K) (clk : ℕ → K) :
    ((configure gravityvariable airvar s).ay = if gravityvariable = 1 then -15 else -5)
    ∧ ((configure gravityvariable airvar s).ax
        = if airvar = 1 then -1 else if airvar = 2 then -4 else -8)
    ∧ (gravityvariable = 1 → (configure gravityvariable airvar s).ay = -15)
    ∧ (gravityvariable ≠ 1 → (configure gravityvariable airvar s).ay = -5)
    ∧ (airvar = 1 → (configure gravityvariable airvar s).ax = -1)
    ∧ (airvar = 2 → (configure gravityvariable airvar s).ax = -4)
    ∧ (airvar ≠ 1 → airvar ≠ 2 → (configure gravityvariable airvar s).ax = -8)
    ∧ (start clk gravityvariable airvar).ay = (if gravityvariable = 1 then -15 else -5)
    ∧ (start clk gravityvariable airvar).ax
        = (if airvar = 1 then -1 else if airvar = 2 then -4 else -8) := by
  have ha : ∀ r : Game K,
      (configure gravityvariable airvar r).ay = if gravityvariable = 1 then -15 else -5 := by
    intro r; simp only [configure]; split_ifs <;> rfl
  have hb : ∀ r : Game K, (configure gravityvariable airvar r).ax
      = if airvar = 1 then -1 else if airvar = 2 then -4 else -8 := by
    intro r; simp only [configure]; split_ifs <;> rfl
  refine ⟨ha s, hb s, fun h => ?_, fun h => ?_, fun h => ?_, fun h => ?_, fun h1 h2 => ?_,
    ha _, hb _⟩
  · rw [ha, if_pos h]
  · rw [ha, if_neg h]
  · rw [hb, if_pos h]
  · rw [hb, h]; norm_num
  · rw [hb, if_neg h1, if_neg h2]

/-- Counterexample to C17 as stated: the first frame from the initial state with
low air resistance changes `ax` from -1 to 0. -/
theorem draw_changes_ax :
    (start exampleClock 1 1).ax = -1
    ∧ (draw coarseLibm exampleClock 0 (start exampleClock 1 1)).ax = 0
    ∧ (draw coarseLibm exampleClock 0 (start exampleClock 1 1)).ax
        ≠ (start exampleClock 1 1).ax := by
  have h1 : (start exampleClock 1 1).ax = -1 := by
    simp [start, configure, initial]
  have hu : (start exampleClock 1 1).ux = 0 := by
    simp [start, configure, initial]
  have ht : (start exampleClock 1 1).t = 0 := by
    simp [start, configure, initial]
  have h2 : (draw coarseLibm exampleClock 0 (start exampleClock 1 1)).ax = 0 := by
    rw [(draw_accel coarseLibm exampleClock 0 _).2,
      drawTargets_ux_zero coarseLibm exampleClock _ hu, ht]
    norm_num
  refine ⟨h1, h2, ?_⟩
  rw [h1, h2]; norm_num

/-- C17, amended.  No frame and no callback changes `ay`.  No callback changes
`ax`; a frame sets `ax` to 0 when `vx = ux + ax*t`, computed after the hit
tests, is below 0.01, and leaves it unchanged otherwise.  Along a sequence of
events `ay` keeps its value and `ax` keeps its value or is 0. -/
theorem accelerations_after_startup (m : Libm K) (clk : ℕ → K) (s : Game K) :
    (∀ junk : Int, (draw m clk junk s).ay = s.ay
      ∧ (draw m clk junk s).ax
          = (if (drawTargets m clk s).ux + s.ax * s.t < 0.01 then 0 else s.ax)
      ∧ ((draw m clk junk s).ax = s.ax ∨ (draw m clk junk s).ax = 0))
    ∧ (∀ (key : Key) (action : Action), (keyboard m clk key action s).ax = s.ax
        ∧ (keyboard m clk key action s).ay = s.ay)
    ∧ (∀ (key : Char) (r : Game K), keyboardChar m key s = some r →
        r.ax = s.ax ∧ r.ay = s.ay)
    ∧ (∀ (button : Button) (action : Action), (mouseButton m clk button action s).ax = s.ax
        ∧ (mouseButton m clk button action s).ay = s.ay)
    ∧ (∀ yoffset : K, (scroll_callback yoffset s).ax = s.ax
        ∧ (scroll_callback yoffset s).ay = s.ay)
    ∧ (∀ es : List (Event K), (run m clk es s).ay = s.ay
        ∧ ((run m clk es s).ax = s.ax ∨ (run m clk es s).ax = 0)) := by
  refine ⟨fun junk => ?_, fun key action => env_fields _ _ (keyboard_env m clk key action s),
    fun key r hr => env_fields _ _ (keyboardChar_env m key s r hr),
    fun button action => env_fields _ _ (mouseButton_env m clk button action s),
    fun yoffset => env_fields _ _ (scroll_callback_env yoffset s),
    fun es => run_accel m clk es s⟩
  obtain ⟨h1, h2⟩ := draw_accel m clk junk s
  refine ⟨h1, h2, ?_⟩
  rw [h2]
  split_ifs
  · exact Or.inr rfl
  · exact Or.inl rfl

/-- C18. The aim controller does not test `bulletflag`.  In the example state,
in flight at `(0, 0)` with the DOWN key held since before the launch,
`cannonanglecheck` turns the cannon from 1 to 0 degrees and moves the projectile
to the muzzle `(-7, -4)`.  Such states occur: after an UP press followed by a
fire press and release, the projectile is in flight with `cannonrotflag = 1`.
In every state with `cannonrotflag = 1` and `cannon_rotation < 75`, in flight or
not, the controller sets `sx` and `sy` to the muzzle of the new angle. -/
theorem cannonanglecheck_moves_in_flight :
    (exampleHeldKey.bulletflag = 1 ∧ exampleHeldKey.sx = 0 ∧ exampleHeldKey.sy = 0)
    ∧ (cannonanglecheck coarseLibm exampleHeldKey).cannon_rotation = 0
    ∧ (cannonanglecheck coarseLibm exampleHeldKey).sx = -7
    ∧ (cannonanglecheck coarseLibm exampleHeldKey).sy = -4
    ∧ ((run coarseLibm exampleClock
          [Event.key Key.GLFW_KEY_UP Action.GLFW_PRESS,
           Event.key Key.GLFW_KEY_SPACE Action.GLFW_PRESS,
           Event.key Key.GLFW_KEY_SPACE Action.GLFW_RELEASE]
          (start exampleClock 1 1)).bulletflag = 1
      ∧ (run coarseLibm exampleClock
          [Event.key Key.GLFW_KEY_UP Action.GLFW_PRESS,
           Event.key Key.GLFW_KEY_SPACE Action.GLFW_PRESS,
           Event.key Key.GLFW_KEY_SPACE Action.GLFW_RELEASE]
          (start exampleClock 1 1)).cannonrotflag = 1)
    ∧ (∀ (m : Libm ℚ) (s : Game ℚ), s.cannonrotflag = 1 → s.cannon_rotation < 75 →
        (cannonanglecheck m s).sx = -9 + 2 * m.cos ((s.cannon_rotation + 1) * m.M_PI / 180)
        ∧ (cannonanglecheck m s).sy
            = -4 + 2 * m.sin ((s.cannon_rotation + 1) * m.M_PI / 180)) := by
  refine ⟨⟨rfl, rfl, rfl⟩, ?_, ?_, ?_, ?_, fun m s h1 h2 => ?_⟩
  · norm_num [cannonanglecheck, exampleHeldKey, start, configure, initial]
  · norm_num [cannonanglecheck, exampleHeldKey, start, configure, initial, coarseLibm]
  · norm_num [cannonanglecheck, exampleHeldKey, start, configure, initial, coarseLibm]
  · exact held_key_launch coarseLibm exampleClock _ (by rw [start_bulletflag]; decide)
  · unfold cannonanglecheck
    rw [if_pos ⟨h1, h2⟩]
    simp only [rad, h1]
    constructor <;> first | rfl | trivial

/-- C19. The reset key `r` and a press of the right mouse button do the same:
afterwards `bulletflag = 0` and the projectile is at the muzzle
`(-9 + 2*cos θ, -4 + 2*sin θ)`, with `θ` the cannon angle in radians, while the
score, the nine flags, the cannon angle, `ux` and `uy` are as before. -/
theorem reset_rehomes (m : Libm K) (clk : ℕ → K) (s : Game K) :
    keyboardChar m 'r' s
      = some (mouseButton m clk Button.GLFW_MOUSE_BUTTON_RIGHT Action.GLFW_PRESS s)
    ∧ (mouseButton m clk Button.GLFW_MOUSE_BUTTON_RIGHT Action.GLFW_PRESS s).bulletflag = 0
    ∧ (mouseButton m clk Button.GLFW_MOUSE_BUTTON_RIGHT Action.GLFW_PRESS s).sx
        = -9 + 2 * m.cos (s.cannon_rotation * m.M_PI / 180)
    ∧ (mouseButton m clk Button.GLFW_MOUSE_BUTTON_RIGHT Action.GLFW_PRESS s).sy
        = -4 + 2 * m.sin (s.cannon_rotation * m.M_PI / 180)
    ∧ (mouseButton m clk Button.GLFW_MOUSE_BUTTON_RIGHT Action.GLFW_PRESS s).flagscore
        = s.flagscore
    ∧ (∀ i : Target,
        i.flag (mouseButton m clk Button.GLFW_MOUSE_BUTTON_RIGHT Action.GLFW_PRESS s)
          = i.flag s)
    ∧ (mouseButton m clk Button.GLFW_MOUSE_BUTTON_RIGHT Action.GLFW_PRESS s).cannon_rotation
        = s.cannon_rotation
    ∧ (mouseButton m clk Button.GLFW_MOUSE_BUTTON_RIGHT Action.GLFW_PRESS s).ux = s.ux
    ∧ (mouseButton m clk Button.GLFW_MOUSE_BUTTON_RIGHT Action.GLFW_PRESS s).uy = s.uy := by
  refine ⟨?_, rfl, rfl, rfl, rfl, fun i => ?_, rfl, rfl, rfl⟩
  · simp [keyboardChar, mouseButton]
  · exact flag_congr i s _ (mouseButton_board m clk _ _ s)

/-- C20. For a whole cannon angle in `[-45, 75]` and a rate among `-1, 0, 1`,
the angle that `cannonanglecheck` leaves, testing the limit before it steps, is
the angle of the specified update that steps and then clamps:
`min 75 (max (-45) (angle + rate))`. -/
theorem guard_then_step_eq_clamp (m : Libm K) (s : Game K) (n : Int)
    (hn : s.cannon_rotation = (n : K)) (h1 : -45 ≤ n) (h2 : n ≤ 75)
    (hr : s.cannonrotflag = 1 ∨ s.cannonrotflag = 0 ∨ s.cannonrotflag = -1) :
    (cannonanglecheck m s).cannon_rotation = stepThenClamp s.cannon_rotation s.cannonrotflag
    ∧ stepThenClamp s.cannon_rotation s.cannonrotflag
        = min 75 (max (-45) (s.cannon_rotation + s.cannonrotflag)) :=
  ⟨cannonanglecheck_clamp m s n hn h1 h2 hr, rfl⟩

/-- Witness of C20: at the upper limit 75 with rate 1 the angle stays 75. -/
theorem guard_then_step_eq_clamp_witness :
    (cannonanglecheck coarseLibm
        { start exampleClock 1 1 with cannon_rotation := 75, cannonrotflag := 1 }).cannon_rotation
      = stepThenClamp 75 1 :=
  (guard_then_step_eq_clamp coarseLibm
    { start exampleClock 1 1 with cannon_rotation := 75, cannonrotflag := 1 } 75
    (by norm_num) (by norm_num) (by norm_num) (Or.inl rfl)).1

/-- C22. A frame in which no target test passes, no barrier hit is declared
(`mmm` is not 1) and the floor rule does not fire (`sy > -5.9` after the
integration step) leaves `ux`, `uy` and `last_update_time` as they were.  The
elapsed time `t` that the frame leaves is measured from that unchanged time
origin, and so is the `t` of the next frame when no target test passes in
it. -/
theorem quiet_frame_keeps_launch (m : Libm K) (clk : ℕ → K) (junk : Int) (s : Game K)
    (hm : ∀ i : Target, ¬ (i.inBox (i.before m clk s) ∧ i.flag (i.before m clk s) ≠ 1))
    (hb : (checkcollisionbarrier m
      (integrate (updateTime m clk (drawBarriers (drawTargets m clk s))))).getD junk ≠ 1)
    (hf : ¬ (integrate (updateTime m clk (drawBarriers (drawTargets m clk s)))).sy ≤ -5.9) :
    (draw m clk junk s).ux = s.ux
    ∧ (draw m clk junk s).uy = s.uy
    ∧ (draw m clk junk s).last_update_time = s.last_update_time
    ∧ (draw m clk junk s).t = ((draw m clk junk s).current_time - s.last_update_time) / 5
    ∧ (∀ junk2 : Int,
        (∀ i : Target, ¬ (i.inBox (i.before m clk (draw m clk junk s))
          ∧ i.flag (i.before m clk (draw m clk junk s)) ≠ 1)) →
        (draw m clk junk2 (draw m clk junk s)).t
          = ((draw m clk junk2 (draw m clk junk s)).current_time - s.last_update_time) / 5) := by
  have e1 := drawTargets_launch_of_miss m clk s hm
  have e2 : (draw m clk junk s).launch = s.launch :=
    (drawMotion_launch_of_quiet m clk junk _ hb hf).trans e1
  obtain ⟨a1, a2, a3⟩ := launch_fields _ _ e2
  refine ⟨a1, a2, a3, ?_, fun junk2 hm2 => ?_⟩
  · rw [draw_clock, (launch_fields _ _ e1).2.2]
  · rw [draw_clock, (launch_fields _ _ (drawTargets_launch_of_miss m clk _ hm2)).2.2, a3]

/-- Witness of C22: the frame that starts in the cruising example state, in
flight at `(0, 5)` with `ux = 4`. -/
theorem quiet_frame_keeps_launch_witness :
    (draw coarseLibm exampleClock 0 exampleCruise).ux = exampleCruise.ux
    ∧ (draw coarseLibm exampleClock 0 exampleCruise).uy = exampleCruise.uy
    ∧ (draw coarseLibm exampleClock 0 exampleCruise).last_update_time
        = exampleCruise.last_update_time :=
  have h := quiet_frame_keeps_launch coarseLibm exampleClock 0 exampleCruise
    (before_miss_of_miss coarseLibm exampleClock exampleCruise exampleCruise_aimIdle
      exampleCruise_miss)
    exampleCruise_quiet.1 exampleCruise_quiet.2
  ⟨h.1, h.2.1, h.2.2.1⟩

/-- C23. The nine target tests run one after the other in the order triangle,
square1, square2, square3, square4, square5, rectangle1, rectangle2, rectangle3,
each on the state that the tests before it leave.  In a frame that starts with
the aim rate 0, `flagsquare3 = flagsquare4 = 0` and the projectile inside both
boxes (`|sx - 6| ≤ 1.1` and `-1.4 ≤ sy ≤ -1.2`), the test of `square3` passes,
the test of `square4` passes in the state that the hit on `square3` leaves, and
no other test passes: the frame sets both flags and adds exactly 10 to the
score. -/
theorem overlap_destroys_both (m : Libm K) (clk : ℕ → K) (junk : Int) (s : Game K)
    (hr : s.cannonrotflag = 0) (h3 : s.flagsquare3 = 0) (h4 : s.flagsquare4 = 0)
    (hx : |s.sx - 6| ≤ 1.1) (hy1 : -1.4 ≤ s.sy) (hy2 : s.sy ≤ -1.2) :
    (draw m clk junk s).flagsquare3 = 1
    ∧ (draw m clk junk s).flagsquare4 = 1
    ∧ (draw m clk junk s).flagscore = s.flagscore + 10
    ∧ Target.square3.inBox (Target.square3.before m clk s)
    ∧ Target.square4.inBox (Target.square3.hit clk (Target.square3.before m clk s))
    ∧ Target.square3.added m clk s = 5
    ∧ Target.square4.added m clk s = 5
    ∧ (∀ i : Target, i ≠ Target.square3 → i ≠ Target.square4 →
        i.added m clk s = 0 ∧ i.flag (draw m clk junk s) = i.flag s)
    ∧ draw m clk junk s
        = drawMotion m clk junk (hitRectangle3 clk (hitRectangle2 clk (hitRectangle1 clk
            (spinSquare5 (hitSquare5 clk (hitSquare4 clk (hitSquare3 clk (hitSquare2 clk
              (hitSquare1 clk (drawCannon m (hitTriangle clk
                { s with rendered := [] }))))))))))) := by
  obtain ⟨hmiss, b3, b4⟩ := overlap_tests m clk s hr h3 h4 hx hy1 hy2
  have f3 : Target.square3.flag s ≠ 1 := by
    show s.flagsquare3 ≠ 1
    rw [h3]; decide
  have f4 : Target.square4.flag s ≠ 1 := by
    show s.flagsquare4 ≠ 1
    rw [h4]; decide
  have a3 : Target.square3.added m clk s = 5 := added_pos m clk _ s b3 f3
  have a4 : Target.square4.added m clk s = 5 := added_pos m clk _ s b4 f4
  have a0 := added_neg m clk _ s (hmiss Target.triangle (by decide) (by decide))
  have a1 := added_neg m clk _ s (hmiss Target.square1 (by decide) (by decide))
  have a2 := added_neg m clk _ s (hmiss Target.square2 (by decide) (by decide))
  have a5 := added_neg m clk _ s (hmiss Target.square5 (by decide) (by decide))
  have a6 := added_neg m clk _ s (hmiss Target.rectangle1 (by decide) (by decide))
  have a7 := added_neg m clk _ s (hmiss Target.rectangle2 (by decide) (by decide))
  have a8 := added_neg m clk _ s (hmiss Target.rectangle3 (by decide) (by decide))
  refine ⟨draw_flag_pos m clk junk Target.square3 s b3 f3,
    draw_flag_pos m clk junk Target.square4 s b4 f4, ?_, b3, b4, a3, a4,
    fun i n3 n4 => ⟨added_neg m clk i s (hmiss i n3 n4),
      draw_flag_neg m clk junk i s (hmiss i n3 n4)⟩, rfl⟩
  rw [draw_flagscore, a0, a1, a2, a3, a4, a5, a6, a7, a8]
  norm_num

/-- Witness of C23: the frame that starts in the example state at `(6, -1.3)`. -/
theorem overlap_destroys_both_witness :
    (draw coarseLibm exampleClock 0 exampleOverlap).flagsquare3 = 1
    ∧ (draw coarseLibm exampleClock 0 exampleOverlap).flagsquare4 = 1
    ∧ (draw coarseLibm exampleClock 0 exampleOverlap).flagscore
        = exampleOverlap.flagscore + 10 :=
  have h := overlap_destroys_both coarseLibm exampleClock 0 exampleOverlap
    (by simp [exampleOverlap, start, configure, initial])
    (by simp [exampleOverlap, start, configure, initial])
    (by simp [exampleOverlap, start, configure, initial])
    (by show |(6 : ℚ) - 6| ≤ 1.1; norm_num)
    (by show (-1.4 : ℚ) ≤ -1.3; norm_num)
    (by show (-1.3 : ℚ) ≤ -1.2; norm_num)
  ⟨h.1, h.2.1, h.2.2.1⟩

/-- C24. The loop of `main` starts with a frame.  Whatever the two selectors
are, the state in which the loop starts has `ux = 0` and `t = 0`, so the first
frame finds `vx = ux + ax*t < 0.01` and sets `ax` to 0 in its velocity update,
before its integration step; `ax` is 0 after the first frame and in every state
reached later.  The air-resistance selector has no effect: the state after the
first frame, and so after every run of the loop, is the same for every value of
the selector. -/
theorem air_resistance_cut_off (m : Libm K) (clk : ℕ → K) (gravityvariable airvar : K)
    (junk : Int) (es : List (Event K)) :
    ((start clk gravityvariable airvar).ux = 0 ∧ (start clk gravityvariable airvar).t = 0)
    ∧ (updateTime m clk (drawBarriers (drawTargets m clk
        (start clk gravityvariable airvar)))).ax = 0
    ∧ (draw m clk junk (start clk gravityvariable airvar)).ax = 0
    ∧ (run m clk (Event.frame junk :: es) (start clk gravityvariable airvar)).ax = 0
    ∧ (∀ other : K, draw m clk junk (start clk gravityvariable airvar)
        = draw m clk junk (start clk gravityvariable other))
    ∧ (∀ other : K, run m clk (Event.frame junk :: es) (start clk gravityvariable airvar)
        = run m clk (Event.frame junk :: es) (start clk gravityvariable other)) := by
  refine ⟨start_still clk gravityvariable airvar, first_frame_vx m clk gravityvariable airvar,
    first_frame_ax m clk junk gravityvariable airvar, ?_,
    fun other => first_frame_forgets_airvar m clk junk gravityvariable airvar other,
    fun other => ?_⟩
  · rw [run_frame_cons]
    exact run_ax_zero m clk es _ (first_frame_ax m clk junk gravityvariable airvar)
  · rw [run_frame_cons, run_frame_cons,
      first_frame_forgets_airvar m clk junk gravityvariable airvar other]

/-- C25. In every state reached from the initial state by frames and inputs,
`flagscore > 90` holds exactly when the flags of all nine targets are 1.  With
all nine flags at 1 the score is the sum 92 of the nine point values; a target
whose flag is not 1 leaves the score at most 92 less its points, which is at
most 89 because every target is worth 3 or more. -/
theorem won_iff_all_destroyed (m : Libm K) (clk : ℕ → K) (gravityvariable airvar : K)
    (es : List (Event K)) :
    ((run m clk es (start clk gravityvariable airvar)).flagscore > 90
      ↔ ∀ i : Target, i.flag (run m clk es (start clk gravityvariable airvar)) = 1)
    ∧ ((∀ i : Target, i.flag (run m clk es (start clk gravityvariable airvar)) = 1) →
        (run m clk es (start clk gravityvariable airvar)).flagscore = 92)
    ∧ (∀ i : Target, i.flag (run m clk es (start clk gravityvariable airvar)) ≠ 1 →
        (run m clk es (start clk gravityvariable airvar)).flagscore ≤ 92 - i.points
        ∧ (run m clk es (start clk gravityvariable airvar)).flagscore ≤ 89)
    ∧ Target.triangle.points + Target.square1.points + Target.square2.points
        + Target.square3.points + Target.square4.points + Target.square5.points
        + Target.rectangle1.points + Target.rectangle2.points + Target.rectangle3.points = 92
    ∧ (∀ i : Target, 92 - i.points ≤ 89) := by
  have hok := run_scoreOk m clk es _ (start_scoreOk clk gravityvariable airvar)
  refine ⟨⟨fun h i => scoreOk_all_destroyed _ hok h i, fun h => ?_⟩,
    fun h => scoreOk_of_all _ hok h, fun i hi => ?_, rfl, fun i => ?_⟩
  · rw [scoreOk_of_all _ hok h]; decide
  · have h1 := scoreOk_of_standing _ hok i hi
    have h2 := points_ge_three i
    exact ⟨h1, by omega⟩
  · have h2 := points_ge_three i
    omega

/-- C26. In every state reached from the initial state by frames and inputs,
`flagscore` is the sum of the point values of the targets whose flag is 1
(triangle 25, square1 10, square2 10, square3 5, square4 5, square5 20,
rectangle1 3, rectangle2 7, rectangle3 7), and so lies between 0 and 92. -/
theorem flagscore_is_sum_of_destroyed (m : Libm K) (clk : ℕ → K) (gravityvariable airvar : K)
    (es : List (Event K)) :
    (run m clk es (start clk gravityvariable airvar)).flagscore
      = (if (run m clk es (start clk gravityvariable airvar)).flagtriangle = 1 then 25 else 0)
        + (if (run m clk es (start clk gravityvariable airvar)).flagsquare1 = 1 then 10 else 0)
        + (if (run m clk es (start clk gravityvariable airvar)).flagsquare2 = 1 then 10 else 0)
        + (if (run m clk es (start clk gravityvariable airvar)).flagsquare3 = 1 then 5 else 0)
        + (if (run m clk es (start clk gravityvariable airvar)).flagsquare4 = 1 then 5 else 0)
        + (if (run m clk es (start clk gravityvariable airvar)).flagsquare5 = 1 then 20 else 0)
        + (if (run m clk es (start clk gravityvariable airvar)).flagrectangle1 = 1 then 3 else 0)
        + (if (run m clk es (start clk gravityvariable airvar)).flagrectangle2 = 1 then 7 else 0)
        + (if (run m clk es (start clk gravityvariable airvar)).flagrectangle3 = 1 then 7 else 0)
    ∧ 0 ≤ (run m clk es (start clk gravityvariable airvar)).flagscore
    ∧ (run m clk es (start clk gravityvariable airvar)).flagscore ≤ 92 := by
  have hok := run_scoreOk m clk es _ (start_scoreOk clk gravityvariable airvar)
  exact ⟨hok, scoreOk_range _ hok⟩

/-- C27. When the box test of `triangle` passes (`|sx - 6| ≤ 0.7` and
`|sy + 5| ≤ 0.9`) with the flag not yet 1, neither edge test of the hit branch
(`sx < 5.3`, `sy > -4.1`) can pass: the hit adds 25 to the score, sets the flag,
runs `resetprojectile` (so `last_update_time` is the clock read) and does nothing
else; `sx`, `sy`, `ux` and `uy` stay as they were. -/
theorem triangle_hit_never_deflects (clk : ℕ → K) (s : Game K)
    (hx : |s.sx - 6| ≤ 0.7) (hy : |s.sy + 5| ≤ 0.9) (hf : s.flagtriangle ≠ 1) :
    ¬ s.sx < 5.3 ∧ ¬ s.sy > -4.1
    ∧ hitTriangle clk s
        = resetprojectile clk { s with flagscore := s.flagscore + 25, flagtriangle := 1 }
    ∧ (hitTriangle clk s).flagscore = s.flagscore + 25
    ∧ (hitTriangle clk s).flagtriangle = 1
    ∧ (hitTriangle clk s).last_update_time = clk s.reads
    ∧ (hitTriangle clk s).sx = s.sx ∧ (hitTriangle clk s).sy = s.sy
    ∧ (hitTriangle clk s).ux = s.ux ∧ (hitTriangle clk s).uy = s.uy := by
  have h1 : ¬ s.sx < 5.3 := by
    have := (abs_le.mp hx).1
    intro hc
    norm_num at this hc
    linarith
  have h2 : ¬ s.sy > -4.1 := by
    have := (abs_le.mp hy).2
    intro hc
    norm_num at this hc
    linarith
  rw [hitTriangle_eq clk s hx hy hf]
  exact ⟨h1, h2, rfl, rfl, rfl, rfl, rfl, rfl, rfl, rfl⟩

/-- Witness of C27: the hit on the triangle at the centre of its box. -/
theorem triangle_hit_never_deflects_witness :
    (hitTriangle exampleClock exampleOnTriangle).flagscore = 25
    ∧ (hitTriangle exampleClock exampleOnTriangle).ux = 4
    ∧ (hitTriangle exampleClock exampleOnTriangle).uy = -2 :=
  have h := triangle_hit_never_deflects exampleClock exampleOnTriangle
    (by show |(6 : ℚ) - 6| ≤ 0.7; norm_num) (by show |(-5 : ℚ) + 5| ≤ 0.9; norm_num)
    (by show (0 : Int) ≠ 1; decide)
  ⟨h.2.2.2.1, h.2.2.2.2.2.2.2.2.1, h.2.2.2.2.2.2.2.2.2⟩

/-- Counterexample to C29 as stated.  In the run of `aa.cpp` with `squareClock`
the state after the first frame, a shot and the next frame has the projectile
in flight (`bulletflag = 1`) with `ux = 60`, `uy = 36` and
`last_update_time = 9`; a SPACE press followed by a SPACE release in that state
leaves `ux = 140`, `uy = 84` and `last_update_time = 49`. -/
theorem aa_fire_in_flight_counterexample :
    Aa.exampleShot.bulletflag = 1
    ∧ Aa.exampleShot.ux = 60 ∧ Aa.exampleShot.uy = 36 ∧ Aa.exampleShot.last_update_time = 9
    ∧ (Aa.keyboard squareClock Key.GLFW_KEY_SPACE Action.GLFW_RELEASE
        (Aa.keyboard squareClock Key.GLFW_KEY_SPACE Action.GLFW_PRESS Aa.exampleShot)).ux = 140
    ∧ (Aa.keyboard squareClock Key.GLFW_KEY_SPACE Action.GLFW_RELEASE
        (Aa.keyboard squareClock Key.GLFW_KEY_SPACE Action.GLFW_PRESS Aa.exampleShot)).uy = 84
    ∧ (Aa.keyboard squareClock Key.GLFW_KEY_SPACE Action.GLFW_RELEASE
        (Aa.keyboard squareClock Key.GLFW_KEY_SPACE Action.GLFW_PRESS
          Aa.exampleShot)).last_update_time = 49 := by
  obtain ⟨e1, e2, e3, e4, e5⟩ := aa_exampleShot_fields
  obtain ⟨h1, h2, h3, -⟩ := aa_keyboard_refire squareClock Aa.exampleShot
  refine ⟨e1, e2, e3, e4, ?_, ?_, ?_⟩
  · rw [h2, e5]; norm_num [squareClock]
  · rw [h3, e5]; norm_num [squareClock]
  · rw [h1, e5]; norm_num [squareClock]

/-- C29, amended.  The `keyboard` of `aa.cpp` does not test `bulletflag`: in
every state, in flight or not, a SPACE press followed by a SPACE release is a
launch.  It sets `bulletflag` to 1, `last_update_time` to the first clock read
of the release, and `ux` and `uy` to 5 and 3 times the charge time, which is
the time between the read of the press and the second read of the release. -/
theorem aa_fire_relaunches (clk : ℕ → K) (s : Aa.Game K) :
    (Aa.keyboard clk Key.GLFW_KEY_SPACE Action.GLFW_RELEASE
      (Aa.keyboard clk Key.GLFW_KEY_SPACE Action.GLFW_PRESS s)).bulletflag = 1
    ∧ (Aa.keyboard clk Key.GLFW_KEY_SPACE Action.GLFW_RELEASE
      (Aa.keyboard clk Key.GLFW_KEY_SPACE Action.GLFW_PRESS s)).last_update_time
        = clk (s.reads + 1)
    ∧ (Aa.keyboard clk Key.GLFW_KEY_SPACE Action.GLFW_RELEASE
      (Aa.keyboard clk Key.GLFW_KEY_SPACE Action.GLFW_PRESS s)).powertimestart = clk s.reads
    ∧ (Aa.keyboard clk Key.GLFW_KEY_SPACE Action.GLFW_RELEASE
      (Aa.keyboard clk Key.GLFW_KEY_SPACE Action.GLFW_PRESS s)).powertimeend
        = clk (s.reads + 2)
    ∧ (Aa.keyboard clk Key.GLFW_KEY_SPACE Action.GLFW_RELEASE
      (Aa.keyboard clk Key.GLFW_KEY_SPACE Action.GLFW_PRESS s)).ux
        = (clk (s.reads + 2) - clk s.reads) * 5
    ∧ (Aa.keyboard clk Key.GLFW_KEY_SPACE Action.GLFW_RELEASE
      (Aa.keyboard clk Key.GLFW_KEY_SPACE Action.GLFW_PRESS s)).uy
        = (clk (s.reads + 2) - clk s.reads) * 3 :=
  ⟨rfl, rfl, rfl, rfl, rfl, rfl⟩

end Claims

section RealClaims

/-- C10. Over the reals, `checkcollisionbarrier` returns 1 exactly when, for
one and the same barrier, the point `(sx, sy)` is within 0.3 of the line of
slope `tan` of the barrier angle through the pivot of the barrier and within 1.5
of that pivot, the pivots being `(-1, 3)` and `(-1, -3)`; in every other state
it returns no value.  A point far from both pivots is no hit, and neither is a
point near the line of one barrier and near the pivot of the other only. -/
theorem checkcollisionbarrier_hit_iff (s : Game ℝ) :
    (checkcollisionbarrier (Libm.mk Real.cos Real.sin Real.tan Real.sqrt Real.pi) s = some 1
      ↔ (nearLine (Libm.mk Real.cos Real.sin Real.tan Real.sqrt Real.pi) (-1) 3 (Real.tan (s.barrier1_rotation * Real.pi / 180)) 0.3 s.sx s.sy
          ∧ nearPoint (Libm.mk Real.cos Real.sin Real.tan Real.sqrt Real.pi) (-1) 3 1.5 s.sx s.sy)
        ∨ (nearLine (Libm.mk Real.cos Real.sin Real.tan Real.sqrt Real.pi) (-1) (-3) (Real.tan (s.barrier2_rotation * Real.pi / 180)) 0.3
              s.sx s.sy
          ∧ nearPoint (Libm.mk Real.cos Real.sin Real.tan Real.sqrt Real.pi) (-1) (-3) 1.5 s.sx s.sy))
    ∧ (checkcollisionbarrier (Libm.mk Real.cos Real.sin Real.tan Real.sqrt Real.pi) s = some 1 ∨ checkcollisionbarrier (Libm.mk Real.cos Real.sin Real.tan Real.sqrt Real.pi) s = none)
    ∧ (¬ nearPoint (Libm.mk Real.cos Real.sin Real.tan Real.sqrt Real.pi) (-1) 3 1.5 s.sx s.sy → ¬ nearPoint (Libm.mk Real.cos Real.sin Real.tan Real.sqrt Real.pi) (-1) (-3) 1.5 s.sx s.sy →
        checkcollisionbarrier (Libm.mk Real.cos Real.sin Real.tan Real.sqrt Real.pi) s ≠ some 1)
    ∧ (¬ nearPoint (Libm.mk Real.cos Real.sin Real.tan Real.sqrt Real.pi) (-1) 3 1.5 s.sx s.sy →
        ¬ nearLine (Libm.mk Real.cos Real.sin Real.tan Real.sqrt Real.pi) (-1) (-3) (Real.tan (s.barrier2_rotation * Real.pi / 180)) 0.3
            s.sx s.sy →
        checkcollisionbarrier (Libm.mk Real.cos Real.sin Real.tan Real.sqrt Real.pi) s ≠ some 1)
    ∧ (¬ nearLine (Libm.mk Real.cos Real.sin Real.tan Real.sqrt Real.pi) (-1) 3 (Real.tan (s.barrier1_rotation * Real.pi / 180)) 0.3 s.sx s.sy →
        ¬ nearPoint (Libm.mk Real.cos Real.sin Real.tan Real.sqrt Real.pi) (-1) (-3) 1.5 s.sx s.sy →
        checkcollisionbarrier (Libm.mk Real.cos Real.sin Real.tan Real.sqrt Real.pi) s ≠ some 1) := by
  have hcond := or_congr
    (and_congr (barrier1_line (Real.tan (s.barrier1_rotation * Real.pi / 180)) s.sx s.sy)
      (barrier1_pivot s.sx s.sy))
    (and_congr (barrier2_line (Real.tan (s.barrier2_rotation * Real.pi / 180)) s.sx s.sy)
      (barrier2_pivot s.sx s.sy))
  have key : checkcollisionbarrier (Libm.mk Real.cos Real.sin Real.tan Real.sqrt Real.pi) s = some 1
      ↔ (nearLine (Libm.mk Real.cos Real.sin Real.tan Real.sqrt Real.pi) (-1) 3 (Real.tan (s.barrier1_rotation * Real.pi / 180)) 0.3 s.sx s.sy
          ∧ nearPoint (Libm.mk Real.cos Real.sin Real.tan Real.sqrt Real.pi) (-1) 3 1.5 s.sx s.sy)
        ∨ (nearLine (Libm.mk Real.cos Real.sin Real.tan Real.sqrt Real.pi) (-1) (-3) (Real.tan (s.barrier2_rotation * Real.pi / 180)) 0.3
              s.sx s.sy
          ∧ nearPoint (Libm.mk Real.cos Real.sin Real.tan Real.sqrt Real.pi) (-1) (-3) 1.5 s.sx s.sy) := by
    simp only [checkcollisionbarrier]
    split_ifs with hc
    · exact iff_of_true rfl (hcond.mp hc)
    · exact iff_of_false (fun h => by cases h) (fun h => hc (hcond.mpr h))
  refine ⟨key, ?_, fun h1 h2 hh => ?_, fun h1 h2 hh => ?_, fun h1 h2 hh => ?_⟩
  · simp only [checkcollisionbarrier]
    split_ifs
    · exact Or.inl rfl
    · exact Or.inr rfl
  · rcases key.mp hh with h | h
    · exact h1 h.2
    · exact h2 h.2
  · rcases key.mp hh with h | h
    · exact h1 h.2
    · exact h2 h.1
  · rcases key.mp hh with h | h
    · exact h1 h.1
    · exact h2 h.2

/-- C21. Over the reals, along every sequence of frames and inputs from the
initial state in which no frame receives 1 as the indeterminate value of `mmm`
(the value that `checkcollisionbarrier` leaves when it reaches the end of its
body without a `return`), a projectile that is not in flight (`bulletflag = 0`)
is at the muzzle `(-9 + 2*cos θ, -4 + 2*sin θ)`, with `θ` the cannon angle in
radians.  The barrier response does not test `bulletflag`: in the first frame
from the initial state no barrier test passes, and when `mmm` is 1 all the same
the frame moves the projectile at rest from `sx = -7` to `sx = -7.3`, off the
muzzle of the angle 0. -/
theorem rest_at_muzzle_unless_stray_hit (clk : ℕ → ℝ) (gravityvariable airvar : ℝ) :
    (checkcollisionbarrier (Libm.mk Real.cos Real.sin Real.tan Real.sqrt Real.pi)
        (integrate (updateTime (Libm.mk Real.cos Real.sin Real.tan Real.sqrt Real.pi) clk
          (drawBarriers (drawTargets (Libm.mk Real.cos Real.sin Real.tan Real.sqrt Real.pi) clk
            (start clk gravityvariable airvar))))) = none
      ∧ (draw (Libm.mk Real.cos Real.sin Real.tan Real.sqrt Real.pi) clk 1
          (start clk gravityvariable airvar)).bulletflag = 0
      ∧ (draw (Libm.mk Real.cos Real.sin Real.tan Real.sqrt Real.pi) clk 1
          (start clk gravityvariable airvar)).cannon_rotation = 0
      ∧ (draw (Libm.mk Real.cos Real.sin Real.tan Real.sqrt Real.pi) clk 1
          (start clk gravityvariable airvar)).sx = -7.3
      ∧ ¬ (draw (Libm.mk Real.cos Real.sin Real.tan Real.sqrt Real.pi) clk 1
          (start clk gravityvariable airvar)).atMuzzle
            (Libm.mk Real.cos Real.sin Real.tan Real.sqrt Real.pi))
    ∧ (∀ es : List (Event ℝ), Event.frame 1 ∉ es →
        (run (Libm.mk Real.cos Real.sin Real.tan Real.sqrt Real.pi) clk es
          (start clk gravityvariable airvar)).bulletflag = 0 →
        (run (Libm.mk Real.cos Real.sin Real.tan Real.sqrt Real.pi) clk es
          (start clk gravityvariable airvar)).atMuzzle
            (Libm.mk Real.cos Real.sin Real.tan Real.sqrt Real.pi)) := by
  have e1 : (start clk gravityvariable airvar).sx = -7 := by
    simp only [start, configure]; split_ifs <;> rfl
  have e2 : (start clk gravityvariable airvar).sy = -4 := by
    simp only [start, configure]; split_ifs <;> rfl
  have e3 : (start clk gravityvariable airvar).cannon_rotation = 0 := by
    simp only [start, configure]; split_ifs <;> rfl
  have e4 : (start clk gravityvariable airvar).resetbulletflag = 0 := by
    simp only [start, configure]; split_ifs <;> rfl
  have hx : (start clk gravityvariable airvar).sx ≤ -7 := by rw [e1]
  have hy : ¬ (start clk gravityvariable airvar).sy ≤ -5.9 := by rw [e2]; norm_num
  obtain ⟨d1, d2, d3⟩ := draw_rest_stray
    (Libm.mk Real.cos Real.sin Real.tan Real.sqrt Real.pi) clk
    (start clk gravityvariable airvar) checkcollisionbarrier_far
    (start_aimIdle clk gravityvariable airvar) (start_bulletflag clk gravityvariable airvar)
    e4 hx hy
  have hsx : (draw (Libm.mk Real.cos Real.sin Real.tan Real.sqrt Real.pi) clk 1
      (start clk gravityvariable airvar)).sx = -7.3 := by
    rw [d1, e1]; norm_num
  refine ⟨⟨?_, d2, d3.trans e3, hsx, ?_⟩, fun es hes hb => ?_⟩
  · apply checkcollisionbarrier_far
    have hcore := midframe_core_congr (Libm.mk Real.cos Real.sin Real.tan Real.sqrt Real.pi)
      clk _ (start clk gravityvariable airvar)
      (drawTargets_core_of_miss (Libm.mk Real.cos Real.sin Real.tan Real.sqrt Real.pi) clk
        (start clk gravityvariable airvar) (start_aimIdle clk gravityvariable airvar)
        (far_miss _ hx))
    rw [(core_fields _ _ hcore).2.2.1,
      (midframe_rest (Libm.mk Real.cos Real.sin Real.tan Real.sqrt Real.pi) clk
        (start clk gravityvariable airvar)
        (by rw [start_bulletflag]; decide) (by rw [e4]; decide)).1]
    exact hx
  · intro hm
    have h1 := hm.1
    rw [hsx, d3, e3] at h1
    simp [rad] at h1
    norm_num at h1
  · exact (run_restOk (Libm.mk Real.cos Real.sin Real.tan Real.sqrt Real.pi) clk
      checkcollisionbarrier_far muzzle_bounds es _ hes
      (start_angleOk clk gravityvariable airvar)
      (start_restOk clk gravityvariable airvar)).2 hb

/-- Witness of C21: after an UP press and a frame whose indeterminate value is
0, the projectile at rest is at the muzzle of the new cannon angle. -/
theorem rest_at_muzzle_unless_stray_hit_witness :
    (run (Libm.mk Real.cos Real.sin Real.tan Real.sqrt Real.pi) (fun n => (n : ℝ))
      [Event.key Key.GLFW_KEY_UP Action.GLFW_PRESS, Event.frame 0]
      (start (fun n => (n : ℝ)) 1 1)).atMuzzle
        (Libm.mk Real.cos Real.sin Real.tan Real.sqrt Real.pi) :=
  (rest_at_muzzle_unless_stray_hit (fun n => (n : ℝ)) 1 1).2
    [Event.key Key.GLFW_KEY_UP Action.GLFW_PRESS, Event.frame 0] (by simp)
    (aim_then_frame_bulletflag _ _ 0 1 1)

/-- C28. Over the reals, in every state in which `checkcollisionbarrier`
returns 1, `sy` lies in one of the four y-bands of the response: the response
adds 0.5 to `uy` when `3 ≤ sy ≤ 4.5` or `-3 ≤ sy ≤ -1.5` (at or above the height
of the pivot of the barrier that was hit) and subtracts 0.5 when `1.5 ≤ sy < 3`
or `-4.5 ≤ sy < -3` (below it).  So `uy` changes by exactly 0.5 up or down and
never stays as it was, and the floor rule that follows in the frame does not
fire. -/
theorem barrier_hit_uy_bands (clk : ℕ → ℝ) (junk : Int) (s : Game ℝ)
    (h : checkcollisionbarrier (Libm.mk Real.cos Real.sin Real.tan Real.sqrt Real.pi) s = some 1) :
    ((3 ≤ s.sy ∧ s.sy ≤ 4.5) ∨ (-3 ≤ s.sy ∧ s.sy ≤ -1.5) ∨ (1.5 ≤ s.sy ∧ s.sy < 3)
      ∨ (-4.5 ≤ s.sy ∧ s.sy < -3))
    ∧ ((3 ≤ s.sy ∧ s.sy ≤ 4.5) ∨ (-3 ≤ s.sy ∧ s.sy ≤ -1.5) →
        (barrierResponse (Libm.mk Real.cos Real.sin Real.tan Real.sqrt Real.pi) clk junk s).uy
          = s.uy + 0.5)
    ∧ ((1.5 ≤ s.sy ∧ s.sy < 3) ∨ (-4.5 ≤ s.sy ∧ s.sy < -3) →
        (barrierResponse (Libm.mk Real.cos Real.sin Real.tan Real.sqrt Real.pi) clk junk s).uy
          = s.uy - 0.5)
    ∧ ((barrierResponse (Libm.mk Real.cos Real.sin Real.tan Real.sqrt Real.pi) clk junk s).uy
          = s.uy + 0.5
        ∨ (barrierResponse (Libm.mk Real.cos Real.sin Real.tan Real.sqrt Real.pi) clk junk s).uy
          = s.uy - 0.5)
    ∧ (barrierResponse (Libm.mk Real.cos Real.sin Real.tan Real.sqrt Real.pi) clk junk s).uy
        ≠ s.uy
    ∧ floorRule clk
        (barrierResponse (Libm.mk Real.cos Real.sin Real.tan Real.sqrt Real.pi) clk junk s)
      = barrierResponse (Libm.mk Real.cos Real.sin Real.tan Real.sqrt Real.pi) clk junk s := by
  have hd : (checkcollisionbarrier (Libm.mk Real.cos Real.sin Real.tan Real.sqrt Real.pi)
      s).getD junk = 1 := by rw [h]; rfl
  have hu := barrierResponse_uy (Libm.mk Real.cos Real.sin Real.tan Real.sqrt Real.pi)
    clk junk s hd
  have hy := (barrierResponse_hit (Libm.mk Real.cos Real.sin Real.tan Real.sqrt Real.pi)
    clk junk s hd).2.2.2
  have hb := hit_region_bands s h
  have up : (3 ≤ s.sy ∧ s.sy ≤ 4.5) ∨ (-3 ≤ s.sy ∧ s.sy ≤ -1.5) →
      (barrierResponse (Libm.mk Real.cos Real.sin Real.tan Real.sqrt Real.pi) clk junk s).uy
        = s.uy + 0.5 := by
    intro hband
    rw [hu, if_pos]
    rcases hband with hband | hband
    · exact Or.inr ⟨hband.1, hband.2⟩
    · exact Or.inl ⟨hband.1, hband.2⟩
  have down : (1.5 ≤ s.sy ∧ s.sy < 3) ∨ (-4.5 ≤ s.sy ∧ s.sy < -3) →
      (barrierResponse (Libm.mk Real.cos Real.sin Real.tan Real.sqrt Real.pi) clk junk s).uy
        = s.uy - 0.5 := by
    intro hband
    rw [hu, if_neg, if_pos]
    · rcases hband with hband | hband
      · exact Or.inr ⟨hband.2, hband.1⟩
      · exact Or.inl ⟨hband.2, hband.1⟩
    · rintro (hc | hc) <;> rcases hband with hband | hband <;> norm_num at hc hband <;> linarith
  have bands : (3 ≤ s.sy ∧ s.sy ≤ 4.5) ∨ (-3 ≤ s.sy ∧ s.sy ≤ -1.5) ∨ (1.5 ≤ s.sy ∧ s.sy < 3)
      ∨ (-4.5 ≤ s.sy ∧ s.sy < -3) := by
    rcases hb with hb | hb
    · by_cases h3 : 3 ≤ s.sy
      · exact Or.inl ⟨h3, hb.2⟩
      · exact Or.inr (Or.inr (Or.inl ⟨hb.1, not_le.mp h3⟩))
    · by_cases h3 : -3 ≤ s.sy
      · exact Or.inr (Or.inl ⟨h3, hb.2⟩)
      · exact Or.inr (Or.inr (Or.inr ⟨hb.1, not_le.mp h3⟩))
  have cases2 : (barrierResponse (Libm.mk Real.cos Real.sin Real.tan Real.sqrt Real.pi)
        clk junk s).uy = s.uy + 0.5
      ∨ (barrierResponse (Libm.mk Real.cos Real.sin Real.tan Real.sqrt Real.pi) clk junk s).uy
        = s.uy - 0.5 := by
    rcases bands with b | b | b | b
    · exact Or.inl (up (Or.inl b))
    · exact Or.inl (up (Or.inr b))
    · exact Or.inr (down (Or.inl b))
    · exact Or.inr (down (Or.inr b))
  refine ⟨bands, up, down, cases2, ?_, ?_⟩
  · rcases cases2 with e | e <;> rw [e] <;> intro hc <;> norm_num at hc
  · unfold floorRule
    rw [if_neg]
    rw [hy]
    intro hc
    rcases hb with hb | hb <;> norm_num at hb hc <;> linarith

/-- Witness of C28: on the pivot `(-1, 3)` of the first barrier, at the angle 0,
the response adds 0.5 to `uy`. -/
theorem barrier_hit_uy_bands_witness :
    (barrierResponse (Libm.mk Real.cos Real.sin Real.tan Real.sqrt Real.pi)
        (fun n => (n : ℝ)) 0 { start (fun n => (n : ℝ)) 1 1 with sx := -1, sy := 3 }).uy
      = ({ start (fun n => (n : ℝ)) 1 1 with sx := -1, sy := 3 } : Game ℝ).uy + 0.5 :=
  (barrier_hit_uy_bands (fun n => (n : ℝ)) 0
    { start (fun n => (n : ℝ)) 1 1 with sx := -1, sy := 3 } pivot_is_hit).2.1
    (Or.inl (by show (3 : ℝ) ≤ 3 ∧ (3 : ℝ) ≤ 4.5; norm_num))

/-- Witness of C11: with the clock `bounceClock` and the math library of the
reals, a shot charged for 15/16 at the angle 0 bounces on the floor and, in the
next frame, passes the barrier test straight above the pivot `(-1, -3)` with
`ux = 9/8`; the response sets `ux` to `-9/8`. -/
theorem barrier_hit_inverts_ux_witness :
    checkcollisionbarrier (Libm.mk Real.cos Real.sin Real.tan Real.sqrt Real.pi)
      (integrate (updateTime (Libm.mk Real.cos Real.sin Real.tan Real.sqrt Real.pi) bounceClock
        (drawBarriers (drawTargets (Libm.mk Real.cos Real.sin Real.tan Real.sqrt Real.pi)
          bounceClock (run (Libm.mk Real.cos Real.sin Real.tan Real.sqrt Real.pi) bounceClock
            [Event.frame 0, Event.key Key.GLFW_KEY_SPACE Action.GLFW_PRESS,
              Event.key Key.GLFW_KEY_SPACE Action.GLFW_RELEASE, Event.frame 0]
            (start bounceClock 1 1)))))) = some 1
    ∧ (barrierResponse (Libm.mk Real.cos Real.sin Real.tan Real.sqrt Real.pi) bounceClock 0
      (integrate (updateTime (Libm.mk Real.cos Real.sin Real.tan Real.sqrt Real.pi) bounceClock
        (drawBarriers (drawTargets (Libm.mk Real.cos Real.sin Real.tan Real.sqrt Real.pi)
          bounceClock (run (Libm.mk Real.cos Real.sin Real.tan Real.sqrt Real.pi) bounceClock
            [Event.frame 0, Event.key Key.GLFW_KEY_SPACE Action.GLFW_PRESS,
              Event.key Key.GLFW_KEY_SPACE Action.GLFW_RELEASE, Event.frame 0]
            (start bounceClock 1 1))))))).ux = -(9 / 8) := by
  refine ⟨bounce_barrier_hit.1, ?_⟩
  rw [← bounce_barrier_hit.2]
  exact (barrier_hit_inverts_ux (Libm.mk Real.cos Real.sin Real.tan Real.sqrt Real.pi)
    bounceClock 1 1 [Event.frame 0, Event.key Key.GLFW_KEY_SPACE Action.GLFW_PRESS,
      Event.key Key.GLFW_KEY_SPACE Action.GLFW_RELEASE, Event.frame 0] 0
    (Or.inr ⟨0, _, rfl⟩) (by rw [bounce_barrier_hit.1]; rfl)).1

end RealClaims

end ShootingGame
